import Mathlib

/-!
A verification development for the tesstrain training-pipeline orchestrator
(`tesstrain/generate.py` and `tesstrain/language_specific.py`).

The Python code is shallowly embedded: pure computations become Lean
functions, the process-global filesystem becomes an explicit association
list from paths to contents, external command-line tools (rasterizer,
unicharset extractor, properties tool, feature extractor, model combiner)
are modelled from the specification's external-interface contracts as
always succeeding and producing their documented output files, and the two
failure modes of the Python code are kept apart: `err_exit` (log a message
and terminate the process with exit status 1) and an unhandled Python
exception propagating out of the library.

Machine integers do not overflow in CPython, so Python `int` is embedded
as `Int`.  The float threshold `0.99 * total` in the bigram selection is
embedded exactly as the rational comparison `100 * cumsum > 99 * total`
(the binary64 value of the literal `0.99` differs from 99/100 by less than
one part in 2^52; none of the statements below sit on that boundary).
-/

namespace Tesstrain

/-- Errors corresponding to unhandled Python exceptions. -/
inductive PyError where
  | indexError
  | valueError
  | typeError
  deriving DecidableEq, Repr

/-- The two observable failure modes of the pipeline: `fatalExit` is
`err_exit` (a critical log line followed by `sys.exit(1)`), `uncaught` is
a Python exception that escapes the library without passing through
`err_exit`. -/
inductive RunError where
  | fatalExit (msg : String)
  | uncaught (e : PyError)
  deriving DecidableEq, Repr

/-! ### Character-list string utilities

These mirror the Python string operations used by the source.  They are
written by structural recursion on `List Char` so that every definition
evaluates inside the kernel (`decide`/`rfl`). -/

/-- `text.split("\n")`: split at every newline, keeping empty pieces.
`splitOnNl "".data = [[]]`, matching Python `"".split("\n") == [""]`. -/
def splitOnNl : List Char → List (List Char)
  | [] => [[]]
  | c :: rest =>
    if c = '\n' then [] :: splitOnNl rest
    else
      match splitOnNl rest with
      | [] => [[c]]
      | h :: t => (c :: h) :: t

/-- Helper for `splitWs`: `acc` holds the current (reversed) token. -/
def splitWsAux : List Char → List Char → List (List Char)
  | [], acc => if acc = [] then [] else [acc.reverse]
  | c :: rest, acc =>
    if c.isWhitespace then
      if acc = [] then splitWsAux rest []
      else acc.reverse :: splitWsAux rest []
    else splitWsAux rest (c :: acc)

/-- Python `line.split()` (no argument): split on runs of whitespace,
discarding empty tokens; `"".split() == []`. -/
def splitWs (cs : List Char) : List (List Char) :=
  splitWsAux cs []

/-- Python `str.split()` on a `String`, producing `String` tokens. -/
def pySplitWsStr (s : String) : List String :=
  (splitWs s.data).map String.mk

/-- Python `text.split("\n")` on a `String`. -/
def pyLines (text : String) : List String :=
  (splitOnNl text.data).map String.mk

/-- Digits-only decimal parser: `some n` when the list is nonempty and all
decimal digits. -/
def digitsToNat? : List Char → Option Nat
  | [] => none
  | [c] => if c.isDigit then some (c.toNat - '0'.toNat) else none
  | c :: rest =>
    if c.isDigit then
      match digitsToNat? rest with
      | some n => some ((c.toNat - '0'.toNat) * 10 ^ rest.length + n)
      | none => none
    else none

/-- Python `int(s)` on the whitespace-free tokens produced by `split()`:
an optional sign followed by decimal digits; `none` models `ValueError`. -/
def pyInt? (s : String) : Option Int :=
  match s.data with
  | '-' :: rest => (digitsToNat? rest).map (fun n => -(n : Int))
  | '+' :: rest => (digitsToNat? rest).map (fun n => (n : Int))
  | cs => (digitsToNat? cs).map (fun n => (n : Int))

/-- Concatenate a list of strings (no separator). -/
def strJoin : List String → String
  | [] => ""
  | s :: ss => s ++ strJoin ss

/-- `sep.join(l)`: interleave `sep` between the elements of `l`. -/
def joinSep (sep : String) : List String → String
  | [] => ""
  | [s] => s
  | s :: ss => s ++ sep ++ joinSep sep ss

/-! ### Filesystem model

The filesystem is an association list from full paths to file contents.
Creating or truncating a file appends or replaces its entry; directory
listings (`glob`) traverse the list in insertion order, which stands in
for the unspecified on-disk directory order. -/

structure FS where
  files : List (String × String)
  deriving DecidableEq, Repr

/-- Content of the file at `p`, if it exists. -/
def FS.read? (fs : FS) (p : String) : Option String :=
  (fs.files.find? (fun e => e.1 == p)).map (fun e => e.2)

/-- Does a file exist at `p`?  (Existence and readability coincide in this
model; permission errors are not modelled.) -/
def FS.pathExists (fs : FS) (p : String) : Bool :=
  fs.files.any (fun e => e.1 == p)

/-- `open(p, "w")` followed by writing `c`: truncate/replace if the path
exists, otherwise append a new entry. -/
def FS.write (fs : FS) (p c : String) : FS :=
  if fs.pathExists p then
    ⟨fs.files.map (fun e => if e.1 == p then (p, c) else e)⟩
  else ⟨fs.files ++ [(p, c)]⟩

/-- `shutil.move(src, dst)`: remove `src` (and any file already at `dst`),
then create `dst` with the moved content. -/
def FS.move (fs : FS) (src dst : String) : FS :=
  let c := (fs.read? src).getD ""
  ⟨(fs.files.filter (fun e => !(e.1 == src) && !(e.1 == dst))) ++ [(dst, c)]⟩

/-- Does `name` match the glob pattern `pre ++ "*" ++ post`?  (`*` may
match the empty string, as in `pathlib`.) -/
def patPrePost (pre post : String) (name : String) : Bool :=
  pre.data.isPrefixOf name.data && post.data.isSuffixOf (name.data.drop pre.data.length)

/-- Does `needle` occur as a contiguous sublist of `hay`? -/
def listInfix (needle : List Char) : List Char → Bool
  | [] => needle.isEmpty
  | c :: rest => needle.isPrefixOf (c :: rest) || listInfix needle rest

/-- Does `name` match the Phase E glob pattern `"*.exp*.tif"`? -/
def patExpTif (name : String) : Bool :=
  (".tif".data.isSuffixOf name.data)
    && listInfix ".exp".data (name.data.take (name.data.length - ".tif".data.length))

/-- The list of all file paths, in insertion order. -/
def FS.paths (fs : FS) : List String :=
  fs.files.map Prod.fst

/-- Does the full path `p` denote a file directly inside `dir` whose name
satisfies `pat`? -/
def globPred (dir : String) (pat : String → Bool) (p : String) : Bool :=
  (dir ++ "/").data.isPrefixOf p.data
    && (let name := p.data.drop (dir ++ "/").data.length
        !(name.contains '/') && pat (String.mk name))

/-- `pathlib.Path(dir).glob(pattern)`: the full paths of the files that
live directly in `dir` and whose name satisfies `pat`, in insertion
order. -/
def FS.glob (fs : FS) (dir : String) (pat : String → Bool) : List String :=
  fs.paths.filter (globPred dir pat)

/-- The final path component (the part after the last `/`). -/
def fileName (p : String) : String :=
  String.mk ((p.data.reverse.takeWhile (fun c => !(c == '/'))).reverse)

/-- Drop the extension (everything from the last dot on) of a bare file
name; a name without a dot is returned unchanged. -/
def dropExtName (cs : List Char) : List Char :=
  let rev := cs.reverse
  let rev2 := rev.dropWhile (fun c => !(c == '.'))
  match rev2 with
  | [] => cs
  | _ :: tl => tl.reverse

/-- `pathlib.Path(p).with_suffix(suf)`: replace the extension of the last
path component by `suf`. -/
def pyWithSuffix (p : String) (suf : String) : String :=
  let d := p.data
  let name := (d.reverse.takeWhile (fun c => !(c == '/'))).reverse
  let dir := d.take (d.length - name.length)
  String.mk (dir ++ dropExtName name ++ suf.data)

/-- `check_file_readable(*ps)` from `generate.py`: terminate the run
(`err_exit`) at the first path that does not exist, succeed otherwise. -/
def check_file_readable (fs : FS) (ps : List String) : Except RunError Unit :=
  match ps.find? (fun p => !(fs.pathExists p)) with
  | some p => .error (.fatalExit ("Required/expected file " ++ p ++ " does not exist"))
  | none => .ok ()

/-- Boolean success test for `Except`. -/
def isOkE : Except ε α → Bool
  | .ok _ => true
  | .error _ => false

end Tesstrain

namespace Tesstrain

/-! ### Static per-language data from `language_specific.py`

These constants are transcribed verbatim from the source module.  The
font tables are lookup data; the claims only depend on their identity
and (non-)emptiness. -/

def VALID_LANGUAGE_CODES : String :=
  "afr amh ara asm aze aze_cyrl bel ben bih bod bos bul cat ceb ces chi_sim chi_tra chr cym cyr_lid dan deu div dzo ell eng enm epo est eus fas fil fin fra frk frm gle glg grc guj hat heb hin hrv hun hye iast iku ind isl ita ita_old jav jav_java jpn kan kat kat_old kaz khm kir kmr kor kur_ara lao lat lat_lid lav lit mal mar mkd mlt msa mya nep nld nor ori pan pol por pus ron rus san sin slk slv snd spa spa_old sqi srp srp_latn swa swe syr tam tel tgk tgl tha tir tur uig ukr urd uzb uzb_cyrl vie yid gle_uncial deu_latf"

def UNUSABLE_LANGUAGE_CODES : String :=
  ""

def FRAKTUR_FONTS : List String := ["CaslonishFraxx Medium", "Cloister Black, Light", "Proclamate Light", "UnifrakturMaguntia", "Walbaum-Fraktur"]

def LATIN_FONTS : List String := ["Arial Bold", "Arial Bold Italic", "Arial Italic", "Arial", "Courier New Bold", "Courier New Bold Italic", "Courier New Italic", "Courier New", "Times New Roman, Bold", "Times New Roman, Bold Italic", "Times New Roman, Italic", "Times New Roman,", "Georgia Bold", "Georgia Italic", "Georgia", "Georgia Bold Italic", "Trebuchet MS Bold", "Trebuchet MS Bold Italic", "Trebuchet MS Italic", "Trebuchet MS", "Verdana Bold", "Verdana Italic", "Verdana", "Verdana Bold Italic", "Tex Gyre Bonum Bold", "Tex Gyre Bonum Italic", "Tex Gyre Bonum Bold Italic", "Tex Gyre Schola Bold", "Tex Gyre Schola Italic", "Tex Gyre Schola Bold Italic", "Tex Gyre Schola Regular", "DejaVu Sans Ultra-Light"]

def NEOLATIN_FONTS : List String := ["GFS Bodoni", "GFS Bodoni Bold", "GFS Bodoni Italic", "GFS Bodoni Bold Italic", "GFS Didot", "GFS Didot Bold", "GFS Didot Italic", "GFS Didot Bold Italic", "Cardo", "Cardo Bold", "Cardo Italic", "Wyld", "Wyld Italic", "EB Garamond", "EB Garamond Italic", "Junicode", "Junicode Bold", "Junicode Italic", "Junicode Bold Italic", "IM FELL DW Pica PRO", "IM FELL English PRO", "IM FELL Double Pica PRO", "IM FELL French Canon PRO", "IM FELL Great Primer PRO", "IM FELL DW Pica PRO Italic", "IM FELL English PRO Italic", "IM FELL Double Pica PRO Italic", "IM FELL French Canon PRO Italic", "IM FELL Great Primer PRO Italic"]

def IRISH_UNCIAL_FONTS : List String := ["Bunchlo Arsa Dubh GC", "Bunchlo Arsa GC", "Bunchlo Arsa GC Bold", "Bunchlo Dubh GC", "Bunchlo GC", "Bunchlo GC Bold", "Bunchlo Nua GC Bold", "Bunchló na Nod GC", "Gadelica", "Glanchlo Dubh GC", "Glanchlo GC", "Glanchlo GC Bold", "Seanchló Dubh GC", "Seanchló GC", "Seanchló GC Bold", "Seanchló na Nod GC", "Seanchló Ársa Dubh GC", "Seanchló Ársa GC", "Seanchló Ársa GC Bold", "Tromchlo Beag GC", "Tromchlo Mor GC", "Urchlo GC", "Urchlo GC Bold"]

def EARLY_LATIN_FONTS : List String :=
  FRAKTUR_FONTS ++ LATIN_FONTS ++ ["Wyld", "Wyld Italic", "GentiumAlt"]

def VIETNAMESE_FONTS : List String := ["Arial Unicode MS Bold", "Arial Bold Italic", "Arial Italic", "Arial Unicode MS", "FreeMono Bold", "Courier New Bold Italic", "FreeMono Italic", "FreeMono", "GentiumAlt Italic", "GentiumAlt", "Palatino Linotype Bold", "Palatino Linotype Bold Italic", "Palatino Linotype Italic", "Palatino Linotype", "Really No 2 LT W2G Light", "Really No 2 LT W2G Light Italic", "Really No 2 LT W2G Medium", "Really No 2 LT W2G Medium Italic", "Really No 2 LT W2G Semi-Bold", "Really No 2 LT W2G Semi-Bold Italic", "Really No 2 LT W2G Ultra-Bold", "Really No 2 LT W2G Ultra-Bold Italic", "Times New Roman, Bold", "Times New Roman, Bold Italic", "Times New Roman, Italic", "Times New Roman,", "Verdana Bold", "Verdana Italic", "Verdana", "Verdana Bold Italic", "VL Gothic", "VL PGothic"]

def DEVANAGARI_FONTS : List String := ["FreeSans", "Chandas", "Kalimati", "Uttara", "Lucida Sans", "gargi Medium", "Lohit Devanagari", "Arial Unicode MS Bold", "Ascender Uni", "Noto Sans Devanagari Bold", "Noto Sans Devanagari", "Samyak Devanagari Medium", "Sarai", "Saral LT Bold", "Saral LT Light", "Nakula", "Sahadeva", "Samanata", "Santipur OT Medium"]

def KANNADA_FONTS : List String := ["Kedage Bold", "Kedage Italic", "Kedage", "Kedage Bold Italic", "Mallige Bold", "Mallige Italic", "Mallige", "Mallige Bold Italic", "Arial Unicode MS", "Arial Unicode MS Bold", "Ascender Uni", "cheluvi Medium", "Noto Sans Kannada Bold", "Noto Sans Kannada", "Lohit Kannada", "Tunga", "Tunga Bold"]

def TELUGU_FONTS : List String := ["Pothana2000", "Vemana2000", "Lohit Telugu", "Arial Unicode MS Bold", "Ascender Uni", "Dhurjati", "Gautami Bold", "Gidugu", "Gurajada", "Lakki Reddy", "Mallanna", "Mandali", "NATS", "NTR", "Noto Sans Telugu Bold", "Noto Sans Telugu", "Peddana", "Ponnala", "Ramabhadra", "Ravi Prakash", "Sree Krushnadevaraya", "Suranna", "Suravaram", "Tenali Ramakrishna", "Gautami"]

def TAMIL_FONTS : List String := ["TAMu_Kadambri", "TAMu_Kalyani", "TAMu_Maduram", "TSCu_Paranar", "TSCu_Times", "TSCu_Paranar Bold", "FreeSans", "FreeSerif", "Lohit Tamil", "Arial Unicode MS Bold", "Ascender Uni", "Droid Sans Tamil Bold", "Droid Sans Tamil", "Karla Tamil Inclined Bold Italic", "Karla Tamil Inclined Italic", "Karla Tamil Upright Bold", "Karla Tamil Upright", "Noto Sans Tamil Bold", "Noto Sans Tamil", "Noto Sans Tamil UI Bold", "Noto Sans Tamil UI", "TSCu_Comic Normal", "Lohit Tamil Classical"]

def THAI_FONTS : List String := ["FreeSerif", "FreeSerif Italic", "Garuda", "Norasi", "Lucida Sans Typewriter", "Lucida Sans", "Garuda Oblique", "Norasi Oblique", "Norasi Italic", "Garuda Bold", "Norasi Bold", "Lucida Sans Typewriter Bold", "Lucida Sans Semi-Bold", "Garuda Bold Oblique", "Norasi Bold Italic", "Norasi Bold Oblique", "AnuParp LT Thai", "Arial Unicode MS Bold", "Arial Unicode MS", "Ascender Uni", "Loma", "Noto Serif Thai Bold", "Noto Serif Thai", "Purisa Light", "Sirichana LT Bold", "Sirichana LT", "Sukothai LT Bold", "Sukothai LT", "UtSaHaGumm LT Thai", "Tahoma"]

def KOREAN_FONTS : List String := ["Arial Unicode MS", "Arial Unicode MS Bold", "Baekmuk Batang Patched", "Baekmuk Batang", "Baekmuk Dotum", "Baekmuk Gulim", "Baekmuk Headline"]

def CHI_SIM_FONTS : List String := ["AR PL UKai CN", "AR PL UMing Patched Light", "Arial Unicode MS", "Arial Unicode MS Bold", "WenQuanYi Zen Hei Medium"]

def CHI_TRA_FONTS : List String := ["AR PL UKai TW", "AR PL UMing TW MBE Light", "AR PL UKai Patched", "AR PL UMing Patched Light", "Arial Unicode MS", "Arial Unicode MS Bold", "WenQuanYi Zen Hei Medium"]

def JPN_FONTS : List String := ["TakaoExGothic", "TakaoExMincho", "TakaoGothic", "TakaoMincho", "TakaoPGothic", "TakaoPMincho", "VL Gothic", "VL PGothic", "Noto Sans Japanese Bold", "Noto Sans Japanese Light"]

def RUSSIAN_FONTS : List String := ["Arial Bold", "Arial Bold Italic", "Arial Italic", "Arial", "Courier New Bold", "Courier New Bold Italic", "Courier New Italic", "Courier New", "Times New Roman, Bold", "Times New Roman, Bold Italic", "Times New Roman, Italic", "Times New Roman,", "Georgia Bold", "Georgia Italic", "Georgia", "Georgia Bold Italic", "Trebuchet MS Bold", "Trebuchet MS Bold Italic", "Trebuchet MS Italic", "Trebuchet MS", "Verdana Bold", "Verdana Italic", "Verdana", "Verdana Bold Italic", "DejaVu Serif", "DejaVu Serif Oblique", "DejaVu Serif Bold", "DejaVu Serif Bold Oblique", "Lucida Bright", "FreeSerif Bold", "FreeSerif Bold Italic", "DejaVu Sans Ultra-Light"]

def GREEK_FONTS : List String := ["Arial Unicode MS", "Arial Unicode MS Bold", "DejaVu Sans Mono", "DejaVu Sans Mono Oblique", "DejaVu Sans Mono Bold", "DejaVu Sans Mono Bold Oblique", "DejaVu Serif", "DejaVu Serif Semi-Condensed", "DejaVu Serif Oblique", "DejaVu Serif Bold", "DejaVu Serif Bold Oblique", "DejaVu Serif Bold Semi-Condensed", "FreeSerif Bold", "FreeSerif Bold Italic", "FreeSerif Italic", "FreeSerif", "GentiumAlt", "GentiumAlt Italic", "Linux Biolinum O Bold", "Linux Biolinum O", "Linux Libertine O Bold", "Linux Libertine O", "Linux Libertine O Bold Italic", "Linux Libertine O Italic", "Palatino Linotype Bold", "Palatino Linotype Bold Italic", "Palatino Linotype Italic", "Palatino Linotype", "UmePlus P Gothic", "VL PGothic"]

def ANCIENT_GREEK_FONTS : List String := ["GFS Artemisia", "GFS Artemisia Bold", "GFS Artemisia Bold Italic", "GFS Artemisia Italic", "GFS Bodoni", "GFS Bodoni Bold", "GFS Bodoni Bold Italic", "GFS Bodoni Italic", "GFS Didot", "GFS Didot Bold", "GFS Didot Bold Italic", "GFS Didot Italic", "GFS DidotClassic", "GFS Neohellenic", "GFS Neohellenic Bold", "GFS Neohellenic Bold Italic", "GFS Neohellenic Italic", "GFS Philostratos", "GFS Porson", "GFS Pyrsos", "GFS Solomos"]

def ARABIC_FONTS : List String := ["Arabic Transparent Bold", "Arabic Transparent", "Arab", "Arial Unicode MS Bold", "Arial Unicode MS", "ASVCodar LT Bold", "ASVCodar LT Light", "Badiya LT Bold", "Badiya LT", "Badr LT Bold", "Badr LT", "Dimnah", "Frutiger LT Arabic Bold", "Frutiger LT Arabic", "Furat", "Hassan LT Bold", "Hassan LT Light", "Jalal LT Bold", "Jalal LT Light", "Midan Bold", "Midan", "Mitra LT Bold", "Mitra LT Light", "Palatino LT Arabic", "Palatino Sans Arabic Bold", "Palatino Sans Arabic", "Simplified Arabic Bold", "Simplified Arabic", "Times New Roman, Bold", "Times New Roman,", "Traditional Arabic Bold", "Traditional Arabic"]

def HEBREW_FONTS : List String := ["Arial Bold", "Arial Bold Italic", "Arial Italic", "Arial", "Courier New Bold", "Courier New Bold Italic", "Courier New Italic", "Courier New", "Ergo Hebrew Semi-Bold", "Ergo Hebrew Semi-Bold Italic", "Ergo Hebrew", "Ergo Hebrew Italic", "Really No 2 LT W2G Light", "Really No 2 LT W2G Light Italic", "Really No 2 LT W2G Medium", "Really No 2 LT W2G Medium Italic", "Really No 2 LT W2G Semi-Bold", "Really No 2 LT W2G Semi-Bold Italic", "Really No 2 LT W2G Ultra-Bold", "Really No 2 LT W2G Ultra-Bold Italic", "Times New Roman, Bold", "Times New Roman, Bold Italic", "Times New Roman, Italic", "Times New Roman,", "Lucida Sans", "Tahoma"]

def BENGALI_FONTS : List String := ["Bangla Medium", "Lohit Bengali", "Mukti Narrow", "Mukti Narrow Bold", "Jamrul Medium Semi-Expanded", "Likhan Medium", "Arial Unicode MS Bold", "Ascender Uni", "FreeSans", "FreeSans Oblique", "FreeSerif", "FreeSerif Italic", "Noto Sans Bengali Bold", "Noto Sans Bengali", "Ani", "Lohit Assamese", "Lohit Bengali", "Mitra Mono"]

def KYRGYZ_FONTS : List String := ["Arial", "Arial Bold", "Arial Italic", "Arial Bold Italic", "Courier New", "Courier New Bold", "Courier New Italic", "Courier New Bold Italic", "Times New Roman,", "Times New Roman, Bold", "Times New Roman, Bold Italic", "Times New Roman, Italic", "DejaVu Serif", "DejaVu Serif Oblique", "DejaVu Serif Bold", "DejaVu Serif Bold Oblique", "Lucida Bright", "FreeSerif Bold", "FreeSerif Bold Italic"]

def PERSIAN_FONTS : List String := ["Amiri Bold Italic", "Amiri Bold", "Amiri Italic", "Amiri", "Andale Sans Arabic Farsi", "Arial Unicode MS", "Arial Unicode MS Bold", "Lateef", "Lucida Bright", "Lucida Sans Oblique", "Lucida Sans Semi-Bold", "Lucida Sans", "Lucida Sans Typewriter Bold", "Lucida Sans Typewriter Oblique", "Lucida Sans Typewriter", "Scheherazade", "Tahoma", "Times New Roman,", "Times New Roman, Bold", "Times New Roman, Bold Italic", "Times New Roman, Italic", "Yakout Linotype Bold", "Yakout Linotype"]

def AMHARIC_FONTS : List String := ["Abyssinica SIL", "Droid Sans Ethiopic Bold", "Droid Sans Ethiopic", "FreeSerif", "Noto Sans Ethiopic Bold", "Noto Sans Ethiopic"]

def ARMENIAN_FONTS : List String := ["Arial Unicode MS", "Arial Unicode MS Bold", "Ascender Uni", "FreeMono", "FreeMono Italic", "FreeSans", "FreeSans Bold", "FreeSans Oblique"]

def BURMESE_FONTS : List String := ["Myanmar Sans Pro", "Noto Sans Myanmar Bold", "Noto Sans Myanmar", "Padauk Bold", "Padauk", "TharLon"]

def JAVANESE_FONTS : List String := ["Prada"]

def NORTH_AMERICAN_ABORIGINAL_FONTS : List String := ["Aboriginal Sans", "Aboriginal Sans Bold Italic", "Aboriginal Sans Italic", "Aboriginal Sans Bold", "Aboriginal Serif Bold", "Aboriginal Serif Bold Italic", "Aboriginal Serif Italic", "Aboriginal Serif"]

def GEORGIAN_FONTS : List String := ["Arial Unicode MS Bold", "Arial Unicode MS", "BPG Algeti GPL\\&GNU", "BPG Chveulebrivi GPL\\&GNU", "BPG Courier GPL\\&GNU", "BPG Courier S GPL\\&GNU", "BPG DejaVu Sans 2011 GNU-GPL", "BPG Elite GPL\\&GNU", "BPG Excelsior GPL\\&GNU", "BPG Glaho GPL\\&GNU", "BPG Gorda GPL\\&GNU", "BPG Ingiri GPL\\&GNU", "BPG Mrgvlovani Caps GNU\\&GPL", "BPG Mrgvlovani GPL\\&GNU", "BPG Nateli Caps GPL\\&GNU Light", "BPG Nateli Condenced GPL\\&GNU Light", "BPG Nateli GPL\\&GNU Light", "BPG Nino Medium Cond GPL\\&GNU", "BPG Nino Medium GPL\\&GNU Medium", "BPG Sans GPL\\&GNU", "BPG Sans Medium GPL\\&GNU", "BPG Sans Modern GPL\\&GNU", "BPG Sans Regular GPL\\&GNU", "BPG Serif GPL\\&GNU", "BPG Serif Modern GPL\\&GNU", "FreeMono", "FreeMono Bold Italic", "FreeSans", "FreeSerif", "FreeSerif Bold", "FreeSerif Bold Italic", "FreeSerif Italic"]

def OLD_GEORGIAN_FONTS : List String := ["Arial Unicode MS Bold", "Arial Unicode MS", "BPG Algeti GPL\\&GNU", "BPG Courier S GPL\\&GNU", "BPG DejaVu Sans 2011 GNU-GPL", "BPG Elite GPL\\&GNU", "BPG Excelsior GPL\\&GNU", "BPG Glaho GPL\\&GNU", "BPG Ingiri GPL\\&GNU", "BPG Mrgvlovani Caps GNU\\&GPL", "BPG Mrgvlovani GPL\\&GNU", "BPG Nateli Caps GPL\\&GNU Light", "BPG Nateli Condenced GPL\\&GNU Light", "BPG Nateli GPL\\&GNU Light", "BPG Nino Medium Cond GPL\\&GNU", "BPG Nino Medium GPL\\&GNU Medium", "BPG Sans GPL\\&GNU", "BPG Sans Medium GPL\\&GNU", "BPG Sans Modern GPL\\&GNU", "BPG Sans Regular GPL\\&GNU", "BPG Serif GPL\\&GNU", "BPG Serif Modern GPL\\&GNU", "FreeSans", "FreeSerif", "FreeSerif Bold", "FreeSerif Bold Italic", "FreeSerif Italic"]

def KHMER_FONTS : List String := ["Khmer OS", "Khmer OS System", "Khmer OS Battambang", "Khmer OS Bokor", "Khmer OS Content", "Khmer OS Fasthand", "Khmer OS Freehand", "Khmer OS Metal Chrieng", "Khmer OS Muol Light", "Khmer OS Muol Pali", "Khmer OS Muol", "Khmer OS Siemreap", "Noto Sans Bold", "Noto Sans", "Noto Serif Khmer Bold", "Noto Serif Khmer Light"]

def KURDISH_FONTS : List String := ["Amiri Bold Italic", "Amiri Bold", "Amiri Italic", "Amiri", "Arial Unicode MS", "Arial Unicode MS Bold", "Lateef", "Lucida Bright", "Lucida Sans Oblique", "Lucida Sans Semi-Bold", "Lucida Sans", "Lucida Sans Typewriter Bold", "Lucida Sans Typewriter Oblique", "Lucida Sans Typewriter", "Scheherazade", "Tahoma", "Times New Roman,", "Times New Roman, Bold", "Times New Roman, Bold Italic", "Times New Roman, Italic", "Unikurd Web", "Yakout Linotype Bold", "Yakout Linotype"]

def LAOTHIAN_FONTS : List String := ["Phetsarath OT", "Arial Unicode MS", "Arial Unicode MS Bold", "Ascender Uni", "Dhyana Bold", "Dhyana", "Lao Muang Don", "Lao Muang Khong", "Lao Sans Pro", "Noto Sans Lao Bold", "Noto Sans Lao", "Noto Sans Lao UI Bold", "Noto Sans Lao UI", "Noto Serif Lao Bold", "Noto Serif Lao", "Phetsarath Bold", "Phetsarath", "Souliyo Unicode"]

def GUJARATI_FONTS : List String := ["Lohit Gujarati", "Rekha Medium", "Samyak Gujarati Medium", "aakar Medium", "padmaa Bold", "padmaa Medium", "Arial Unicode MS", "Arial Unicode MS Bold", "Ascender Uni", "FreeSans", "Noto Sans Gujarati Bold", "Noto Sans Gujarati", "Shruti", "Shruti Bold"]

def MALAYALAM_FONTS : List String := ["AnjaliOldLipi", "Arial Unicode MS", "Arial Unicode MS Bold", "Ascender Uni", "Dyuthi", "FreeSerif", "Kalyani", "Kartika", "Kartika Bold", "Lohit Malayalam", "Meera", "Noto Sans Malayalam Bold", "Noto Sans Malayalam", "Rachana", "Rachana_w01", "RaghuMalayalam", "suruma"]

def ORIYA_FONTS : List String := ["Arial Unicode MS", "Arial Unicode MS Bold", "Ascender Uni", "ori1Uni Medium", "Samyak Oriya Medium", "Lohit Oriya"]

def PUNJABI_FONTS : List String := ["Arial Unicode MS", "Arial Unicode MS Bold", "Ascender Uni", "Saab", "Lohit Punjabi", "Noto Sans Gurmukhi", "Noto Sans Gurmukhi Bold", "FreeSans", "FreeSans Bold", "FreeSerif"]

def SINHALA_FONTS : List String := ["Noto Sans Sinhala Bold", "Noto Sans Sinhala", "OCRUnicode", "Yagpo", "LKLUG", "FreeSerif"]

def SYRIAC_FONTS : List String := ["East Syriac Adiabene", "East Syriac Ctesiphon", "Estrangelo Antioch", "Estrangelo Edessa", "Estrangelo Midyat", "Estrangelo Nisibin", "Estrangelo Quenneshrin", "Estrangelo Talada", "Estrangelo TurAbdin", "Serto Batnan Bold", "Serto Batnan", "Serto Jerusalem Bold", "Serto Jerusalem Italic", "Serto Jerusalem", "Serto Kharput", "Serto Malankara", "Serto Mardin Bold", "Serto Mardin", "Serto Urhoy Bold", "Serto Urhoy", "FreeSans"]

def THAANA_FONTS : List String := ["FreeSerif"]

def TIBETAN_FONTS : List String := ["Arial Unicode MS", "Arial Unicode MS Bold", "Ascender Uni", "DDC Uchen", "Jomolhari", "Kailasa", "Kokonor", "Tibetan Machine Uni", "TibetanTsugRing", "Yagpo"]

def VERTICAL_FONTS : List String := ["TakaoExGothic", "TakaoExMincho", "AR PL UKai Patched", "AR PL UMing Patched Light", "Baekmuk Batang Patched"]

end Tesstrain

namespace Tesstrain

/-! ### The run configuration

`TrainingArguments` (defined in `tesstrain/arguments.py`, which is not part
of this snapshot) is, per the specification, "a mutable record created once
per invocation, holding resolved paths ..., the language code, and every
parameter the Resolver may set".  Modelled from the spec: the record below
carries the caller-supplied inputs used by the Resolver (`fonts`,
`exposures`), every field of the Resolver's `vars_to_transfer` table, and
the path/flag fields read by the phase functions of `generate.py`.

`exposures` deserves care: the caller supplies a list of lists (the CLI
appends one list per occurrence of the option), and the Resolver stores
back the flattened list of integers into the same attribute.  A dynamic
element type captures both shapes. -/

/-- One element of the dynamically-typed `ctx.exposures` list: either an
integer (after the Resolver has run) or a list of integers (as supplied by
the caller). -/
inductive ExpoElem where
  | i (n : Int)
  | l (xs : List Int)
  deriving DecidableEq, Repr

structure TrainingArguments where
  fonts : List String
  exposures : List ExpoElem
  ambigs_filter_denominator : String
  bigram_dawg_factor : ℚ
  filter_arguments : List String
  fragments_disabled : String
  generate_word_bigrams : Option Int
  lang_is_rtl : Bool
  leading : Int
  mean_count : Int
  mix_lang : String
  norm_mode : Int
  number_dawg_factor : ℚ
  punc_dawg_factor : Option ℚ
  run_shape_clustering : Bool
  text2image_extra_args : List String
  text_corpus : String
  training_data_arguments : List String
  word_dawg_factor : ℚ
  word_dawg_size : Option Int
  wordlist2dawg_arguments : String
  training_dir : String
  output_dir : String
  langdata_dir : String
  tessdata_dir : String
  lang_code : String
  training_text : String
  bigram_freqs_file : String
  train_ngrams_file : String
  extract_font_properties : Bool
  save_box_tiff : Bool
  unicharset_file : String
  xheights_file : String
  deriving DecidableEq, Repr

/-- `list(map(int, itertools.chain(*ctx.exposures or [])))`: flatten one
level.  Unpacking an `int` element into `chain` makes the iteration raise
`TypeError` ("int object is not iterable"); `int()` on the inner elements
is the identity because they already are integers. -/
def chainFlatten : List ExpoElem → Except PyError (List Int)
  | [] => .ok []
  | .l xs :: rest => do
    let r ← chainFlatten rest
    .ok (xs ++ r)
  | .i _ :: _ => .error .typeError

/-- The local variables of `set_lang_specific_parameters`, one field per
Python local (upper-case in the source). -/
structure LangParams where
  TEXT_CORPUS : String
  FILTER_ARGUMENTS : List String
  WORDLIST2DAWG_ARGUMENTS : String
  PUNC_DAWG_FACTOR : Option ℚ
  NUMBER_DAWG_FACTOR : ℚ
  WORD_DAWG_FACTOR : ℚ
  BIGRAM_DAWG_FACTOR : ℚ
  TRAINING_DATA_ARGUMENTS : List String
  FRAGMENTS_DISABLED : String
  RUN_SHAPE_CLUSTERING : Bool
  AMBIGS_FILTER_DENOMINATOR : String
  LEADING : Int
  MEAN_COUNT : Int
  MIX_LANG : String
  FONTS : List String
  TEXT2IMAGE_EXTRA_ARGS : List String
  EXPOSURES : List Int
  GENERATE_WORD_BIGRAMS : Option Int
  WORD_DAWG_SIZE : Option Int
  deriving DecidableEq, Repr

/-- The `if lang == ... / elif ... / else raise ValueError` dispatch of
`set_lang_specific_parameters` (lines 931-1319), one `if` per branch, in
source order.  `pre` is the module constant `FLAGS_webtext_prefix`. -/
def langDispatch (pre : String) (lang : String) (p : LangParams) : Except PyError LangParams :=
  if lang = "enm" then .ok { p with
    TEXT2IMAGE_EXTRA_ARGS := p.TEXT2IMAGE_EXTRA_ARGS ++ ["--ligatures"],
    FONTS := if p.FONTS = [] then EARLY_LATIN_FONTS else p.FONTS }
  else if lang = "frm" then .ok { p with
    TEXT_CORPUS := pre ++ "/fra.corpus.txt",
    FILTER_ARGUMENTS := p.FILTER_ARGUMENTS ++ ["--make_early_language_variant=fra"],
    TEXT2IMAGE_EXTRA_ARGS := p.TEXT2IMAGE_EXTRA_ARGS ++ ["--ligatures"],
    FONTS := if p.FONTS = [] then EARLY_LATIN_FONTS else p.FONTS }
  else if lang = "frk" ∨ lang = "deu_latf" then .ok { p with
    TEXT_CORPUS := pre ++ "/deu.corpus.txt",
    FONTS := if p.FONTS = [] then FRAKTUR_FONTS else p.FONTS }
  else if lang = "ita_old" then .ok { p with
    TEXT_CORPUS := pre ++ "/ita.corpus.txt",
    FILTER_ARGUMENTS := p.FILTER_ARGUMENTS ++ ["--make_early_language_variant=ita"],
    TEXT2IMAGE_EXTRA_ARGS := p.TEXT2IMAGE_EXTRA_ARGS ++ ["--ligatures"],
    FONTS := if p.FONTS = [] then EARLY_LATIN_FONTS else p.FONTS }
  else if lang = "lat" then .ok { p with
    EXPOSURES := if p.EXPOSURES = [] then [-3, -2, -1, 0, 1, 2, 3] else p.EXPOSURES,
    FONTS := if p.FONTS = [] then NEOLATIN_FONTS else p.FONTS }
  else if lang = "spa_old" then .ok { p with
    TEXT_CORPUS := pre ++ "/spa.corpus.txt",
    FILTER_ARGUMENTS := p.FILTER_ARGUMENTS ++ ["--make_early_language_variant=spa"],
    TEXT2IMAGE_EXTRA_ARGS := p.TEXT2IMAGE_EXTRA_ARGS ++ ["--ligatures"],
    FONTS := if p.FONTS = [] then EARLY_LATIN_FONTS else p.FONTS }
  else if lang = "srp_latn" then .ok { p with
    TEXT_CORPUS := pre ++ "/srp.corpus.txt" }
  else if lang = "vie" then .ok { p with
    TRAINING_DATA_ARGUMENTS := p.TRAINING_DATA_ARGUMENTS ++ ["--infrequent_ratio=10000"],
    FONTS := if p.FONTS = [] then VIETNAMESE_FONTS else p.FONTS }
  else if lang = "hun" then .ok { p with WORD_DAWG_SIZE := some 1000000 }
  else if lang = "pol" then .ok { p with WORD_DAWG_SIZE := some 1000000 }
  else if lang = "afr" then .ok p
  else if lang = "aze" then .ok p
  else if lang = "bos" then .ok p
  else if lang = "cat" then .ok p
  else if lang = "ceb" then .ok p
  else if lang = "ces" then .ok { p with PUNC_DAWG_FACTOR := some 0.004 }
  else if lang = "cym" then .ok p
  else if lang = "dan" then .ok p
  else if lang = "deu" then .ok { p with WORD_DAWG_FACTOR := 0.125 }
  else if lang = "eng" then .ok { p with WORD_DAWG_FACTOR := 0.03 }
  else if lang = "epo" then .ok p
  else if lang = "est" then .ok p
  else if lang = "eus" then .ok p
  else if lang = "fil" then .ok p
  else if lang = "fin" then .ok p
  else if lang = "fra" then .ok { p with WORD_DAWG_FACTOR := 0.08 }
  else if lang = "gle" then .ok p
  else if lang = "gle_uncial" then .ok { p with
    FONTS := if p.FONTS = [] then IRISH_UNCIAL_FONTS else p.FONTS }
  else if lang = "glg" then .ok p
  else if lang = "hat" then .ok p
  else if lang = "hrv" then .ok p
  else if lang = "iast" then .ok p
  else if lang = "ind" then .ok p
  else if lang = "isl" then .ok p
  else if lang = "ita" then .ok p
  else if lang = "jav" then .ok p
  else if lang = "lav" then .ok p
  else if lang = "lit" then .ok p
  else if lang = "mlt" then .ok p
  else if lang = "msa" then .ok p
  else if lang = "nld" then .ok { p with WORD_DAWG_FACTOR := 0.02 }
  else if lang = "nor" then .ok p
  else if lang = "por" then .ok p
  else if lang = "ron" then .ok p
  else if lang = "slk" then .ok p
  else if lang = "slv" then .ok p
  else if lang = "spa" then .ok p
  else if lang = "sqi" then .ok p
  else if lang = "swa" then .ok p
  else if lang = "swe" then .ok p
  else if lang = "tgl" then .ok p
  else if lang = "tur" then .ok p
  else if lang = "uzb" then .ok p
  else if lang = "zlm" then .ok p
  else if lang = "lat_lid" then .ok { p with
    TEXT_CORPUS := pre ++ "/lat_lid.corpus.txt",
    TRAINING_DATA_ARGUMENTS := p.TRAINING_DATA_ARGUMENTS ++ ["--infrequent_ratio=10000"],
    GENERATE_WORD_BIGRAMS := some 0,
    WORD_DAWG_SIZE := some 1000000,
    FONTS := if p.FONTS = [] then EARLY_LATIN_FONTS else p.FONTS }
  else if lang = "rus" then .ok { p with
    FONTS := if p.FONTS = [] then RUSSIAN_FONTS else p.FONTS,
    MIX_LANG := "rus",
    NUMBER_DAWG_FACTOR := 0.05,
    WORD_DAWG_SIZE := some 1000000 }
  else if lang = "aze_cyrl" ∨ lang = "bel" ∨ lang = "bul" ∨ lang = "kaz" ∨ lang = "mkd"
      ∨ lang = "srp" ∨ lang = "tgk" ∨ lang = "ukr" ∨ lang = "uzb_cyrl" then .ok { p with
    MIX_LANG := lang,
    FONTS := if p.FONTS = [] then RUSSIAN_FONTS else p.FONTS }
  else if lang = "cyr_lid" then .ok { p with
    TEXT_CORPUS := pre ++ "/cyr_lid.corpus.txt",
    TRAINING_DATA_ARGUMENTS := p.TRAINING_DATA_ARGUMENTS ++ ["--infrequent_ratio=10000"],
    GENERATE_WORD_BIGRAMS := some 0,
    WORD_DAWG_SIZE := some 1000000,
    FONTS := if p.FONTS = [] then RUSSIAN_FONTS else p.FONTS }
  else if lang = "asm" ∨ lang = "ben" then .ok { p with
    MEAN_COUNT := 15,
    WORD_DAWG_FACTOR := 0.15,
    FONTS := if p.FONTS = [] then BENGALI_FONTS else p.FONTS }
  else if lang = "bih" ∨ lang = "hin" ∨ lang = "mar" ∨ lang = "nep" ∨ lang = "san" then
    .ok { p with
      MEAN_COUNT := 15,
      WORD_DAWG_FACTOR := 0.15,
      FONTS := if p.FONTS = [] then DEVANAGARI_FONTS else p.FONTS }
  else if lang = "bod" then .ok { p with
    MEAN_COUNT := 15,
    WORD_DAWG_FACTOR := 0.15,
    FONTS := if p.FONTS = [] then TIBETAN_FONTS else p.FONTS }
  else if lang = "dzo" then .ok { p with
    WORD_DAWG_FACTOR := 0.01,
    FONTS := if p.FONTS = [] then TIBETAN_FONTS else p.FONTS }
  else if lang = "guj" then .ok { p with
    MEAN_COUNT := 15,
    WORD_DAWG_FACTOR := 0.15,
    FONTS := if p.FONTS = [] then GUJARATI_FONTS else p.FONTS }
  else if lang = "kan" then .ok { p with
    MEAN_COUNT := 15,
    WORD_DAWG_FACTOR := 0.15,
    TRAINING_DATA_ARGUMENTS := p.TRAINING_DATA_ARGUMENTS ++ ["--no_newline_in_output"],
    TEXT2IMAGE_EXTRA_ARGS := p.TEXT2IMAGE_EXTRA_ARGS ++ ["--char_spacing=0.5"],
    FONTS := if p.FONTS = [] then KANNADA_FONTS else p.FONTS }
  else if lang = "mal" then .ok { p with
    MEAN_COUNT := 15,
    WORD_DAWG_FACTOR := 0.15,
    TRAINING_DATA_ARGUMENTS := p.TRAINING_DATA_ARGUMENTS ++ ["--no_newline_in_output"],
    TEXT2IMAGE_EXTRA_ARGS := p.TEXT2IMAGE_EXTRA_ARGS ++ ["--char_spacing=0.5"],
    FONTS := if p.FONTS = [] then MALAYALAM_FONTS else p.FONTS }
  else if lang = "ori" then .ok { p with
    WORD_DAWG_FACTOR := 0.01,
    FONTS := if p.FONTS = [] then ORIYA_FONTS else p.FONTS }
  else if lang = "pan" then .ok { p with
    MEAN_COUNT := 15,
    WORD_DAWG_FACTOR := 0.01,
    FONTS := if p.FONTS = [] then PUNJABI_FONTS else p.FONTS }
  else if lang = "sin" then .ok { p with
    MEAN_COUNT := 15,
    WORD_DAWG_FACTOR := 0.01,
    FONTS := if p.FONTS = [] then SINHALA_FONTS else p.FONTS }
  else if lang = "tam" then .ok { p with
    MEAN_COUNT := 30,
    WORD_DAWG_FACTOR := 0.15,
    TRAINING_DATA_ARGUMENTS := p.TRAINING_DATA_ARGUMENTS ++ ["--no_newline_in_output"],
    TEXT2IMAGE_EXTRA_ARGS := p.TEXT2IMAGE_EXTRA_ARGS ++ ["--char_spacing=0.5"],
    FONTS := if p.FONTS = [] then TAMIL_FONTS else p.FONTS }
  else if lang = "tel" then .ok { p with
    MEAN_COUNT := 15,
    WORD_DAWG_FACTOR := 0.15,
    TRAINING_DATA_ARGUMENTS := p.TRAINING_DATA_ARGUMENTS ++ ["--no_newline_in_output"],
    TEXT2IMAGE_EXTRA_ARGS := p.TEXT2IMAGE_EXTRA_ARGS ++ ["--char_spacing=0.5"],
    FONTS := if p.FONTS = [] then TELUGU_FONTS else p.FONTS }
  else if lang = "jav_java" then .ok { p with
    MEAN_COUNT := 15,
    WORD_DAWG_FACTOR := 0.15,
    TRAINING_DATA_ARGUMENTS := p.TRAINING_DATA_ARGUMENTS ++ ["--infrequent_ratio=10000"],
    FONTS := if p.FONTS = [] then JAVANESE_FONTS else p.FONTS }
  else if lang = "khm" then .ok { p with
    MEAN_COUNT := 15,
    WORD_DAWG_FACTOR := 0.15,
    TRAINING_DATA_ARGUMENTS := p.TRAINING_DATA_ARGUMENTS ++ ["--infrequent_ratio=10000"],
    FONTS := if p.FONTS = [] then KHMER_FONTS else p.FONTS }
  else if lang = "lao" then .ok { p with
    MEAN_COUNT := 15,
    WORD_DAWG_FACTOR := 0.15,
    TRAINING_DATA_ARGUMENTS := p.TRAINING_DATA_ARGUMENTS ++ ["--infrequent_ratio=10000"],
    FONTS := if p.FONTS = [] then LAOTHIAN_FONTS else p.FONTS }
  else if lang = "mya" then .ok { p with
    MEAN_COUNT := 12,
    WORD_DAWG_FACTOR := 0.15,
    TRAINING_DATA_ARGUMENTS := p.TRAINING_DATA_ARGUMENTS ++ ["--infrequent_ratio=10000"],
    FONTS := if p.FONTS = [] then BURMESE_FONTS else p.FONTS }
  else if lang = "tha" then .ok { p with
    MEAN_COUNT := 30,
    WORD_DAWG_FACTOR := 0.01,
    TRAINING_DATA_ARGUMENTS := p.TRAINING_DATA_ARGUMENTS ++ ["--infrequent_ratio=10000"]
      ++ ["--no_space_in_output", "--desired_bigrams="],
    FILTER_ARGUMENTS := p.FILTER_ARGUMENTS ++ ["--segmenter_lang=tha"],
    AMBIGS_FILTER_DENOMINATOR := "1000",
    LEADING := 48,
    FONTS := if p.FONTS = [] then THAI_FONTS else p.FONTS }
  else if lang = "chi_sim" then .ok { p with
    MEAN_COUNT := 15,
    PUNC_DAWG_FACTOR := some 0.015,
    WORD_DAWG_FACTOR := 0.015,
    GENERATE_WORD_BIGRAMS := some 0,
    TRAINING_DATA_ARGUMENTS := p.TRAINING_DATA_ARGUMENTS ++ ["--infrequent_ratio=10000"]
      ++ ["--no_space_in_output", "--desired_bigrams="],
    FILTER_ARGUMENTS := p.FILTER_ARGUMENTS ++ ["--charset_filter=chi_sim", "--segmenter_lang=chi_sim"],
    FONTS := if p.FONTS = [] then CHI_SIM_FONTS else p.FONTS }
  else if lang = "chi_tra" then .ok { p with
    MEAN_COUNT := 15,
    WORD_DAWG_FACTOR := 0.015,
    GENERATE_WORD_BIGRAMS := some 0,
    TRAINING_DATA_ARGUMENTS := p.TRAINING_DATA_ARGUMENTS ++ ["--infrequent_ratio=10000"]
      ++ ["--no_space_in_output", "--desired_bigrams="],
    FILTER_ARGUMENTS := p.FILTER_ARGUMENTS ++ ["--charset_filter=chi_tr", "--segmenter_lang=chi_tra"],
    FONTS := if p.FONTS = [] then CHI_TRA_FONTS else p.FONTS }
  else if lang = "jpn" then .ok { p with
    MEAN_COUNT := 15,
    WORD_DAWG_FACTOR := 0.015,
    GENERATE_WORD_BIGRAMS := some 0,
    TRAINING_DATA_ARGUMENTS := p.TRAINING_DATA_ARGUMENTS ++ ["--infrequent_ratio=10000"]
      ++ ["--no_space_in_output", "--desired_bigrams="],
    FILTER_ARGUMENTS := p.FILTER_ARGUMENTS ++ ["--charset_filter=jpn", "--segmenter_lang=jpn"],
    FONTS := if p.FONTS = [] then JPN_FONTS else p.FONTS }
  else if lang = "kor" then .ok { p with
    MEAN_COUNT := 20,
    WORD_DAWG_FACTOR := 0.015,
    NUMBER_DAWG_FACTOR := 0.05,
    TRAINING_DATA_ARGUMENTS := p.TRAINING_DATA_ARGUMENTS ++ ["--infrequent_ratio=10000"]
      ++ ["--desired_bigrams="],
    GENERATE_WORD_BIGRAMS := some 0,
    FILTER_ARGUMENTS := p.FILTER_ARGUMENTS ++ ["--charset_filter=kor", "--segmenter_lang=kor"],
    FONTS := if p.FONTS = [] then KOREAN_FONTS else p.FONTS }
  else if lang = "ara" then .ok { p with
    FONTS := if p.FONTS = [] then ARABIC_FONTS else p.FONTS }
  else if lang = "div" then .ok { p with
    FONTS := if p.FONTS = [] then THAANA_FONTS else p.FONTS }
  else if lang = "fas" ∨ lang = "pus" ∨ lang = "snd" ∨ lang = "uig" ∨ lang = "urd" then
    .ok { p with FONTS := if p.FONTS = [] then PERSIAN_FONTS else p.FONTS }
  else if lang = "heb" ∨ lang = "yid" then .ok { p with
    NUMBER_DAWG_FACTOR := 0.05,
    WORD_DAWG_FACTOR := 0.08,
    FONTS := if p.FONTS = [] then HEBREW_FONTS else p.FONTS }
  else if lang = "syr" then .ok { p with
    FONTS := if p.FONTS = [] then SYRIAC_FONTS else p.FONTS }
  else if lang = "amh" ∨ lang = "tir" then .ok { p with
    FONTS := if p.FONTS = [] then AMHARIC_FONTS else p.FONTS }
  else if lang = "chr" then .ok { p with
    FONTS := if p.FONTS = [] then NORTH_AMERICAN_ABORIGINAL_FONTS ++ ["Noto Sans Cherokee"]
             else p.FONTS }
  else if lang = "ell" then .ok { p with
    NUMBER_DAWG_FACTOR := 0.05,
    WORD_DAWG_FACTOR := 0.08,
    FONTS := if p.FONTS = [] then GREEK_FONTS else p.FONTS }
  else if lang = "grc" then .ok { p with
    EXPOSURES := if p.EXPOSURES = [] then [-3, -2, -1, 0, 1, 2, 3] else p.EXPOSURES,
    FONTS := if p.FONTS = [] then ANCIENT_GREEK_FONTS else p.FONTS }
  else if lang = "hye" then .ok { p with
    FONTS := if p.FONTS = [] then ARMENIAN_FONTS else p.FONTS }
  else if lang = "iku" then .ok { p with
    FONTS := if p.FONTS = [] then NORTH_AMERICAN_ABORIGINAL_FONTS else p.FONTS }
  else if lang = "kat" then .ok { p with
    FONTS := if p.FONTS = [] then GEORGIAN_FONTS else p.FONTS }
  else if lang = "kat_old" then .ok { p with
    TEXT_CORPUS := pre ++ "/kat.corpus.txt",
    FONTS := if p.FONTS = [] then OLD_GEORGIAN_FONTS else p.FONTS }
  else if lang = "kir" then .ok { p with
    FONTS := if p.FONTS = [] then KYRGYZ_FONTS else p.FONTS,
    TRAINING_DATA_ARGUMENTS := p.TRAINING_DATA_ARGUMENTS ++ ["--infrequent_ratio=100"] }
  else if lang = "kmr" then .ok { p with
    FONTS := if p.FONTS = [] then LATIN_FONTS else p.FONTS }
  else if lang = "kur_ara" then .ok { p with
    FONTS := if p.FONTS = [] then KURDISH_FONTS else p.FONTS }
  else .error .valueError

/-- The language codes of the right-to-left branch of the
`norm_mode`/`lang_is_rtl` selection (lines 1335-1347). -/
def RTL_LANG_CODES : List String :=
  ["ara", "div", "fas", "pus", "snd", "syr", "uig", "urd", "kur_ara", "heb", "yid"]

/-- The language codes of the `norm_mode = 2`, non-RTL branch (lines
1350-1374).  The entry `"jav "` carries a trailing space in the source. -/
def NORM2_LANG_CODES : List String :=
  ["asm", "ben", "bih", "hin", "mar", "nep", "guj", "kan", "mal", "tam", "tel", "pan",
   "dzo", "sin", "san", "bod", "ori", "khm", "mya", "tha", "lao", "jav ", "jav_java"]

/-- The initial values of the locals of `set_lang_specific_parameters`
(lines 901-928), before the language dispatch. -/
def initialLangParams (pre lang : String) (fonts : List String) (exps : List Int) : LangParams := {
  TEXT_CORPUS := pre ++ "/" ++ lang ++ ".corpus.txt"
  FILTER_ARGUMENTS := []
  WORDLIST2DAWG_ARGUMENTS := ""
  PUNC_DAWG_FACTOR := none
  NUMBER_DAWG_FACTOR := 0.125
  WORD_DAWG_FACTOR := 0.05
  BIGRAM_DAWG_FACTOR := 0.015
  TRAINING_DATA_ARGUMENTS := []
  FRAGMENTS_DISABLED := "y"
  RUN_SHAPE_CLUSTERING := false
  AMBIGS_FILTER_DENOMINATOR := "100000"
  LEADING := 32
  MEAN_COUNT := 40
  MIX_LANG := "eng"
  FONTS := fonts
  TEXT2IMAGE_EXTRA_ARGS := []
  EXPOSURES := exps
  GENERATE_WORD_BIGRAMS := none
  WORD_DAWG_SIZE := none }

/-- Lines 1321-1325: a positive `FLAGS_mean_count` environment override
appends a `--mean_count` training argument; otherwise a flag would be
appended only if `MEAN_COUNT` were falsy (zero), which no branch
produces. -/
def applyMeanCountFlags (flags_mean_count : Int) (p : LangParams) : LangParams :=
  if flags_mean_count > 0 then
    { p with TRAINING_DATA_ARGUMENTS :=
        p.TRAINING_DATA_ARGUMENTS ++ ["--mean_count=" ++ toString flags_mean_count] }
  else if p.MEAN_COUNT = 0 then
    { p with TRAINING_DATA_ARGUMENTS :=
        p.TRAINING_DATA_ARGUMENTS ++ ["--mean_count=" ++ toString p.MEAN_COUNT] }
  else p

/-- Lines 1327-1329: default to the Latin fonts if none have been set. -/
def applyFontDefault (p : LangParams) : LangParams :=
  if p.FONTS = [] then { p with FONTS := LATIN_FONTS } else p

/-- Lines 1331-1333: default to exposure 0 if none has been set. -/
def applyExposureDefault (p : LangParams) : LangParams :=
  if p.EXPOSURES = [] then { p with EXPOSURES := [0] } else p

/-- Lines 1334-1379: right-to-left flag and normalization mode from the
fixed script-family membership tests. -/
def rtlNormOf (lang : String) : Bool × Int :=
  if lang ∈ RTL_LANG_CODES then (true, 2)
  else if lang ∈ NORM2_LANG_CODES then (false, 2)
  else (false, 1)

/-- `set_lang_specific_parameters(ctx, lang)` from `language_specific.py`.

The two module-level environment reads become explicit arguments, as the
specification's design notes prescribe: `pre` is `FLAGS_webtext_prefix`
and `flags_mean_count` is `int(os.environ.get("FLAGS_mean_count", -1))`.

The final `for attr, value in vars_to_transfer.items(): setattr(...)` loop
assigns every listed attribute (the `hasattr`/inequality tests only select
a log message), so its net effect is the record update in
`transferParams`. -/
def transferParams (ctx : TrainingArguments) (lang : String) (p : LangParams) :
    TrainingArguments :=
  let rtlNorm := rtlNormOf lang
  { ctx with
    ambigs_filter_denominator := p.AMBIGS_FILTER_DENOMINATOR
    bigram_dawg_factor := p.BIGRAM_DAWG_FACTOR
    exposures := p.EXPOSURES.map ExpoElem.i
    filter_arguments := p.FILTER_ARGUMENTS
    fonts := p.FONTS
    fragments_disabled := p.FRAGMENTS_DISABLED
    generate_word_bigrams := p.GENERATE_WORD_BIGRAMS
    lang_is_rtl := rtlNorm.1
    leading := p.LEADING
    mean_count := p.MEAN_COUNT
    mix_lang := p.MIX_LANG
    norm_mode := rtlNorm.2
    number_dawg_factor := p.NUMBER_DAWG_FACTOR
    punc_dawg_factor := p.PUNC_DAWG_FACTOR
    run_shape_clustering := p.RUN_SHAPE_CLUSTERING
    text2image_extra_args := p.TEXT2IMAGE_EXTRA_ARGS
    text_corpus := p.TEXT_CORPUS
    training_data_arguments := p.TRAINING_DATA_ARGUMENTS
    word_dawg_factor := p.WORD_DAWG_FACTOR
    word_dawg_size := p.WORD_DAWG_SIZE
    wordlist2dawg_arguments := p.WORDLIST2DAWG_ARGUMENTS }

/-- The Resolver: flatten the caller exposures, run the language dispatch,
apply the post-dispatch defaults, and transfer every computed value into
the run configuration. -/
def set_lang_specific_parameters (pre : String) (flags_mean_count : Int)
    (ctx : TrainingArguments) (lang : String) : Except PyError TrainingArguments := do
  let exps ← chainFlatten ctx.exposures
  let p ← langDispatch pre lang (initialLangParams pre lang ctx.fonts exps)
  .ok (transferParams ctx lang (applyExposureDefault (applyFontDefault (applyMeanCountFlags flags_mean_count p))))

/-- The whitespace-separated entries of `VALID_LANGUAGE_CODES`, the
program's valid language-code set. -/
def validLanguageCodesList : List String :=
  pySplitWsStr VALID_LANGUAGE_CODES

end Tesstrain

namespace Tesstrain

/-! ### `generate.py`: command runner -/

/-- The ambient executable environment of `run_command`: which candidate
names `shutil.which` resolves, and the exit code the resolved tool returns
when executed. -/
structure ToolEnv where
  onPath : String → Bool
  exitCode : String → Int

/-- `run_command(cmd, *args)` (lines 51-88): probe `cmd`, `api/cmd`,
`training/cmd` in order and rebind `cmd` to the first hit; `err_exit` if
the rebound name is not on the path; run it; `err_exit` on a non-zero exit
code.  Output capture/logging has no filesystem effect and is omitted. -/
def run_command (env : ToolEnv) (cmd : String) : Except RunError Unit :=
  let cmd :=
    if env.onPath cmd then cmd
    else if env.onPath ("api/" ++ cmd) then "api/" ++ cmd
    else if env.onPath ("training/" ++ cmd) then "training/" ++ cmd
    else cmd
  if !(env.onPath cmd) then .error (.fatalExit (cmd ++ " not found"))
  else if env.exitCode cmd = 0 then .ok ()
  else .error (.fatalExit ("Program " ++ cmd ++ " failed with return code "
    ++ toString (env.exitCode cmd) ++ ". Abort."))

/-- The resolution order of `run_command` as the specification words it:
the first of the bare name and the two fixed subdirectory prefixes that is
found on the executable search path. -/
def resolveTool (env : ToolEnv) (cmd : String) : Option String :=
  (["", "api/", "training/"].map (fun d => d ++ cmd)).find? env.onPath

/-! ### `generate.py`: Phase I -/

/-- `make_fontname(font)`: replace spaces by underscores and strip
commas. -/
def make_fontname (font : String) : String :=
  String.mk ((font.data.map (fun c => if c == ' ' then '_' else c)).filter (fun c => !(c == ',')))

/-- Python `str()` of a dynamically-typed exposure value, as interpolated
into the output base name. -/
def pyStrExpo : ExpoElem → String
  | .i n => toString n
  | .l xs => "[" ++ joinSep ", " (xs.map toString) ++ "]"

/-- `make_outbase(ctx, fontname, exposure)`. -/
def make_outbase (ctx : TrainingArguments) (fontname : String) (exposure : ExpoElem) : String :=
  ctx.training_dir ++ "/" ++ ctx.lang_code ++ "." ++ fontname ++ ".exp" ++ pyStrExpo exposure

/-- The records parsed from the bigram-frequency file:
`[line.split() for line in text.split("\n")]`. -/
def parseRecords (text : String) : List (List String) :=
  (pyLines text).map pySplitWsStr

/-- Python string `<=` (lexicographic by code point), as a Boolean. -/
def charListLe : List Char → List Char → Bool
  | [], _ => true
  | _ :: _, [] => false
  | a :: as, b :: bs =>
    if a.toNat < b.toNat then true
    else if b.toNat < a.toNat then false
    else charListLe as bs

/-- `itemgetter(1)` as used for the sort key, total on the well-formed
records the sort actually receives (the `IndexError` of a short record is
raised separately, before this key is consulted). -/
def recSortKey (r : List String) : String :=
  (r[1]?).getD ""

/-- Insert `x` into a descending-sorted list, after all entries whose key
is `>=` its own: the stable insertion step of `sorted(..., reverse=True)`
for the string key `itemgetter(1)`. -/
def insertDescByKey (x : List String) : List (List String) → List (List String)
  | [] => [x]
  | y :: ys =>
    if charListLe (recSortKey x).data (recSortKey y).data then y :: insertDescByKey x ys
    else x :: y :: ys

/-- `sorted(records, key=itemgetter(1), reverse=True)`: a stable
descending sort on the *string* value of the second field. -/
def sortDescByKey (l : List (List String)) : List (List String) :=
  l.foldl (fun acc x => insertDescByKey x acc) []

/-- The n-gram write loop (lines 258-263).  Each iteration first unpacks
the record into `bigram, count` (a `ValueError` unless it has exactly two
fields), then breaks once the previously accumulated count exceeds the
threshold, else writes the bigram and accumulates.  `100 * cumsum >
99 * total` is `cumsum > 0.99 * total`; `(pyInt? count).getD 0` never
takes its default because every two-field record was already parsed while
summing the total. -/
def ngramLoop (total : Int) : List (List String) → Int → Except PyError (List String)
  | [], _ => .ok []
  | r :: rs, cumsum =>
    match r with
    | [bigram, count] =>
      if 100 * cumsum > 99 * total then .ok []
      else do
        let rest ← ngramLoop total rs (cumsum + (pyInt? count).getD 0)
        .ok (bigram :: rest)
    | _ => .error .valueError

/-- `int(rec[1])` over a record list, stopping at the first `ValueError`:
the generator consumed by `sum(...)`. -/
def parseCounts : List (List String) → Except PyError (List Int)
  | [] => .ok []
  | r :: rs =>
    match pyInt? ((r[1]?).getD "") with
    | some n => do
      let rest ← parseCounts rs
      .ok (n :: rest)
    | none => .error .valueError

/-- The n-gram derivation step of Phase I (lines 252-263): parse the
bigram-frequency text, sum `int(rec[1])` over the records with at least
two fields (a `ValueError` surfaces here first), raise `IndexError` from
the sort key if any record has fewer than two fields, then run the write
loop over the stably descending-string-sorted records.  Returns the full
content written to the n-gram file: each selected bigram followed by one
space. -/
def deriveNgrams (text : String) : Except PyError String := do
  let records := parseRecords text
  let counts ← parseCounts (records.filter (fun r => decide (2 ≤ r.length)))
  let total := counts.sum
  if records.all (fun r => decide (2 ≤ r.length)) then do
    let bs ← ngramLoop total (sortDescByKey records) 0
    .ok (strJoin (bs.map (fun b => b ++ " ")))
  else .error .indexError

/-- `generate_font_image(ctx, font, exposure, char_spacing)` restricted to
its filesystem/control effects.  The `text2image` invocations are modelled
from the spec: "Rasterizer tool: ... produces `<base>.box`, `<base>.tif`,
optionally `<base>.fontinfo`"; rendering flags (spacing, leading,
distortion, vertical writing) only shape the image contents. -/
def generate_font_image (ctx : TrainingArguments) (font : String) (exposure : ExpoElem)
    (fs : FS) : Except RunError FS := do
  let outbase := make_outbase ctx (make_fontname font) exposure
  let fs := (fs.write (outbase ++ ".box") "").write (outbase ++ ".tif") ""
  let _ ← check_file_readable fs [outbase ++ ".box", outbase ++ ".tif"]
  if ctx.extract_font_properties && fs.pathExists ctx.train_ngrams_file then do
    let fs := fs.write (outbase ++ ".fontinfo") ""
    let _ ← check_file_readable fs [outbase ++ ".fontinfo"]
    .ok fs
  else .ok fs

/-- `phase_I_generate_image(ctx, par_factor)` (lines 233-286).  The worker
pool only schedules the per-font units; they write to disjoint output
paths, so the pool is modelled by running the units in submission order,
and the normalized `par_factor` does not influence the outcome.  Per
exposure: the optional n-gram derivation (whose uncaught exceptions
propagate out of the library), the per-font units, then the final
re-verification of every box/image pair after the pool has drained. -/
def phase_I_generate_image (ctx : TrainingArguments) (par_factor : Option Int) (fs : FS) :
    Except RunError (TrainingArguments × FS) := do
  let _par : Int := match par_factor with
    | none => 1
    | some n => if n ≤ 0 then 1 else n
  let _ ← check_file_readable fs [ctx.training_text]
  let fs ← ctx.exposures.foldlM (fun fs exposure => do
    let fs ← (
      if ctx.extract_font_properties && fs.pathExists ctx.bigram_freqs_file then do
        match deriveNgrams ((fs.read? ctx.bigram_freqs_file).getD "") with
        | .error e => .error (RunError.uncaught e)
        | .ok content =>
          let fs := fs.write ctx.train_ngrams_file content
          let _ ← check_file_readable fs [ctx.train_ngrams_file]
          Except.ok fs
      else .ok fs)
    let fs ← ctx.fonts.foldlM (fun fs font => generate_font_image ctx font exposure fs) fs
    let _ ← ctx.fonts.foldlM (fun _ font =>
      check_file_readable fs
        [make_outbase ctx (make_fontname font) exposure ++ ".box",
         make_outbase ctx (make_fontname font) exposure ++ ".tif"]) ()
    Except.ok fs) fs
  .ok (ctx, fs)

/-- The base output paths Phase I is expected to populate: one per
(exposure, font) pair, in iteration order. -/
def expectedOutbases (ctx : TrainingArguments) : List String :=
  (ctx.exposures.map (fun e => ctx.fonts.map (fun f => make_outbase ctx (make_fontname f) e))).flatten

/-- The box and image files of the expected pairs. -/
def expectedPairPaths (ctx : TrainingArguments) : List String :=
  (expectedOutbases ctx).map (fun b => b ++ ".box")
    ++ (expectedOutbases ctx).map (fun b => b ++ ".tif")

/-! ### `generate.py`: Phase UP, Phase E, LSTM data assembly -/

/-- `phase_UP_generate_unicharset(ctx)` (lines 289-322).  Note the two
assignments into the run configuration (`ctx.unicharset_file`,
`ctx.xheights_file`).  The `unicharset_extractor` and
`set_unicharset_properties` runs are modelled from the spec: they produce
the unicharset file and the x-heights file respectively. -/
def phase_UP_generate_unicharset (ctx : TrainingArguments) (fs : FS) :
    Except RunError (TrainingArguments × FS) := do
  let _box_files := fs.glob ctx.training_dir (patPrePost "" ".box")
  let ctx := { ctx with unicharset_file := ctx.training_dir ++ "/" ++ ctx.lang_code ++ ".unicharset" }
  let fs := fs.write ctx.unicharset_file ""
  let _ ← check_file_readable fs [ctx.unicharset_file]
  let ctx := { ctx with xheights_file := ctx.training_dir ++ "/" ++ ctx.lang_code ++ ".xheights" }
  let fs := fs.write ctx.xheights_file ""
  let _ ← check_file_readable fs [ctx.xheights_file]
  .ok (ctx, fs)

/-- `phase_E_extract_features(ctx, box_config, ext)` (lines 325-374),
restricted to its filesystem effects.  The `tesseract` runs are modelled
from the spec: "Feature extractor: ... produces a feature file with a
fixed extension" next to each discovered image.  The language-config
lookup and the `TESSDATA_PREFIX` overlay only shape tool arguments.  The
pool (fixed size 2) is modelled sequentially as in Phase I. -/
def phase_E_extract_features (ctx : TrainingArguments) (box_config : List String)
    (ext : String) (fs : FS) : Except RunError (TrainingArguments × FS) := do
  let _box_config := box_config
  let img_files := fs.glob ctx.training_dir patExpTif
  let fs := img_files.foldl (fun fs img => fs.write (pyWithSuffix img ("." ++ ext)) "") fs
  let _ ← img_files.foldlM (fun _ img => check_file_readable fs [pyWithSuffix img ("." ++ ext)]) ()
  .ok (ctx, fs)

/-- `make_lstmdata(ctx)` (lines 377-430): run the model combiner (modelled
from the spec: "produces a starter model in the output directory"),
relocate the box/tiff pairs (when `save_box_tiff`) and the `.lstmf`
feature files into the output directory, then write the manifest: the
newline-join of the `.lstmf` paths found in the output directory. -/
def make_lstmdata (ctx : TrainingArguments) (fs : FS) :
    Except RunError (TrainingArguments × FS) := do
  let fs := fs.write (ctx.output_dir ++ "/" ++ ctx.lang_code ++ ".traineddata") ""
  let toMove :=
    (if ctx.save_box_tiff then
        fs.glob ctx.training_dir (patPrePost ctx.lang_code ".box")
          ++ fs.glob ctx.training_dir (patPrePost ctx.lang_code ".tif")
      else [])
      ++ fs.glob ctx.training_dir (patPrePost (ctx.lang_code ++ ".") ".lstmf")
  let fs := toMove.foldl (fun fs p => fs.move p (ctx.output_dir ++ "/" ++ fileName p)) fs
  let lstm_list := ctx.output_dir ++ "/" ++ ctx.lang_code ++ ".training_files.txt"
  let listing := fs.glob ctx.output_dir (patPrePost (ctx.lang_code ++ ".") ".lstmf")
  let fs := fs.write lstm_list (joinSep "\n" listing)
  .ok (ctx, fs)

/-! ### Specification-side definitions

These transcribe the *claims'* wording, to be compared against the
embedded code. -/

/-- The numeric count of a record, as the claims read "(bigram, count)
records". -/
def recCountKey (r : List String) : Int :=
  (pyInt? ((r[1]?).getD "")).getD 0

/-- Stable insertion for a *numeric* descending sort on the count. -/
def insertDescByCount (x : List String) : List (List String) → List (List String)
  | [] => [x]
  | y :: ys =>
    if recCountKey x ≤ recCountKey y then y :: insertDescByCount x ys
    else x :: y :: ys

/-- A stable descending sort by numeric count, as claim C1 words the
ordering ("sort descending by count"). -/
def sortDescByCount (l : List (List String)) : List (List String) :=
  l.foldl (fun acc x => insertDescByCount x acc) []

/-- The accumulate-until-cumulative-count-first-exceeds-99% selection of
claim C1, applied to a sorted record list. -/
def claimSelLoop (total : Int) : List (List String) → Int → List String
  | [], _ => []
  | r :: rs, cumsum =>
    if 100 * cumsum > 99 * total then []
    else (r.headD "") :: claimSelLoop total rs (cumsum + recCountKey r)

/-- The n-gram file content exactly as claim C1 describes it: the
highest-count bigrams whose cumulative count first exceeds 99% of the
total, space-joined in descending-count order. -/
def claimNgramContent (text : String) : String :=
  let records := parseRecords text
  let total := ((records.filter (fun r => decide (2 ≤ r.length))).map recCountKey).sum
  joinSep " " (claimSelLoop total (sortDescByCount records) 0)

end Tesstrain

namespace Tesstrain

/-- The language codes accepted by some branch of `langDispatch`, in
branch order.  This is the program's actual resolution domain, to be
compared against `VALID_LANGUAGE_CODES`. -/
def handledLangCodes : List String :=
  ["enm", "frm", "frk", "deu_latf", "ita_old", "lat", "spa_old", "srp_latn", "vie",
   "hun", "pol", "afr", "aze", "bos", "cat", "ceb", "ces", "cym", "dan", "deu",
   "eng", "epo", "est", "eus", "fil", "fin", "fra", "gle", "gle_uncial", "glg",
   "hat", "hrv", "iast", "ind", "isl", "ita", "jav", "lav", "lit", "mlt", "msa",
   "nld", "nor", "por", "ron", "slk", "slv", "spa", "sqi", "swa", "swe", "tgl",
   "tur", "uzb", "zlm", "lat_lid", "rus", "aze_cyrl", "bel", "bul", "kaz", "mkd",
   "srp", "tgk", "ukr", "uzb_cyrl", "cyr_lid", "asm", "ben", "bih", "hin", "mar",
   "nep", "san", "bod", "dzo", "guj", "kan", "mal", "ori", "pan", "sin", "tam",
   "tel", "jav_java", "khm", "lao", "mya", "tha", "chi_sim", "chi_tra", "jpn",
   "kor", "ara", "div", "fas", "pus", "snd", "uig", "urd", "heb", "yid", "syr",
   "amh", "tir", "chr", "ell", "grc", "hye", "iku", "kat", "kat_old", "kir",
   "kmr", "kur_ara"]

/-- Is `s` a `--mean_count=...` argument? -/
def isMeanCountFlag (s : String) : Bool :=
  "--mean_count=".data.isPrefixOf s.data

/-- A fully-populated baseline run configuration used by the concrete
witnesses and counterexamples below. -/
def ctx0 : TrainingArguments := {
  fonts := []
  exposures := []
  ambigs_filter_denominator := ""
  bigram_dawg_factor := 0
  filter_arguments := []
  fragments_disabled := ""
  generate_word_bigrams := none
  lang_is_rtl := false
  leading := 0
  mean_count := 0
  mix_lang := ""
  norm_mode := 0
  number_dawg_factor := 0
  punc_dawg_factor := none
  run_shape_clustering := false
  text2image_extra_args := []
  text_corpus := ""
  training_data_arguments := []
  word_dawg_factor := 0
  word_dawg_size := none
  wordlist2dawg_arguments := ""
  training_dir := "tr"
  output_dir := "out"
  langdata_dir := "ld"
  tessdata_dir := "td"
  lang_code := "eng"
  training_text := "tr/text"
  bigram_freqs_file := "tr/bf"
  train_ngrams_file := "tr/ng"
  extract_font_properties := false
  save_box_tiff := false
  unicharset_file := ""
  xheights_file := "" }

end Tesstrain

namespace Tesstrain

/-- Descending sortedness by the *string* sort key, as the amended claim
C1 words the order of the n-gram file. -/
def SortedDescByCountStr (l : List (List String)) : Prop :=
  l.Pairwise (fun a b => charListLe (recSortKey b).data (recSortKey a).data = true)

/-- The summed numeric counts of a record list. -/
def countSum (l : List (List String)) : Int :=
  (l.map recCountKey).sum

end Tesstrain

namespace Tesstrain

/-! ## Theorems

General-purpose lemmas first, then one theorem (with witness or
counterexample) per claim. -/

theorem exceptBind_ok {ε α β : Type} {m : Except ε α} {f : α → Except ε β} {b : β}
    (h : (m >>= f) = .ok b) : ∃ a, m = .ok a ∧ f a = .ok b := by
  cases m with
  | ok a => exact ⟨a, rfl, h⟩
  | error e => simp [Bind.bind, Except.bind] at h

theorem tda_helper {l adds : List String} {s : String} (hs : s ∈ l ++ adds)
    (ha : ∀ a ∈ adds, isMeanCountFlag a = false) :
    s ∈ l ∨ isMeanCountFlag s = false := by
  rcases List.mem_append.mp hs with hs | hs
  · exact Or.inl hs
  · exact Or.inr (ha s hs)

theorem isPrefixOf_self_append (l r : List Char) : l.isPrefixOf (l ++ r) = true := by
  induction l with
  | nil => simp [List.isPrefixOf]
  | cons c cs ih => simp [List.isPrefixOf, ih]

theorem strData_append (a b : String) : (a ++ b).data = a.data ++ b.data := rfl

theorem applyMeanCountFlags_FONTS (mc : Int) (p : LangParams) :
    (applyMeanCountFlags mc p).FONTS = p.FONTS := by
  unfold applyMeanCountFlags
  split_ifs <;> rfl

theorem applyMeanCountFlags_tda_of_pos (mc : Int) (p : LangParams) (h : 0 < mc) :
    (applyMeanCountFlags mc p).TRAINING_DATA_ARGUMENTS =
      p.TRAINING_DATA_ARGUMENTS ++ ["--mean_count=" ++ toString mc] := by
  unfold applyMeanCountFlags
  rw [if_pos h]

theorem applyFontDefault_FONTS_ne (p : LangParams) : (applyFontDefault p).FONTS ≠ [] := by
  unfold applyFontDefault
  split_ifs with h
  · show LATIN_FONTS ≠ []
    decide
  · exact h

theorem applyFontDefault_FONTS_of_ne (p : LangParams) (h : p.FONTS ≠ []) :
    (applyFontDefault p).FONTS = p.FONTS := by
  unfold applyFontDefault
  rw [if_neg h]

theorem applyFontDefault_tda (p : LangParams) :
    (applyFontDefault p).TRAINING_DATA_ARGUMENTS = p.TRAINING_DATA_ARGUMENTS := by
  unfold applyFontDefault
  split_ifs <;> rfl

theorem applyExposureDefault_FONTS (p : LangParams) :
    (applyExposureDefault p).FONTS = p.FONTS := by
  unfold applyExposureDefault
  split_ifs <;> rfl

theorem applyExposureDefault_tda (p : LangParams) :
    (applyExposureDefault p).TRAINING_DATA_ARGUMENTS = p.TRAINING_DATA_ARGUMENTS := by
  unfold applyExposureDefault
  split_ifs <;> rfl

theorem applyExposureDefault_EXPOSURES_ne (p : LangParams) :
    (applyExposureDefault p).EXPOSURES ≠ [] := by
  unfold applyExposureDefault
  split_ifs with h
  · show ([0] : List Int) ≠ []
    decide
  · exact h

theorem applyMeanCountFlags_MEAN (mc : Int) (p : LangParams) :
    (applyMeanCountFlags mc p).MEAN_COUNT = p.MEAN_COUNT := by
  unfold applyMeanCountFlags
  split_ifs <;> rfl

theorem applyFontDefault_MEAN (p : LangParams) :
    (applyFontDefault p).MEAN_COUNT = p.MEAN_COUNT := by
  unfold applyFontDefault
  split_ifs <;> rfl

theorem applyExposureDefault_MEAN (p : LangParams) :
    (applyExposureDefault p).MEAN_COUNT = p.MEAN_COUNT := by
  unfold applyExposureDefault
  split_ifs <;> rfl

/-- Destructor for a successful Resolver run: the flattened exposures, the
dispatch output, and the shape of the returned configuration. -/
theorem resolver_ok_elim {pre : String} {mc : Int} {ctx : TrainingArguments} {lang : String}
    {out : TrainingArguments}
    (h : set_lang_specific_parameters pre mc ctx lang = .ok out) :
    ∃ exps q, chainFlatten ctx.exposures = .ok exps ∧
      langDispatch pre lang (initialLangParams pre lang ctx.fonts exps) = .ok q ∧
      out = transferParams ctx lang
        (applyExposureDefault (applyFontDefault (applyMeanCountFlags mc q))) := by
  unfold set_lang_specific_parameters at h
  obtain ⟨exps, he, h⟩ := exceptBind_ok h
  obtain ⟨q, hq, h⟩ := exceptBind_ok h
  refine ⟨exps, q, he, hq, ?_⟩
  cases h
  rfl

end Tesstrain

namespace Tesstrain

/-- Outside its handled codes, the dispatch reaches the final `else` and
raises `ValueError` (the `InvalidLanguageCode` condition). -/
theorem langDispatch_not_mem (pre : String) (p : LangParams) (lang : String)
    (hmem : lang ∉ handledLangCodes) :
    langDispatch pre lang p = Except.error PyError.valueError := by
  have hne : ∀ c ∈ handledLangCodes, ¬(lang = c) := fun c hc hl => hmem (hl ▸ hc)
  unfold langDispatch
  rw [if_neg (hne "enm" (by decide)),
      if_neg (hne "frm" (by decide)),
      if_neg (not_or_intro (hne "frk" (by decide)) (hne "deu_latf" (by decide))),
      if_neg (hne "ita_old" (by decide)),
      if_neg (hne "lat" (by decide)),
      if_neg (hne "spa_old" (by decide)),
      if_neg (hne "srp_latn" (by decide)),
      if_neg (hne "vie" (by decide)),
      if_neg (hne "hun" (by decide)),
      if_neg (hne "pol" (by decide)),
      if_neg (hne "afr" (by decide)),
      if_neg (hne "aze" (by decide)),
      if_neg (hne "bos" (by decide)),
      if_neg (hne "cat" (by decide)),
      if_neg (hne "ceb" (by decide)),
      if_neg (hne "ces" (by decide)),
      if_neg (hne "cym" (by decide)),
      if_neg (hne "dan" (by decide)),
      if_neg (hne "deu" (by decide)),
      if_neg (hne "eng" (by decide)),
      if_neg (hne "epo" (by decide)),
      if_neg (hne "est" (by decide)),
      if_neg (hne "eus" (by decide)),
      if_neg (hne "fil" (by decide)),
      if_neg (hne "fin" (by decide)),
      if_neg (hne "fra" (by decide)),
      if_neg (hne "gle" (by decide)),
      if_neg (hne "gle_uncial" (by decide)),
      if_neg (hne "glg" (by decide)),
      if_neg (hne "hat" (by decide)),
      if_neg (hne "hrv" (by decide)),
      if_neg (hne "iast" (by decide)),
      if_neg (hne "ind" (by decide)),
      if_neg (hne "isl" (by decide)),
      if_neg (hne "ita" (by decide)),
      if_neg (hne "jav" (by decide)),
      if_neg (hne "lav" (by decide)),
      if_neg (hne "lit" (by decide)),
      if_neg (hne "mlt" (by decide)),
      if_neg (hne "msa" (by decide)),
      if_neg (hne "nld" (by decide)),
      if_neg (hne "nor" (by decide)),
      if_neg (hne "por" (by decide)),
      if_neg (hne "ron" (by decide)),
      if_neg (hne "slk" (by decide)),
      if_neg (hne "slv" (by decide)),
      if_neg (hne "spa" (by decide)),
      if_neg (hne "sqi" (by decide)),
      if_neg (hne "swa" (by decide)),
      if_neg (hne "swe" (by decide)),
      if_neg (hne "tgl" (by decide)),
      if_neg (hne "tur" (by decide)),
      if_neg (hne "uzb" (by decide)),
      if_neg (hne "zlm" (by decide)),
      if_neg (hne "lat_lid" (by decide)),
      if_neg (hne "rus" (by decide)),
      if_neg (not_or_intro (hne "aze_cyrl" (by decide)) (not_or_intro (hne "bel" (by decide)) (not_or_intro (hne "bul" (by decide)) (not_or_intro (hne "kaz" (by decide)) (not_or_intro (hne "mkd" (by decide)) (not_or_intro (hne "srp" (by decide)) (not_or_intro (hne "tgk" (by decide)) (not_or_intro (hne "ukr" (by decide)) (hne "uzb_cyrl" (by decide)))))))))),
      if_neg (hne "cyr_lid" (by decide)),
      if_neg (not_or_intro (hne "asm" (by decide)) (hne "ben" (by decide))),
      if_neg (not_or_intro (hne "bih" (by decide)) (not_or_intro (hne "hin" (by decide)) (not_or_intro (hne "mar" (by decide)) (not_or_intro (hne "nep" (by decide)) (hne "san" (by decide)))))),
      if_neg (hne "bod" (by decide)),
      if_neg (hne "dzo" (by decide)),
      if_neg (hne "guj" (by decide)),
      if_neg (hne "kan" (by decide)),
      if_neg (hne "mal" (by decide)),
      if_neg (hne "ori" (by decide)),
      if_neg (hne "pan" (by decide)),
      if_neg (hne "sin" (by decide)),
      if_neg (hne "tam" (by decide)),
      if_neg (hne "tel" (by decide)),
      if_neg (hne "jav_java" (by decide)),
      if_neg (hne "khm" (by decide)),
      if_neg (hne "lao" (by decide)),
      if_neg (hne "mya" (by decide)),
      if_neg (hne "tha" (by decide)),
      if_neg (hne "chi_sim" (by decide)),
      if_neg (hne "chi_tra" (by decide)),
      if_neg (hne "jpn" (by decide)),
      if_neg (hne "kor" (by decide)),
      if_neg (hne "ara" (by decide)),
      if_neg (hne "div" (by decide)),
      if_neg (not_or_intro (hne "fas" (by decide)) (not_or_intro (hne "pus" (by decide)) (not_or_intro (hne "snd" (by decide)) (not_or_intro (hne "uig" (by decide)) (hne "urd" (by decide)))))),
      if_neg (not_or_intro (hne "heb" (by decide)) (hne "yid" (by decide))),
      if_neg (hne "syr" (by decide)),
      if_neg (not_or_intro (hne "amh" (by decide)) (hne "tir" (by decide))),
      if_neg (hne "chr" (by decide)),
      if_neg (hne "ell" (by decide)),
      if_neg (hne "grc" (by decide)),
      if_neg (hne "hye" (by decide)),
      if_neg (hne "iku" (by decide)),
      if_neg (hne "kat" (by decide)),
      if_neg (hne "kat_old" (by decide)),
      if_neg (hne "kir" (by decide)),
      if_neg (hne "kmr" (by decide)),
      if_neg (hne "kur_ara" (by decide))]

theorem langDispatch_ok_mem {pre lang : String} {p q : LangParams}
    (h : langDispatch pre lang p = .ok q) : lang ∈ handledLangCodes := by
  by_contra hmem
  rw [langDispatch_not_mem pre p lang hmem] at h
  exact Except.noConfusion h

set_option maxHeartbeats 2000000 in
/-- Every handled code takes some `.ok` branch of the dispatch. -/
theorem langDispatch_mem_isOk (pre : String) (p : LangParams) (lang : String)
    (hmem : lang ∈ handledLangCodes) : isOkE (langDispatch pre lang p) = true := by
  unfold handledLangCodes at hmem
  fin_cases hmem <;> rfl

set_option maxHeartbeats 4000000 in
/-- The two branch-level facts the claims need: a non-empty caller font
list survives every branch untouched, and no branch ever appends a
`--mean_count` training argument. -/
theorem langDispatch_props (pre : String) (p q : LangParams) (lang : String)
    (hmem : lang ∈ handledLangCodes) (h : langDispatch pre lang p = .ok q) :
    (p.FONTS ≠ [] → q.FONTS = p.FONTS) ∧
    (∀ s ∈ q.TRAINING_DATA_ARGUMENTS, s ∈ p.TRAINING_DATA_ARGUMENTS ∨ isMeanCountFlag s = false) := by
  unfold handledLangCodes at hmem
  fin_cases hmem <;>
    (injection h with h; subst h;
     refine ⟨fun hf => by simp [hf], ?_⟩;
     first
     | exact fun s hs => Or.inl hs
     | exact fun s hs => tda_helper hs (by decide)
     | exact fun s hs => tda_helper (by rw [List.append_assoc] at hs; exact hs) (by decide))

set_option maxHeartbeats 1000000 in
set_option maxRecDepth 8000 in
/-- The dispatch's domain against the valid-code constant: it accepts
exactly the valid codes *plus* `"zlm"`. -/
theorem handled_iff_valid_or_zlm (lang : String) :
    lang ∈ handledLangCodes ↔ (lang ∈ validLanguageCodesList ∨ lang = "zlm") := by
  constructor
  · intro h
    exact (by decide : ∀ x ∈ handledLangCodes, x ∈ validLanguageCodesList ∨ x = "zlm") lang h
  · intro h
    rcases h with h | rfl
    · exact (by decide : ∀ x ∈ validLanguageCodesList, x ∈ handledLangCodes) lang h
    · decide

end Tesstrain

namespace Tesstrain

/-- With successfully flattened exposures, the Resolver is the dispatch
followed by the pure post-processing. -/
theorem resolver_eq {ctx : TrainingArguments} {exps : List Int} (pre : String) (mc : Int)
    (lang : String) (hexps : chainFlatten ctx.exposures = .ok exps) :
    set_lang_specific_parameters pre mc ctx lang =
      (langDispatch pre lang (initialLangParams pre lang ctx.fonts exps)).map
        (fun q => transferParams ctx lang
          (applyExposureDefault (applyFontDefault (applyMeanCountFlags mc q)))) := by
  unfold set_lang_specific_parameters
  rw [hexps]
  show (langDispatch pre lang (initialLangParams pre lang ctx.fonts exps) >>= fun p =>
      Except.ok (transferParams ctx lang
        (applyExposureDefault (applyFontDefault (applyMeanCountFlags mc p))))) = _
  cases langDispatch pre lang (initialLangParams pre lang ctx.fonts exps) <;> rfl

/-- Claim C2 (amended): with well-formed caller exposures, the Resolver
raises if and only if the language code is outside the valid set *plus
the stray code `"zlm"`* (which the dispatch accepts although it is absent
from `VALID_LANGUAGE_CODES`); the raise is the `ValueError` standing for
`InvalidLanguageCode`, and every successful run returns a configuration
with a populated (non-empty) font list and exposure list. -/
theorem C2_resolver_domain_amended (pre : String) (mc : Int) (ctx : TrainingArguments)
    (lang : String) (exps : List Int)
    (hexps : chainFlatten ctx.exposures = .ok exps) :
    (isOkE (set_lang_specific_parameters pre mc ctx lang) = true
        ↔ (lang ∈ validLanguageCodesList ∨ lang = "zlm"))
    ∧ (¬(lang ∈ validLanguageCodesList ∨ lang = "zlm") →
        set_lang_specific_parameters pre mc ctx lang = .error .valueError)
    ∧ (∀ out, set_lang_specific_parameters pre mc ctx lang = .ok out →
        out.fonts ≠ [] ∧ out.exposures ≠ []) := by
  rw [resolver_eq pre mc lang hexps]
  cases hd : langDispatch pre lang (initialLangParams pre lang ctx.fonts exps) with
  | ok q =>
    refine ⟨?_, ?_, ?_⟩
    · apply iff_of_true rfl
      exact (handled_iff_valid_or_zlm lang).mp (langDispatch_ok_mem hd)
    · intro hnot
      exact absurd ((handled_iff_valid_or_zlm lang).mp (langDispatch_ok_mem hd)) hnot
    · intro out hout
      simp only [Except.map] at hout
      cases hout
      constructor
      · show (applyExposureDefault (applyFontDefault (applyMeanCountFlags mc q))).FONTS ≠ []
        rw [applyExposureDefault_FONTS]
        exact applyFontDefault_FONTS_ne _
      · show ((applyExposureDefault (applyFontDefault (applyMeanCountFlags mc q))).EXPOSURES).map
            ExpoElem.i ≠ []
        intro hmap
        exact applyExposureDefault_EXPOSURES_ne (applyFontDefault (applyMeanCountFlags mc q))
          (by simpa using hmap)
  | error e =>
    have hmem : lang ∉ handledLangCodes := by
      intro hm
      have h2 := langDispatch_mem_isOk pre (initialLangParams pre lang ctx.fonts exps) lang hm
      rw [hd] at h2
      exact Bool.noConfusion h2
    have he : e = PyError.valueError := by
      have h2 := langDispatch_not_mem pre (initialLangParams pre lang ctx.fonts exps) lang hmem
      rw [hd] at h2
      injection h2 with h2
    subst he
    refine ⟨?_, ?_, ?_⟩
    · apply iff_of_false
      · intro h2
        exact Bool.noConfusion h2
      · intro hval
        exact hmem ((handled_iff_valid_or_zlm lang).mpr hval)
    · intro _
      rfl
    · intro out hout
      exact Except.noConfusion hout

/-- Claim C2, counterexample to the stated form: `"zlm"` is outside the
valid language-code set, yet the Resolver terminates normally on it. -/
theorem C2_counterexample :
    isOkE (set_lang_specific_parameters "" (-1) ctx0 "zlm") = true
      ∧ ¬("zlm" ∈ validLanguageCodesList) := by
  constructor
  · rfl
  · decide

/-- Witness instantiating `C2_resolver_domain_amended` at concrete
inputs. -/
theorem C2_resolver_domain_amended_witness :
    isOkE (set_lang_specific_parameters "" (-1) ctx0 "eng") = true
      ∧ set_lang_specific_parameters "" (-1) ctx0 "xyz" = .error .valueError := by
  constructor
  · exact (C2_resolver_domain_amended "" (-1) ctx0 "eng" [] (by rfl)).1.mpr (by decide)
  · exact (C2_resolver_domain_amended "" (-1) ctx0 "xyz" [] (by rfl)).2.1 (by decide)

/-- Claim C3 (amended): the Resolver is *not* idempotent in the
re-application sense.  A successful first call stores the flattened
integer exposure list back into `ctx.exposures`; the second call then
unpacks those integers into `itertools.chain` and raises `TypeError`. -/
theorem C3_reapplication_amended (pre : String) (mc : Int) (ctx : TrainingArguments)
    (lang : String) (out : TrainingArguments)
    (h : set_lang_specific_parameters pre mc ctx lang = .ok out) :
    set_lang_specific_parameters pre mc out lang = .error .typeError := by
  obtain ⟨exps, q, hexps, hq, rfl⟩ := resolver_ok_elim h
  have hne := applyExposureDefault_EXPOSURES_ne (applyFontDefault (applyMeanCountFlags mc q))
  obtain ⟨x, xs, hE⟩ : ∃ x xs,
      (applyExposureDefault (applyFontDefault (applyMeanCountFlags mc q))).EXPOSURES = x :: xs := by
    cases hc : (applyExposureDefault (applyFontDefault (applyMeanCountFlags mc q))).EXPOSURES with
    | nil => exact absurd hc hne
    | cons x xs => exact ⟨x, xs, rfl⟩
  have hexp2 : (transferParams ctx lang
      (applyExposureDefault (applyFontDefault (applyMeanCountFlags mc q)))).exposures
      = (x :: xs).map ExpoElem.i := by
    show ((applyExposureDefault (applyFontDefault (applyMeanCountFlags mc q))).EXPOSURES).map
        ExpoElem.i = _
    rw [hE]
  unfold set_lang_specific_parameters
  rw [hexp2]
  rfl

/-- Claim C3, counterexample to the stated form: re-applying the Resolver
to its own output raises (`TypeError`), instead of reproducing the
output. -/
theorem C3_counterexample :
    (set_lang_specific_parameters "" (-1) ctx0 "eng").bind
        (fun out => set_lang_specific_parameters "" (-1) out "eng")
      = .error .typeError
    ∧ isOkE (set_lang_specific_parameters "" (-1) ctx0 "eng") = true := by
  constructor
  · rfl
  · rfl

/-- Witness instantiating `C3_reapplication_amended` at concrete
inputs. -/
theorem C3_reapplication_amended_witness :
    ∃ out, set_lang_specific_parameters "" (-1) ctx0 "eng" = .ok out
      ∧ set_lang_specific_parameters "" (-1) out "eng" = .error .typeError := by
  cases h : set_lang_specific_parameters "" (-1) ctx0 "eng" with
  | ok out => exact ⟨out, rfl, C3_reapplication_amended "" (-1) ctx0 "eng" out h⟩
  | error e =>
    have hb : isOkE (set_lang_specific_parameters "" (-1) ctx0 "eng") = true := rfl
    rw [h] at hb
    exact Bool.noConfusion hb

/-- Claim C4: for every valid language code, a caller-supplied non-empty
font list is returned unchanged by the Resolver. -/
theorem C4_fonts_preserved (pre : String) (mc : Int) (ctx : TrainingArguments) (lang : String)
    (out : TrainingArguments) (hvalid : lang ∈ validLanguageCodesList)
    (hf : ctx.fonts ≠ [])
    (h : set_lang_specific_parameters pre mc ctx lang = .ok out) :
    out.fonts = ctx.fonts := by
  obtain ⟨exps, q, hexps, hq, rfl⟩ := resolver_ok_elim h
  have hmem := langDispatch_ok_mem hq
  have hfq : q.FONTS = ctx.fonts :=
    (langDispatch_props pre (initialLangParams pre lang ctx.fonts exps) q lang hmem hq).1 hf
  show (applyExposureDefault (applyFontDefault (applyMeanCountFlags mc q))).FONTS = ctx.fonts
  rw [applyExposureDefault_FONTS,
    applyFontDefault_FONTS_of_ne (applyMeanCountFlags mc q)
      (by rw [applyMeanCountFlags_FONTS, hfq]; exact hf),
    applyMeanCountFlags_FONTS, hfq]

/-- Witness instantiating `C4_fonts_preserved` at concrete inputs. -/
theorem C4_fonts_preserved_witness :
    ∃ out, set_lang_specific_parameters "" (-1) { ctx0 with fonts := ["F"] } "eng" = .ok out
      ∧ out.fonts = ["F"] := by
  cases h : set_lang_specific_parameters "" (-1) { ctx0 with fonts := ["F"] } "eng" with
  | ok out =>
    exact ⟨out, rfl,
      C4_fonts_preserved "" (-1) { ctx0 with fonts := ["F"] } "eng" out (by decide) (by decide) h⟩
  | error e =>
    have hb : isOkE (set_lang_specific_parameters "" (-1) { ctx0 with fonts := ["F"] } "eng")
        = true := rfl
    rw [h] at hb
    exact Bool.noConfusion hb

theorem meanCountFlag_of_env (mc : Int) :
    isMeanCountFlag ("--mean_count=" ++ toString mc) = true := by
  unfold isMeanCountFlag
  rw [strData_append]
  exact isPrefixOf_self_append _ _

/-- Claim C9: a positive environment-derived `mean_count` override is the
single `--mean_count` training argument of the resulting configuration:
neither the language rule's value nor the default 40 contributes one. -/
theorem C9_mean_count_env_override (pre : String) (mc : Int) (ctx : TrainingArguments)
    (lang : String) (out : TrainingArguments) (hmc : 0 < mc)
    (h : set_lang_specific_parameters pre mc ctx lang = .ok out) :
    out.training_data_arguments.filter isMeanCountFlag
      = ["--mean_count=" ++ toString mc] := by
  obtain ⟨exps, q, hexps, hq, rfl⟩ := resolver_ok_elim h
  have hmem := langDispatch_ok_mem hq
  have hfree : ∀ s ∈ q.TRAINING_DATA_ARGUMENTS, isMeanCountFlag s = false := by
    intro s hs
    rcases (langDispatch_props pre (initialLangParams pre lang ctx.fonts exps) q lang
        hmem hq).2 s hs with h2 | h2
    · exact absurd h2 (List.not_mem_nil s)
    · exact h2
  show ((applyExposureDefault (applyFontDefault
      (applyMeanCountFlags mc q))).TRAINING_DATA_ARGUMENTS).filter isMeanCountFlag = _
  rw [applyExposureDefault_tda, applyFontDefault_tda, applyMeanCountFlags_tda_of_pos mc q hmc,
    List.filter_append]
  have h1 : q.TRAINING_DATA_ARGUMENTS.filter isMeanCountFlag = [] := by
    rw [List.filter_eq_nil_iff]
    intro a ha
    simp [hfree a ha]
  rw [h1, List.nil_append]
  simp [List.filter, meanCountFlag_of_env]

/-- Witness instantiating `C9_mean_count_env_override` at concrete inputs
(`asm`, whose language rule sets `mean_count = 15`, with environment
override 7). -/
theorem C9_mean_count_env_override_witness :
    ∃ out, set_lang_specific_parameters "" 7 ctx0 "asm" = .ok out
      ∧ out.training_data_arguments.filter isMeanCountFlag
          = ["--mean_count=" ++ toString (7 : Int)]
      ∧ out.mean_count = 15 := by
  cases h : set_lang_specific_parameters "" 7 ctx0 "asm" with
  | ok out =>
    refine ⟨out, rfl, C9_mean_count_env_override "" 7 ctx0 "asm" out (by decide) h, ?_⟩
    obtain ⟨exps, q, hexps, hq, h2⟩ := resolver_ok_elim h
    rw [h2]
    show (applyExposureDefault (applyFontDefault (applyMeanCountFlags 7 q))).MEAN_COUNT = 15
    rw [applyExposureDefault_MEAN, applyFontDefault_MEAN, applyMeanCountFlags_MEAN]
    injection hq with hq
    rw [← hq]
  | error e =>
    have hb : isOkE (set_lang_specific_parameters "" 7 ctx0 "asm") = true := rfl
    rw [h] at hb
    exact Bool.noConfusion hb

end Tesstrain

namespace Tesstrain

theorem strEmpty_append (s : String) : "" ++ s = s := rfl

/-- `run_command` in terms of the specification-side resolution order. -/
theorem run_command_eq (env : ToolEnv) (cmd : String) :
    run_command env cmd =
      match resolveTool env cmd with
      | none => .error (.fatalExit (cmd ++ " not found"))
      | some c =>
        if env.exitCode c = 0 then .ok ()
        else .error (.fatalExit ("Program " ++ c ++ " failed with return code "
          ++ toString (env.exitCode c) ++ ". Abort.")) := by
  unfold run_command resolveTool
  by_cases h1 : env.onPath cmd <;> by_cases h2 : env.onPath ("api/" ++ cmd) <;>
    by_cases h3 : env.onPath ("training/" ++ cmd) <;>
      simp [h1, h2, h3, List.find?, strEmpty_append]

theorem run_command_resolve_none {env : ToolEnv} {cmd : String}
    (h : resolveTool env cmd = none) :
    run_command env cmd = .error (.fatalExit (cmd ++ " not found")) := by
  rw [run_command_eq, h]

theorem run_command_resolve_some {env : ToolEnv} {cmd c : String}
    (h : resolveTool env cmd = some c) :
    run_command env cmd =
      if env.exitCode c = 0 then .ok ()
      else .error (.fatalExit ("Program " ++ c ++ " failed with return code "
        ++ toString (env.exitCode c) ++ ". Abort.")) := by
  rw [run_command_eq, h]

/-- Claim C8: `run_command` returns normally iff the tool resolves (bare
name, then the two fixed prefixes, first hit on the search path) and the
resolved tool exits with code 0; in every other case it terminates the
process through `err_exit` (exit status 1). -/
theorem C8_run_command_spec (env : ToolEnv) (cmd : String) :
    ((run_command env cmd = .ok ()) ↔
      ∃ c, resolveTool env cmd = some c ∧ env.exitCode c = 0)
    ∧ ((¬∃ c, resolveTool env cmd = some c ∧ env.exitCode c = 0) →
        ∃ msg, run_command env cmd = .error (.fatalExit msg)) := by
  cases hr : resolveTool env cmd with
  | none =>
    rw [run_command_resolve_none hr]
    refine ⟨iff_of_false (fun h => Except.noConfusion h) ?_, fun _ => ⟨_, rfl⟩⟩
    rintro ⟨c, hc, -⟩
    exact Option.noConfusion hc
  | some c =>
    rw [run_command_resolve_some hr]
    by_cases h0 : env.exitCode c = 0
    · rw [if_pos h0]
      refine ⟨iff_of_true rfl ⟨c, rfl, h0⟩, fun hne => absurd ⟨c, rfl, h0⟩ hne⟩
    · rw [if_neg h0]
      refine ⟨iff_of_false (fun h => Except.noConfusion h) ?_, fun _ => ⟨_, rfl⟩⟩
      rintro ⟨d, hd, h0d⟩
      injection hd with hd
      subst hd
      exact h0 h0d

/-- Witness instantiating `C8_run_command_spec`: a tool found only under
the `training/` prefix that exits 0 runs normally; an unresolvable tool
ends in `err_exit`. -/
theorem C8_run_command_spec_witness :
    (run_command ⟨fun s => s == "training/text2image", fun _ => 0⟩ "text2image" = .ok ())
    ∧ (∃ msg, run_command ⟨fun _ => false, fun _ => 1⟩ "tesseract"
        = .error (.fatalExit msg)) := by
  constructor
  · exact (C8_run_command_spec ⟨fun s => s == "training/text2image", fun _ => 0⟩
      "text2image").1.mpr ⟨"training/text2image", rfl, rfl⟩
  · refine (C8_run_command_spec ⟨fun _ => false, fun _ => 1⟩ "tesseract").2 ?_
    rintro ⟨c, hc, -⟩
    rw [show resolveTool ⟨fun _ => false, fun _ => 1⟩ "tesseract" = none from rfl] at hc
    exact Option.noConfusion hc

theorem parseCounts_ok (l : List (List String))
    (h : ∀ r ∈ l, (pyInt? ((r[1]?).getD "")).isSome = true) :
    ∃ v, parseCounts l = .ok v := by
  induction l with
  | nil => exact ⟨[], rfl⟩
  | cons r rs ih =>
    obtain ⟨v, hv⟩ := ih (fun x hx => h x (List.mem_cons_of_mem r hx))
    have hr := h r (List.mem_cons_self r rs)
    unfold parseCounts
    cases hp : pyInt? ((r[1]?).getD "") with
    | none => rw [hp] at hr; exact Bool.noConfusion hr
    | some n =>
      rw [hv]
      exact ⟨n :: v, rfl⟩

/-- Claim C10: if any line of the bigram-frequency file yields fewer than
two whitespace-separated fields (and the well-formed lines carry parseable
counts, so the guarded total does not raise first), the n-gram derivation
raises an uncaught `IndexError` from the sort key — the Python-exception
failure mode, not the `err_exit` fatal path. -/
theorem C10_short_line_uncaught_index_error (text : String)
    (hshort : ∃ r ∈ parseRecords text, r.length < 2)
    (hparse : ∀ r ∈ parseRecords text, 2 ≤ r.length →
      (pyInt? ((r[1]?).getD "")).isSome = true) :
    deriveNgrams text = .error .indexError := by
  obtain ⟨v, hv⟩ := parseCounts_ok
    ((parseRecords text).filter (fun r => decide (2 ≤ r.length)))
    (by
      intro r hr
      have := List.of_mem_filter hr
      exact hparse r (List.mem_of_mem_filter hr) (by simpa using this))
  show (do
      let counts ← parseCounts ((parseRecords text).filter (fun r => decide (2 ≤ r.length)))
      let total : Int := counts.sum
      if (parseRecords text).all (fun r => decide (2 ≤ r.length)) = true then do
          let bs ← ngramLoop total (sortDescByKey (parseRecords text)) 0
          Except.ok (strJoin (List.map (fun b => b ++ " ") bs))
        else Except.error PyError.indexError)
    = Except.error PyError.indexError
  rw [hv]
  show (if (parseRecords text).all (fun r => decide (2 ≤ r.length)) = true then
      (do
        let bs ← ngramLoop v.sum (sortDescByKey (parseRecords text)) 0
        Except.ok (strJoin (List.map (fun b => b ++ " ") bs)))
      else Except.error PyError.indexError) = Except.error PyError.indexError
  cases hall : (parseRecords text).all (fun r => decide (2 ≤ r.length)) with
  | true =>
    exfalso
    obtain ⟨r, hr, hlen⟩ := hshort
    have := List.all_eq_true.mp hall r hr
    simp at this
    omega
  | false => rfl

/-- Witness instantiating `C10_short_line_uncaught_index_error` at the
newline-terminated file `"ab 2\n"` (whose empty final line splits into
zero fields), also showing the exception surfacing from Phase I as an
uncaught error rather than a fatal exit. -/
theorem C10_short_line_uncaught_index_error_witness :
    deriveNgrams "ab 2\n" = .error .indexError
    ∧ phase_I_generate_image
        { ctx0 with extract_font_properties := true, exposures := [ExpoElem.i 0] }
        (some 1) ⟨[("tr/text", "T"), ("tr/bf", "ab 2\n")]⟩
      = .error (.uncaught .indexError) := by
  constructor
  · exact C10_short_line_uncaught_index_error "ab 2\n"
      ⟨[], by decide, by decide⟩ (by decide)
  · rfl

end Tesstrain

namespace Tesstrain

/-! ### Claim C1: the bigram selection -/

theorem charListLe_total : ∀ a b : List Char, charListLe a b = true ∨ charListLe b a = true := by
  intro a
  induction a with
  | nil => intro b; left; rfl
  | cons x xs ih =>
    intro b
    cases b with
    | nil => right; rfl
    | cons y ys =>
      by_cases h1 : x.toNat < y.toNat
      · left; simp [charListLe, h1]
      · by_cases h2 : y.toNat < x.toNat
        · right; simp [charListLe, h2]
        · rcases ih ys with h | h
          · left; simp [charListLe, h1, h2, h]
          · right; simp [charListLe, h2, h1, h]

theorem charListLe_trans : ∀ {a b c : List Char},
    charListLe a b = true → charListLe b c = true → charListLe a c = true := by
  intro a
  induction a with
  | nil => intro b c hab hbc; rfl
  | cons x xs ih =>
    intro b c hab hbc
    cases b with
    | nil => exact absurd hab (by simp [charListLe])
    | cons y ys =>
      cases c with
      | nil => exact absurd hbc (by simp [charListLe])
      | cons z zs =>
        by_cases hxy : x.toNat < y.toNat <;> by_cases hyx : y.toNat < x.toNat <;>
          by_cases hyz : y.toNat < z.toNat <;> by_cases hzy : z.toNat < y.toNat <;>
          by_cases hxz : x.toNat < z.toNat <;> by_cases hzx : z.toNat < x.toNat <;>
          simp_all [charListLe] <;>
          first
          | omega
          | exact ih hab hbc
          | exact Or.inr (ih hab hbc)

theorem insertDescByKey_perm (x : List String) (l : List (List String)) :
    (insertDescByKey x l).Perm (x :: l) := by
  induction l with
  | nil => exact List.Perm.refl _
  | cons y ys ih =>
    unfold insertDescByKey
    split_ifs with h
    · exact (List.Perm.cons y ih).trans (List.Perm.swap x y ys)
    · exact List.Perm.refl _

theorem insertDescByKey_sorted {x : List String} {l : List (List String)}
    (hs : SortedDescByCountStr l) : SortedDescByCountStr (insertDescByKey x l) := by
  induction l with
  | nil => simp [insertDescByKey, SortedDescByCountStr]
  | cons y ys ih =>
    rw [SortedDescByCountStr, List.pairwise_cons] at hs
    obtain ⟨hy, hys⟩ := hs
    unfold insertDescByKey
    split_ifs with h
    · rw [SortedDescByCountStr, List.pairwise_cons]
      constructor
      · intro z hz
        rcases List.mem_cons.mp ((insertDescByKey_perm x ys).mem_iff.mp hz) with rfl | hz2
        · exact h
        · exact hy z hz2
      · exact ih hys
    · have hyx : charListLe (recSortKey y).data (recSortKey x).data = true := by
        rcases charListLe_total (recSortKey x).data (recSortKey y).data with h2 | h2
        · exact absurd h2 h
        · exact h2
      rw [SortedDescByCountStr, List.pairwise_cons]
      constructor
      · intro z hz
        rcases List.mem_cons.mp hz with rfl | hz2
        · exact hyx
        · exact charListLe_trans (hy z hz2) hyx
      · exact List.pairwise_cons.mpr ⟨hy, hys⟩

theorem sortFold_perm : ∀ (l acc : List (List String)),
    (l.foldl (fun acc x => insertDescByKey x acc) acc).Perm (acc ++ l) := by
  intro l
  induction l with
  | nil => intro acc; simp
  | cons x xs ih =>
    intro acc
    show (xs.foldl (fun acc x => insertDescByKey x acc) (insertDescByKey x acc)).Perm _
    exact ((ih (insertDescByKey x acc)).trans
      (List.Perm.append_right xs (insertDescByKey_perm x acc))).trans List.perm_middle.symm

theorem sortDescByKey_perm (l : List (List String)) : (sortDescByKey l).Perm l := by
  simpa using sortFold_perm l []

theorem sortFold_sorted : ∀ (l acc : List (List String)),
    SortedDescByCountStr acc →
    SortedDescByCountStr (l.foldl (fun acc x => insertDescByKey x acc) acc) := by
  intro l
  induction l with
  | nil => intro acc h; exact h
  | cons x xs ih =>
    intro acc h
    exact ih (insertDescByKey x acc) (insertDescByKey_sorted h)

theorem sortDescByKey_sorted (l : List (List String)) :
    SortedDescByCountStr (sortDescByKey l) :=
  sortFold_sorted l [] (by simp [SortedDescByCountStr])

theorem countSum_nil : countSum [] = 0 := rfl

theorem countSum_cons (r : List String) (l : List (List String)) :
    countSum (r :: l) = recCountKey r + countSum l := by
  simp [countSum]

theorem recCountKey_pair (b cnt : String) : recCountKey [b, cnt] = (pyInt? cnt).getD 0 := rfl

theorem countSum_perm {l₁ l₂ : List (List String)} (h : l₁.Perm l₂) :
    countSum l₁ = countSum l₂ :=
  List.Perm.sum_eq (h.map recCountKey)

theorem parseCounts_sum : ∀ {l : List (List String)} {v : List Int},
    parseCounts l = .ok v → v.sum = countSum l := by
  intro l
  induction l with
  | nil =>
    intro v h
    injection h with h
    rw [← h]
    rfl
  | cons r rs ih =>
    intro v h
    unfold parseCounts at h
    cases hp : pyInt? ((r[1]?).getD "") with
    | none => rw [hp] at h; exact Except.noConfusion h
    | some n =>
      rw [hp] at h
      obtain ⟨rest, hrest, h⟩ := exceptBind_ok h
      injection h with h
      rw [← h, List.sum_cons, ih hrest, countSum_cons]
      unfold recCountKey
      rw [hp]
      rfl

/-- The write loop computes exactly the shortest prefix whose cumulative
count first exceeds the threshold: every written prefix stays at or below
it, and the loop stops right after crossing it (or at the end of the
list). -/
theorem ngramLoop_spec (total : Int) : ∀ (l : List (List String)) (cumsum : Int)
    (out : List String), ngramLoop total l cumsum = .ok out →
    ∃ n, n ≤ l.length ∧ out = (l.take n).map (fun r => r.headD "")
      ∧ (n = l.length ∨ 100 * (cumsum + countSum (l.take n)) > 99 * total)
      ∧ (∀ m, m < n → 100 * (cumsum + countSum (l.take m)) ≤ 99 * total) := by
  intro l
  induction l with
  | nil =>
    intro cumsum out h
    injection h with h
    refine ⟨0, Nat.le.refl, ?_, Or.inl rfl, fun m hm => absurd hm (Nat.not_lt_zero m)⟩
    rw [← h]
    rfl
  | cons r rs ih =>
    intro cumsum out h
    rcases r with - | ⟨b, - | ⟨cnt, - | ⟨d, tl⟩⟩⟩
    · exact Except.noConfusion h
    · exact Except.noConfusion h
    · by_cases hc : 100 * cumsum > 99 * total
      · have hstop : ngramLoop total ([b, cnt] :: rs) cumsum = .ok [] := by
          show (if 100 * cumsum > 99 * total then Except.ok [] else _) = _
          rw [if_pos hc]
        rw [hstop] at h
        injection h with h
        refine ⟨0, Nat.zero_le _, by rw [← h]; rfl, Or.inr ?_,
          fun m hm => absurd hm (Nat.not_lt_zero m)⟩
        simpa [countSum] using hc
      · have hstep : ngramLoop total ([b, cnt] :: rs) cumsum
            = (ngramLoop total rs (cumsum + (pyInt? cnt).getD 0)) >>=
                fun rest => .ok (b :: rest) := by
          show (if 100 * cumsum > 99 * total then Except.ok [] else _) = _
          rw [if_neg hc]
        rw [hstep] at h
        obtain ⟨rest, hrest, hout⟩ := exceptBind_ok h
        injection hout with hout
        obtain ⟨n, hn_le, hout_eq, hdisj, hbound⟩ := ih (cumsum + (pyInt? cnt).getD 0) rest hrest
        refine ⟨n + 1, by simpa using Nat.succ_le_succ hn_le, ?_, ?_, ?_⟩
        · rw [← hout, hout_eq]
          rfl
        · rcases hdisj with h1 | h1
          · left
            simp [h1]
          · right
            rw [List.take_succ_cons, countSum_cons, recCountKey_pair]
            omega
        · intro m hm
          cases m with
          | zero =>
            simp only [List.take_zero, countSum_nil]
            omega
          | succ k =>
            have hk := hbound k (by omega)
            rw [List.take_succ_cons, countSum_cons, recCountKey_pair]
            omega
    · exact Except.noConfusion h

/-- Destructor for a successful n-gram derivation. -/
theorem deriveNgrams_ok_elim {text content : String}
    (h : deriveNgrams text = .ok content) :
    ∃ v bs, parseCounts ((parseRecords text).filter (fun r => decide (2 ≤ r.length))) = .ok v
      ∧ (parseRecords text).all (fun r => decide (2 ≤ r.length)) = true
      ∧ ngramLoop v.sum (sortDescByKey (parseRecords text)) 0 = .ok bs
      ∧ content = strJoin (bs.map (fun b => b ++ " ")) := by
  have h0 : (do
      let counts ← parseCounts ((parseRecords text).filter (fun r => decide (2 ≤ r.length)))
      let total : Int := counts.sum
      if (parseRecords text).all (fun r => decide (2 ≤ r.length)) = true then do
          let bs ← ngramLoop total (sortDescByKey (parseRecords text)) 0
          Except.ok (strJoin (List.map (fun b => b ++ " ") bs))
        else Except.error PyError.indexError)
      = Except.ok content := h
  obtain ⟨v, hv, h1⟩ := exceptBind_ok h0
  have h2 : (if (parseRecords text).all (fun r => decide (2 ≤ r.length)) = true then
      (do
        let bs ← ngramLoop v.sum (sortDescByKey (parseRecords text)) 0
        Except.ok (strJoin (List.map (fun b => b ++ " ") bs)))
      else Except.error PyError.indexError) = Except.ok content := h1
  by_cases hall : (parseRecords text).all (fun r => decide (2 ≤ r.length)) = true
  · rw [if_pos hall] at h2
    obtain ⟨bs, hbs, h3⟩ := exceptBind_ok h2
    injection h3 with h3
    exact ⟨v, bs, hv, hall, hbs, h3.symm⟩
  · rw [if_neg hall] at h2
    exact Except.noConfusion h2

/-- Claim C1 (amended): on success, the n-gram file holds, each followed by
one space, the first fields of the shortest prefix — under the *stable
descending lexicographic order of the count field's decimal string* (the
actual `sorted(records, key=itemgetter(1), reverse=True)` on string
records), not the numeric order the claim states — whose cumulative count
first exceeds 99% of the total count. -/
theorem C1_ngram_selection_amended (text content : String)
    (h : deriveNgrams text = .ok content) :
    ∃ recs n,
      (parseRecords text).Perm recs
      ∧ SortedDescByCountStr recs
      ∧ n ≤ recs.length
      ∧ content = strJoin (((recs.take n).map (fun r => r.headD "")).map (fun b => b ++ " "))
      ∧ (n = recs.length ∨ 100 * countSum (recs.take n) > 99 * countSum recs)
      ∧ (∀ m, m < n → 100 * countSum (recs.take m) ≤ 99 * countSum recs) := by
  obtain ⟨v, bs, hv, hall, hbs, hcontent⟩ := deriveNgrams_ok_elim h
  obtain ⟨n, hn_le, hbs_eq, hdisj, hbound⟩ := ngramLoop_spec v.sum _ 0 bs hbs
  have hfilter : (parseRecords text).filter (fun r => decide (2 ≤ r.length))
      = parseRecords text := by
    rw [List.filter_eq_self]
    intro a ha
    exact List.all_eq_true.mp hall a ha
  have htotal : v.sum = countSum (sortDescByKey (parseRecords text)) := by
    rw [parseCounts_sum hv, hfilter]
    exact countSum_perm (sortDescByKey_perm (parseRecords text)).symm
  refine ⟨sortDescByKey (parseRecords text), n,
    (sortDescByKey_perm (parseRecords text)).symm,
    sortDescByKey_sorted (parseRecords text), hn_le, ?_, ?_, ?_⟩
  · rw [hcontent, hbs_eq]
  · rcases hdisj with h1 | h1
    · exact Or.inl h1
    · right
      rw [← htotal]
      omega
  · intro m hm
    have := hbound m hm
    rw [← htotal]
    omega

/-- Claim C1, counterexample to the stated form: for the bigram counts
x:9, y:10, z:1000 the code selects `"x z "` (string-descending order puts
`"9"` first and cuts `y` off), while the claimed numeric-descending
selection is `"z y"`. -/
theorem C1_counterexample :
    deriveNgrams "x 9\ny 10\nz 1000" = .ok "x z "
    ∧ claimNgramContent "x 9\ny 10\nz 1000" = "z y"
    ∧ ("x z " : String) ≠ "z y" := by
  refine ⟨rfl, rfl, ?_⟩
  decide

/-- Witness instantiating `C1_ngram_selection_amended` on the
counterexample input. -/
theorem C1_ngram_selection_amended_witness :
    ∃ recs n,
      (parseRecords "x 9\ny 10\nz 1000").Perm recs
      ∧ SortedDescByCountStr recs
      ∧ n ≤ recs.length
      ∧ "x z " = strJoin (((recs.take n).map (fun r => r.headD "")).map (fun b => b ++ " "))
      ∧ (n = recs.length ∨ 100 * countSum (recs.take n) > 99 * countSum recs)
      ∧ (∀ m, m < n → 100 * countSum (recs.take m) ≤ 99 * countSum recs) :=
  C1_ngram_selection_amended "x 9\ny 10\nz 1000" "x z " rfl

end Tesstrain

namespace Tesstrain

/-! ### Claim C7: configuration mutation by the phases -/

/-- Claim C7 (amended): Phase I, Phase E and the LSTM assembly leave the
run configuration untouched, but Phase UP is an exception to the
claimed read-only rule: it stores the derived `unicharset_file` and
`xheights_file` paths into the configuration. -/
theorem C7_config_mutation_amended (ctx : TrainingArguments) (fs : FS) (par : Option Int)
    (bc : List String) (ext : String) :
    (∀ out, phase_I_generate_image ctx par fs = .ok out → out.1 = ctx)
    ∧ (∀ out, phase_UP_generate_unicharset ctx fs = .ok out →
        out.1 = { ctx with
          unicharset_file := ctx.training_dir ++ "/" ++ ctx.lang_code ++ ".unicharset",
          xheights_file := ctx.training_dir ++ "/" ++ ctx.lang_code ++ ".xheights" })
    ∧ (∀ out, phase_E_extract_features ctx bc ext fs = .ok out → out.1 = ctx)
    ∧ (∀ out, make_lstmdata ctx fs = .ok out → out.1 = ctx) := by
  refine ⟨?_, ?_, ?_, ?_⟩
  · intro out h
    unfold phase_I_generate_image at h
    obtain ⟨u1, hc, h⟩ := exceptBind_ok h
    obtain ⟨fs2, hf, h⟩ := exceptBind_ok h
    cases h
    rfl
  · intro out h
    unfold phase_UP_generate_unicharset at h
    obtain ⟨u1, hc1, h⟩ := exceptBind_ok h
    obtain ⟨u2, hc2, h⟩ := exceptBind_ok h
    cases h
    rfl
  · intro out h
    unfold phase_E_extract_features at h
    obtain ⟨u1, hc, h⟩ := exceptBind_ok h
    cases h
    rfl
  · intro out h
    unfold make_lstmdata at h
    cases h
    rfl

/-- Claim C7, counterexample to the stated form: Phase UP returns normally
on a concrete configuration yet hands back a *different* configuration
record (its `unicharset_file` and `xheights_file` fields changed). -/
theorem C7_counterexample :
    (phase_UP_generate_unicharset ctx0 ⟨[]⟩).toOption.map (fun r => decide (r.1 = ctx0))
      = some false := by
  decide

/-- Witness instantiating `C7_config_mutation_amended`: Phase I (trivially,
on no fonts and no exposures) returns its configuration unchanged,
and Phase UP returns exactly the two-field update. -/
theorem C7_config_mutation_amended_witness :
    (∃ out, phase_I_generate_image ctx0 (some 2) ⟨[("tr/text", "T")]⟩ = .ok out
      ∧ out.1 = ctx0)
    ∧ (∃ out, phase_UP_generate_unicharset ctx0 ⟨[]⟩ = .ok out
      ∧ out.1 = { ctx0 with
          unicharset_file := ctx0.training_dir ++ "/" ++ ctx0.lang_code ++ ".unicharset",
          xheights_file := ctx0.training_dir ++ "/" ++ ctx0.lang_code ++ ".xheights" }) := by
  constructor
  · cases h : phase_I_generate_image ctx0 (some 2) ⟨[("tr/text", "T")]⟩ with
    | ok out =>
      exact ⟨out, rfl,
        (C7_config_mutation_amended ctx0 ⟨[("tr/text", "T")]⟩ (some 2) [] "tr").1 out h⟩
    | error e =>
      have hb : isOkE (phase_I_generate_image ctx0 (some 2) ⟨[("tr/text", "T")]⟩) = true := rfl
      rw [h] at hb
      exact Bool.noConfusion hb
  · cases h : phase_UP_generate_unicharset ctx0 ⟨[]⟩ with
    | ok out =>
      exact ⟨out, rfl,
        (C7_config_mutation_amended ctx0 ⟨[]⟩ (some 2) [] "tr").2.1 out h⟩
    | error e =>
      have hb : isOkE (phase_UP_generate_unicharset ctx0 ⟨[]⟩) = true := rfl
      rw [h] at hb
      exact Bool.noConfusion hb

end Tesstrain

namespace Tesstrain

/-! ### Claim C5: the Phase I artifact contract -/

theorem exceptOkBind {ε α β : Type} (a : α) (f : α → Except ε β) :
    (Except.ok a >>= f) = f a := rfl

theorem pathExists_iff_mem_paths (fs : FS) (q : String) :
    fs.pathExists q = true ↔ q ∈ fs.paths := by
  unfold FS.pathExists FS.paths
  rw [List.any_eq_true]
  constructor
  · rintro ⟨e, he, hq⟩
    exact List.mem_map.mpr ⟨e, he, beq_iff_eq.mp hq⟩
  · rintro hq
    obtain ⟨e, he, hq⟩ := List.mem_map.mp hq
    exact ⟨e, he, beq_iff_eq.mpr hq⟩

theorem mem_paths_write (fs : FS) (p c q : String) :
    q ∈ (fs.write p c).paths ↔ q = p ∨ q ∈ fs.paths := by
  unfold FS.write
  split_ifs with h
  · have hrepl : (FS.mk (fs.files.map (fun e => if e.1 == p then (p, c) else e))).paths
        = fs.paths := by
      unfold FS.paths
      rw [List.map_map]
      apply List.map_congr_left
      intro e he
      by_cases hep : (e.1 == p) = true
      · simp only [Function.comp, hep, if_pos]
        exact (beq_iff_eq.mp hep).symm
      · simp only [Function.comp, hep]
        rfl
    rw [hrepl]
    constructor
    · exact Or.inr
    · rintro (rfl | hq)
      · exact (pathExists_iff_mem_paths fs q).mp h
      · exact hq
  · show q ∈ (FS.mk (fs.files ++ [(p, c)])).paths ↔ _
    unfold FS.paths
    rw [List.map_append, List.mem_append]
    simp [or_comm]

theorem check_file_readable_ok_of (fs : FS) (ps : List String)
    (h : ∀ p ∈ ps, fs.pathExists p = true) : check_file_readable fs ps = .ok () := by
  unfold check_file_readable
  cases hf : ps.find? (fun p => !(fs.pathExists p)) with
  | none => rfl
  | some p =>
    have h1 := List.find?_some hf
    have h2 := List.mem_of_find?_eq_some hf
    rw [h p h2] at h1
    exact Bool.noConfusion h1

theorem check_file_readable_ok_elim {fs : FS} {ps : List String} {u : Unit}
    (h : check_file_readable fs ps = .ok u) : ∀ p ∈ ps, fs.pathExists p = true := by
  intro p hp
  unfold check_file_readable at h
  cases hf : ps.find? (fun p => !(fs.pathExists p)) with
  | none =>
    have := List.find?_eq_none.mp hf p hp
    simpa using this
  | some x =>
    rw [hf] at h
    exact Except.noConfusion h

end Tesstrain

namespace Tesstrain

theorem generate_font_image_ok (ctx : TrainingArguments) (font : String) (exposure : ExpoElem)
    (fs : FS) (hx : ctx.extract_font_properties = false) :
    generate_font_image ctx font exposure fs
      = .ok ((fs.write (make_outbase ctx (make_fontname font) exposure ++ ".box") "").write
          (make_outbase ctx (make_fontname font) exposure ++ ".tif") "") := by
  unfold generate_font_image
  rw [hx]
  simp only []
  have hc : check_file_readable
      ((fs.write (make_outbase ctx (make_fontname font) exposure ++ ".box") "").write
        (make_outbase ctx (make_fontname font) exposure ++ ".tif") "")
      [make_outbase ctx (make_fontname font) exposure ++ ".box",
       make_outbase ctx (make_fontname font) exposure ++ ".tif"] = .ok () := by
    apply check_file_readable_ok_of
    intro p hp
    rcases List.mem_cons.mp hp with rfl | hp2
    · exact (pathExists_iff_mem_paths _ _).mpr
        ((mem_paths_write _ _ _ _).mpr (Or.inr ((mem_paths_write _ _ _ _).mpr (Or.inl rfl))))
    · rcases List.mem_cons.mp hp2 with rfl | hp3
      · exact (pathExists_iff_mem_paths _ _).mpr ((mem_paths_write _ _ _ _).mpr (Or.inl rfl))
      · exact absurd hp3 (List.not_mem_nil p)
  rw [hc, exceptOkBind]
  rfl

end Tesstrain

namespace Tesstrain

theorem fontsFold_ok (ctx : TrainingArguments) (exposure : ExpoElem)
    (hx : ctx.extract_font_properties = false) :
    ∀ (fonts : List String) (fs : FS), ∃ fs2,
      fonts.foldlM (fun fs font => generate_font_image ctx font exposure fs) fs = .ok fs2
      ∧ (∀ q, q ∈ fs2.paths ↔ q ∈ fs.paths ∨ ∃ f ∈ fonts,
          q = make_outbase ctx (make_fontname f) exposure ++ ".box"
          ∨ q = make_outbase ctx (make_fontname f) exposure ++ ".tif") := by
  intro fonts
  induction fonts with
  | nil =>
    intro fs
    refine ⟨fs, rfl, ?_⟩
    simp
  | cons f fonts ih =>
    intro fs
    obtain ⟨fs2, hfold, hmem⟩ :=
      ih ((fs.write (make_outbase ctx (make_fontname f) exposure ++ ".box") "").write
        (make_outbase ctx (make_fontname f) exposure ++ ".tif") "")
    refine ⟨fs2, ?_, ?_⟩
    · rw [List.foldlM_cons, generate_font_image_ok ctx f exposure fs hx, exceptOkBind, hfold]
    · intro q
      rw [hmem q, mem_paths_write, mem_paths_write]
      simp only [List.mem_cons, exists_eq_or_imp]
      aesop

theorem recheckFold_ok (ctx : TrainingArguments) (exposure : ExpoElem) (fs : FS) :
    ∀ (fonts : List String),
      (∀ f ∈ fonts, fs.pathExists (make_outbase ctx (make_fontname f) exposure ++ ".box") = true
        ∧ fs.pathExists (make_outbase ctx (make_fontname f) exposure ++ ".tif") = true) →
      (fonts.foldlM (fun _ font =>
        check_file_readable fs
          [make_outbase ctx (make_fontname font) exposure ++ ".box",
           make_outbase ctx (make_fontname font) exposure ++ ".tif"]) ()) = .ok () := by
  intro fonts
  induction fonts with
  | nil => intro _; rfl
  | cons f fonts ih =>
    intro h
    rw [List.foldlM_cons]
    have hc : check_file_readable fs
        [make_outbase ctx (make_fontname f) exposure ++ ".box",
         make_outbase ctx (make_fontname f) exposure ++ ".tif"] = .ok () := by
      apply check_file_readable_ok_of
      intro p hp
      rcases List.mem_cons.mp hp with rfl | hp2
      · exact (h f (List.mem_cons_self f fonts)).1
      · rcases List.mem_cons.mp hp2 with rfl | hp3
        · exact (h f (List.mem_cons_self f fonts)).2
        · exact absurd hp3 (List.not_mem_nil p)
    rw [hc, exceptOkBind]
    exact ih (fun g hg => h g (List.mem_cons_of_mem f hg))

end Tesstrain

namespace Tesstrain

theorem expBody_ok (ctx : TrainingArguments) (e : ExpoElem) (fs : FS)
    (hx : ctx.extract_font_properties = false) :
    ∃ fsMid,
      (do
        let fs ← (
          if ctx.extract_font_properties && fs.pathExists ctx.bigram_freqs_file then do
            match deriveNgrams ((fs.read? ctx.bigram_freqs_file).getD "") with
            | .error e => .error (RunError.uncaught e)
            | .ok content =>
              let fs := fs.write ctx.train_ngrams_file content
              let _ ← check_file_readable fs [ctx.train_ngrams_file]
              Except.ok fs
          else .ok fs)
        let fs ← ctx.fonts.foldlM (fun fs font => generate_font_image ctx font e fs) fs
        let _ ← ctx.fonts.foldlM (fun _ font =>
          check_file_readable fs
            [make_outbase ctx (make_fontname font) e ++ ".box",
             make_outbase ctx (make_fontname font) e ++ ".tif"]) ()
        Except.ok fs : Except RunError FS) = .ok fsMid
      ∧ (∀ q, q ∈ fsMid.paths ↔ q ∈ fs.paths ∨ ∃ f ∈ ctx.fonts,
          q = make_outbase ctx (make_fontname f) e ++ ".box"
          ∨ q = make_outbase ctx (make_fontname f) e ++ ".tif") := by
  obtain ⟨fsMid, hfonts, hmemF⟩ := fontsFold_ok ctx e hx ctx.fonts fs
  have hre : (ctx.fonts.foldlM (fun _ font =>
      check_file_readable fsMid
        [make_outbase ctx (make_fontname font) e ++ ".box",
         make_outbase ctx (make_fontname font) e ++ ".tif"]) ()) = .ok () := by
    apply recheckFold_ok
    intro f hf
    constructor
    · exact (pathExists_iff_mem_paths _ _).mpr
        ((hmemF _).mpr (Or.inr ⟨f, hf, Or.inl rfl⟩))
    · exact (pathExists_iff_mem_paths _ _).mpr
        ((hmemF _).mpr (Or.inr ⟨f, hf, Or.inr rfl⟩))
  refine ⟨fsMid, ?_, hmemF⟩
  simp only [hx, Bool.false_and, Bool.false_eq_true, if_false, exceptOkBind, hfonts, hre]

theorem expFold_ok (ctx : TrainingArguments)
    (hx : ctx.extract_font_properties = false) :
    ∀ (exps : List ExpoElem) (fs : FS), ∃ fs2,
      (exps.foldlM (fun fs exposure => (do
        let fs ← (
          if ctx.extract_font_properties && fs.pathExists ctx.bigram_freqs_file then do
            match deriveNgrams ((fs.read? ctx.bigram_freqs_file).getD "") with
            | .error e => .error (RunError.uncaught e)
            | .ok content =>
              let fs := fs.write ctx.train_ngrams_file content
              let _ ← check_file_readable fs [ctx.train_ngrams_file]
              Except.ok fs
          else .ok fs)
        let fs ← ctx.fonts.foldlM (fun fs font => generate_font_image ctx font exposure fs) fs
        let _ ← ctx.fonts.foldlM (fun _ font =>
          check_file_readable fs
            [make_outbase ctx (make_fontname font) exposure ++ ".box",
             make_outbase ctx (make_fontname font) exposure ++ ".tif"]) ()
        Except.ok fs : Except RunError FS)) fs) = .ok fs2
      ∧ (∀ q, q ∈ fs2.paths ↔ q ∈ fs.paths ∨ ∃ e ∈ exps, ∃ f ∈ ctx.fonts,
          q = make_outbase ctx (make_fontname f) e ++ ".box"
          ∨ q = make_outbase ctx (make_fontname f) e ++ ".tif") := by
  intro exps
  induction exps with
  | nil =>
    intro fs
    refine ⟨fs, rfl, ?_⟩
    simp
  | cons e exps ih =>
    intro fs
    obtain ⟨fsMid, hbody, hmemF⟩ := expBody_ok ctx e fs hx
    obtain ⟨fs2, hrest, hmemR⟩ := ih fsMid
    refine ⟨fs2, ?_, ?_⟩
    · rw [List.foldlM_cons]
      rw [hbody, exceptOkBind]
      exact hrest
    · intro q
      rw [hmemR q]
      simp only [hmemF q, List.mem_cons, exists_eq_or_imp]
      aesop

end Tesstrain

namespace Tesstrain

theorem sum_map_const_nat {α : Type} (l : List α) (k : Nat) :
    (l.map (fun _ => k)).sum = l.length * k := by
  induction l with
  | nil => simp
  | cons a l ih =>
    simp [ih, Nat.succ_mul]
    omega

theorem length_expectedPairPaths (ctx : TrainingArguments) :
    (expectedPairPaths ctx).length = 2 * (ctx.fonts.length * ctx.exposures.length) := by
  have hob : (expectedOutbases ctx).length = ctx.fonts.length * ctx.exposures.length := by
    unfold expectedOutbases
    rw [List.length_flatten, List.map_map]
    have : (List.length ∘ fun e => ctx.fonts.map
        (fun f => make_outbase ctx (make_fontname f) e)) = fun _ => ctx.fonts.length := by
      funext e
      simp
    rw [this, sum_map_const_nat]
    exact Nat.mul_comm _ _
  unfold expectedPairPaths
  rw [List.length_append, List.length_map, List.length_map, hob]
  omega

theorem mem_expectedPairPaths (ctx : TrainingArguments) (q : String) :
    q ∈ expectedPairPaths ctx ↔ ∃ e ∈ ctx.exposures, ∃ f ∈ ctx.fonts,
      q = make_outbase ctx (make_fontname f) e ++ ".box"
      ∨ q = make_outbase ctx (make_fontname f) e ++ ".tif" := by
  unfold expectedPairPaths expectedOutbases
  simp only [List.mem_append, List.mem_map, List.mem_flatten]
  aesop

theorem strAppend_right_cancel {a b s : String} (h : a ++ s = b ++ s) : a = b := by
  have h2 : a.data ++ s.data = b.data ++ s.data := by
    rw [← strData_append, ← strData_append, h]
  exact String.ext (List.append_cancel_right h2)

theorem append_box_ne_tif (a b : String) : a ++ ".box" ≠ b ++ ".tif" := by
  intro h
  have hx2 : (a ++ ".box").data.reverse.head? = some 'x' := by
    rw [strData_append, List.reverse_append]
    rfl
  have hf2 : (b ++ ".tif").data.reverse.head? = some 'f' := by
    rw [strData_append, List.reverse_append]
    rfl
  rw [h, hf2] at hx2
  injection hx2 with hx2
  exact absurd hx2 (by decide)

theorem nodup_expectedPairPaths {ctx : TrainingArguments}
    (hnd : (expectedOutbases ctx).Nodup) : (expectedPairPaths ctx).Nodup := by
  unfold expectedPairPaths
  rw [List.nodup_append]
  refine ⟨hnd.map (fun a b h => strAppend_right_cancel h),
    hnd.map (fun a b h => strAppend_right_cancel h), ?_⟩
  intro a ha hb
  obtain ⟨x, hx, hxa⟩ := List.mem_map.mp ha
  obtain ⟨y, hy, hya⟩ := List.mem_map.mp hb
  exact append_box_ne_tif x y (hxa.trans hya.symm)

/-- The full Phase I filesystem contract with font-property extraction
disabled: the phase succeeds, returns its configuration unchanged, and
the resulting filesystem holds exactly the previous files plus the
expected box/image pairs. -/
theorem phase_I_ok_spec (ctx : TrainingArguments) (par : Option Int) (fs : FS)
    (hx : ctx.extract_font_properties = false)
    (htext : fs.pathExists ctx.training_text = true) :
    ∃ fs2, phase_I_generate_image ctx par fs = .ok (ctx, fs2)
      ∧ (∀ q, q ∈ fs2.paths ↔ q ∈ fs.paths ∨ q ∈ expectedPairPaths ctx) := by
  obtain ⟨fs2, hfold, hmem⟩ := expFold_ok ctx hx ctx.exposures fs
  have hck : check_file_readable fs [ctx.training_text] = .ok () := by
    apply check_file_readable_ok_of
    intro p hp
    rcases List.mem_cons.mp hp with rfl | hp2
    · exact htext
    · exact absurd hp2 (List.not_mem_nil p)
  refine ⟨fs2, ?_, ?_⟩
  · unfold phase_I_generate_image
    rw [hck, exceptOkBind, hfold, exceptOkBind]
  · intro q
    rw [hmem q, mem_expectedPairPaths]

end Tesstrain

namespace Tesstrain

/-- `generate_font_image` always succeeds: the box/tiff pair is written
and then found readable, and the `.fontinfo` file is written exactly when
font-property extraction is on and the n-gram file exists. -/
theorem generate_font_image_ok_gen (ctx : TrainingArguments) (font : String)
    (exposure : ExpoElem) (fs : FS) :
    generate_font_image ctx font exposure fs = .ok (
      if ctx.extract_font_properties
          && ((fs.write (make_outbase ctx (make_fontname font) exposure ++ ".box") "").write
              (make_outbase ctx (make_fontname font) exposure ++ ".tif") "").pathExists
            ctx.train_ngrams_file
      then (((fs.write (make_outbase ctx (make_fontname font) exposure ++ ".box") "").write
              (make_outbase ctx (make_fontname font) exposure ++ ".tif") "").write
            (make_outbase ctx (make_fontname font) exposure ++ ".fontinfo") "")
      else ((fs.write (make_outbase ctx (make_fontname font) exposure ++ ".box") "").write
            (make_outbase ctx (make_fontname font) exposure ++ ".tif") "")) := by
  unfold generate_font_image
  simp only []
  have hc : check_file_readable
      ((fs.write (make_outbase ctx (make_fontname font) exposure ++ ".box") "").write
        (make_outbase ctx (make_fontname font) exposure ++ ".tif") "")
      [make_outbase ctx (make_fontname font) exposure ++ ".box",
       make_outbase ctx (make_fontname font) exposure ++ ".tif"] = .ok () := by
    apply check_file_readable_ok_of
    intro p hp
    rcases List.mem_cons.mp hp with rfl | hp2
    · exact (pathExists_iff_mem_paths _ _).mpr
        ((mem_paths_write _ _ _ _).mpr (Or.inr ((mem_paths_write _ _ _ _).mpr (Or.inl rfl))))
    · rcases List.mem_cons.mp hp2 with rfl | hp3
      · exact (pathExists_iff_mem_paths _ _).mpr ((mem_paths_write _ _ _ _).mpr (Or.inl rfl))
      · exact absurd hp3 (List.not_mem_nil p)
  rw [hc, exceptOkBind]
  by_cases hcond : (ctx.extract_font_properties
      && ((fs.write (make_outbase ctx (make_fontname font) exposure ++ ".box") "").write
          (make_outbase ctx (make_fontname font) exposure ++ ".tif") "").pathExists
        ctx.train_ngrams_file) = true
  · rw [if_pos hcond, if_pos hcond]
    have hc2 : check_file_readable
        (((fs.write (make_outbase ctx (make_fontname font) exposure ++ ".box") "").write
            (make_outbase ctx (make_fontname font) exposure ++ ".tif") "").write
          (make_outbase ctx (make_fontname font) exposure ++ ".fontinfo") "")
        [make_outbase ctx (make_fontname font) exposure ++ ".fontinfo"] = .ok () := by
      apply check_file_readable_ok_of
      intro p hp
      rcases List.mem_cons.mp hp with rfl | hp2
      · exact (pathExists_iff_mem_paths _ _).mpr ((mem_paths_write _ _ _ _).mpr (Or.inl rfl))
      · exact absurd hp2 (List.not_mem_nil p)
    rw [hc2, exceptOkBind]
  · rw [if_neg hcond, if_neg hcond]

/-- Membership facts about one per-font unit: existing files survive, the
box/tiff pair appears, and any new file is the pair or the `.fontinfo`. -/
theorem generate_font_image_mem {ctx : TrainingArguments} {font : String}
    {exposure : ExpoElem} {fs fs2 : FS}
    (h : generate_font_image ctx font exposure fs = .ok fs2) :
    (∀ q ∈ fs.paths, q ∈ fs2.paths)
    ∧ (make_outbase ctx (make_fontname font) exposure ++ ".box") ∈ fs2.paths
    ∧ (make_outbase ctx (make_fontname font) exposure ++ ".tif") ∈ fs2.paths
    ∧ (∀ q ∈ fs2.paths, q ∈ fs.paths
        ∨ q = make_outbase ctx (make_fontname font) exposure ++ ".box"
        ∨ q = make_outbase ctx (make_fontname font) exposure ++ ".tif"
        ∨ q = make_outbase ctx (make_fontname font) exposure ++ ".fontinfo") := by
  rw [generate_font_image_ok_gen] at h
  injection h with h
  subst h
  split_ifs with hcond
  · refine ⟨?_, ?_, ?_, ?_⟩
    · intro q hq
      rw [mem_paths_write, mem_paths_write, mem_paths_write]
      tauto
    · rw [mem_paths_write, mem_paths_write, mem_paths_write]
      tauto
    · rw [mem_paths_write, mem_paths_write, mem_paths_write]
      tauto
    · intro q hq
      rw [mem_paths_write, mem_paths_write, mem_paths_write] at hq
      tauto
  · refine ⟨?_, ?_, ?_, ?_⟩
    · intro q hq
      rw [mem_paths_write, mem_paths_write]
      tauto
    · rw [mem_paths_write, mem_paths_write]
      tauto
    · rw [mem_paths_write, mem_paths_write]
      tauto
    · intro q hq
      rw [mem_paths_write, mem_paths_write] at hq
      tauto

/-- The optional n-gram step of an exposure: when it returns normally the
filesystem at most gains the n-gram file. -/
theorem ngramStep_elim {ctx : TrainingArguments} {fs fs2 : FS}
    (h : (if ctx.extract_font_properties && fs.pathExists ctx.bigram_freqs_file then do
        match deriveNgrams ((fs.read? ctx.bigram_freqs_file).getD "") with
        | .error e => .error (RunError.uncaught e)
        | .ok content =>
          let fs := fs.write ctx.train_ngrams_file content
          let _ ← check_file_readable fs [ctx.train_ngrams_file]
          Except.ok fs
      else .ok fs : Except RunError FS) = .ok fs2) :
    (∀ q ∈ fs.paths, q ∈ fs2.paths)
    ∧ (∀ q ∈ fs2.paths, q ∈ fs.paths ∨ q = ctx.train_ngrams_file) := by
  by_cases hcond : (ctx.extract_font_properties && fs.pathExists ctx.bigram_freqs_file) = true
  · rw [if_pos hcond] at h
    cases hd : deriveNgrams ((fs.read? ctx.bigram_freqs_file).getD "") with
    | error e =>
      rw [hd] at h
      have h2 : (Except.error (RunError.uncaught e) : Except RunError FS) = .ok fs2 := h
      exact Except.noConfusion h2
    | ok content =>
      rw [hd] at h
      have h2 : ((check_file_readable (fs.write ctx.train_ngrams_file content)
            [ctx.train_ngrams_file] : Except RunError Unit) >>= fun _ =>
          Except.ok (fs.write ctx.train_ngrams_file content)) = .ok fs2 := h
      obtain ⟨u, hck, hrest⟩ := exceptBind_ok h2
      injection hrest with hrest
      subst hrest
      constructor
      · intro q hq
        rw [mem_paths_write]
        exact Or.inr hq
      · intro q hq
        rw [mem_paths_write] at hq
        tauto
  · rw [if_neg hcond] at h
    injection h with h
    subst h
    exact ⟨fun q hq => hq, fun q hq => Or.inl hq⟩

/-- Membership facts about the per-font fold of an exposure. -/
theorem fontsFold_elim (ctx : TrainingArguments) (exposure : ExpoElem) :
    ∀ (fonts : List String) (fs fs2 : FS),
      fonts.foldlM (fun fs font => generate_font_image ctx font exposure fs) fs = .ok fs2 →
      (∀ q ∈ fs.paths, q ∈ fs2.paths)
      ∧ (∀ f ∈ fonts, (make_outbase ctx (make_fontname f) exposure ++ ".box") ∈ fs2.paths
          ∧ (make_outbase ctx (make_fontname f) exposure ++ ".tif") ∈ fs2.paths)
      ∧ (∀ q ∈ fs2.paths, q ∈ fs.paths ∨ ∃ f ∈ fonts,
          q = make_outbase ctx (make_fontname f) exposure ++ ".box"
          ∨ q = make_outbase ctx (make_fontname f) exposure ++ ".tif"
          ∨ q = make_outbase ctx (make_fontname f) exposure ++ ".fontinfo") := by
  intro fonts
  induction fonts with
  | nil =>
    intro fs fs2 h
    injection h with h
    subst h
    exact ⟨fun q hq => hq, fun f hf => absurd hf (List.not_mem_nil f), fun q hq => Or.inl hq⟩
  | cons f fonts ih =>
    intro fs fs2 h
    rw [List.foldlM_cons] at h
    obtain ⟨fs1, h1, h2⟩ := exceptBind_ok h
    obtain ⟨hmono1, hbox1, htif1, hup1⟩ := generate_font_image_mem h1
    obtain ⟨hmono2, hpairs2, hup2⟩ := ih fs1 fs2 h2
    refine ⟨fun q hq => hmono2 q (hmono1 q hq), ?_, ?_⟩
    · intro g hg
      rcases List.mem_cons.mp hg with rfl | hg2
      · exact ⟨hmono2 _ hbox1, hmono2 _ htif1⟩
      · exact hpairs2 g hg2
    · intro q hq
      rcases hup2 q hq with hq1 | ⟨g, hg, hq1⟩
      · rcases hup1 q hq1 with hq0 | hq0
        · exact Or.inl hq0
        · exact Or.inr ⟨f, List.mem_cons_self f fonts, hq0⟩
      · exact Or.inr ⟨g, List.mem_cons_of_mem f hg, hq1⟩

/-- Membership facts about one whole exposure body of Phase I. -/
theorem expBody_elim (ctx : TrainingArguments) (e : ExpoElem) (fs fsMid : FS)
    (h : (do
        let fs ← (
          if ctx.extract_font_properties && fs.pathExists ctx.bigram_freqs_file then do
            match deriveNgrams ((fs.read? ctx.bigram_freqs_file).getD "") with
            | .error e => .error (RunError.uncaught e)
            | .ok content =>
              let fs := fs.write ctx.train_ngrams_file content
              let _ ← check_file_readable fs [ctx.train_ngrams_file]
              Except.ok fs
          else .ok fs)
        let fs ← ctx.fonts.foldlM (fun fs font => generate_font_image ctx font e fs) fs
        let _ ← ctx.fonts.foldlM (fun _ font =>
          check_file_readable fs
            [make_outbase ctx (make_fontname font) e ++ ".box",
             make_outbase ctx (make_fontname font) e ++ ".tif"]) ()
        Except.ok fs : Except RunError FS) = .ok fsMid) :
    (∀ q ∈ fs.paths, q ∈ fsMid.paths)
    ∧ (∀ f ∈ ctx.fonts, (make_outbase ctx (make_fontname f) e ++ ".box") ∈ fsMid.paths
        ∧ (make_outbase ctx (make_fontname f) e ++ ".tif") ∈ fsMid.paths)
    ∧ (∀ q ∈ fsMid.paths, q ∈ fs.paths ∨ q = ctx.train_ngrams_file ∨ ∃ f ∈ ctx.fonts,
        q = make_outbase ctx (make_fontname f) e ++ ".box"
        ∨ q = make_outbase ctx (make_fontname f) e ++ ".tif"
        ∨ q = make_outbase ctx (make_fontname f) e ++ ".fontinfo") := by
  obtain ⟨fs1, h1, h2⟩ := exceptBind_ok h
  obtain ⟨fs2, h3, h4⟩ := exceptBind_ok h2
  obtain ⟨u, h5, h6⟩ := exceptBind_ok h4
  injection h6 with h6
  subst h6
  obtain ⟨hmonoN, hupN⟩ := ngramStep_elim h1
  obtain ⟨hmonoF, hpairsF, hupF⟩ := fontsFold_elim ctx e ctx.fonts fs1 fs2 h3
  refine ⟨fun q hq => hmonoF q (hmonoN q hq), hpairsF, ?_⟩
  intro q hq
  rcases hupF q hq with hq1 | hq1
  · rcases hupN q hq1 with hq0 | hq0
    · exact Or.inl hq0
    · exact Or.inr (Or.inl hq0)
  · exact Or.inr (Or.inr hq1)

/-- Membership facts about the exposure fold of Phase I. -/
theorem expFold_elim (ctx : TrainingArguments) :
    ∀ (exps : List ExpoElem) (fs fs2 : FS),
      (exps.foldlM (fun fs exposure => (do
        let fs ← (
          if ctx.extract_font_properties && fs.pathExists ctx.bigram_freqs_file then do
            match deriveNgrams ((fs.read? ctx.bigram_freqs_file).getD "") with
            | .error e => .error (RunError.uncaught e)
            | .ok content =>
              let fs := fs.write ctx.train_ngrams_file content
              let _ ← check_file_readable fs [ctx.train_ngrams_file]
              Except.ok fs
          else .ok fs)
        let fs ← ctx.fonts.foldlM (fun fs font => generate_font_image ctx font exposure fs) fs
        let _ ← ctx.fonts.foldlM (fun _ font =>
          check_file_readable fs
            [make_outbase ctx (make_fontname font) exposure ++ ".box",
             make_outbase ctx (make_fontname font) exposure ++ ".tif"]) ()
        Except.ok fs : Except RunError FS)) fs) = .ok fs2 →
      (∀ q ∈ fs.paths, q ∈ fs2.paths)
      ∧ (∀ e ∈ exps, ∀ f ∈ ctx.fonts,
          (make_outbase ctx (make_fontname f) e ++ ".box") ∈ fs2.paths
          ∧ (make_outbase ctx (make_fontname f) e ++ ".tif") ∈ fs2.paths)
      ∧ (∀ q ∈ fs2.paths, q ∈ fs.paths ∨ q = ctx.train_ngrams_file
          ∨ ∃ e ∈ exps, ∃ f ∈ ctx.fonts,
            q = make_outbase ctx (make_fontname f) e ++ ".box"
            ∨ q = make_outbase ctx (make_fontname f) e ++ ".tif"
            ∨ q = make_outbase ctx (make_fontname f) e ++ ".fontinfo") := by
  intro exps
  induction exps with
  | nil =>
    intro fs fs2 h
    injection h with h
    subst h
    exact ⟨fun q hq => hq, fun e he => absurd he (List.not_mem_nil e), fun q hq => Or.inl hq⟩
  | cons e exps ih =>
    intro fs fs2 h
    rw [List.foldlM_cons] at h
    obtain ⟨fsMid, hbody, hrest⟩ := exceptBind_ok h
    obtain ⟨hmono1, hpairs1, hup1⟩ := expBody_elim ctx e fs fsMid hbody
    obtain ⟨hmono2, hpairs2, hup2⟩ := ih fsMid fs2 hrest
    refine ⟨fun q hq => hmono2 q (hmono1 q hq), ?_, ?_⟩
    · intro e2 he2 f hf
      rcases List.mem_cons.mp he2 with rfl | he3
      · exact ⟨hmono2 _ (hpairs1 f hf).1, hmono2 _ (hpairs1 f hf).2⟩
      · exact hpairs2 e2 he3 f hf
    · intro q hq
      rcases hup2 q hq with hq1 | hq1 | ⟨e2, he2, hrest2⟩
      · rcases hup1 q hq1 with hq0 | hq0 | hq0
        · exact Or.inl hq0
        · exact Or.inr (Or.inl hq0)
        · exact Or.inr (Or.inr ⟨e, List.mem_cons_self e exps, hq0⟩)
      · exact Or.inr (Or.inl hq1)
      · exact Or.inr (Or.inr ⟨e2, List.mem_cons_of_mem e he2, hrest2⟩)

/-- Destructured Phase I normal return, for any extraction setting: the
configuration is returned unchanged, the box/tiff pair of every
(exposure, font) combination is on disk, prior files survive, and any new
file is a pair member, the n-gram file or a `.fontinfo` file. -/
theorem phase_I_elim {ctx : TrainingArguments} {par : Option Int} {fs : FS}
    {out : TrainingArguments × FS}
    (h : phase_I_generate_image ctx par fs = .ok out) :
    ∃ fs2, out = (ctx, fs2)
      ∧ (∀ q ∈ fs.paths, q ∈ fs2.paths)
      ∧ (∀ e ∈ ctx.exposures, ∀ f ∈ ctx.fonts,
          (make_outbase ctx (make_fontname f) e ++ ".box") ∈ fs2.paths
          ∧ (make_outbase ctx (make_fontname f) e ++ ".tif") ∈ fs2.paths)
      ∧ (∀ q ∈ fs2.paths, q ∈ fs.paths ∨ q = ctx.train_ngrams_file
          ∨ ∃ e ∈ ctx.exposures, ∃ f ∈ ctx.fonts,
            q = make_outbase ctx (make_fontname f) e ++ ".box"
            ∨ q = make_outbase ctx (make_fontname f) e ++ ".tif"
            ∨ q = make_outbase ctx (make_fontname f) e ++ ".fontinfo") := by
  unfold phase_I_generate_image at h
  simp only [] at h
  obtain ⟨u, hck, h2⟩ := exceptBind_ok h
  obtain ⟨fs2, hfold, h3⟩ := exceptBind_ok h2
  injection h3 with h3
  obtain ⟨hmono, hpairs, hup⟩ := expFold_elim ctx ctx.exposures fs fs2 hfold
  exact ⟨fs2, h3.symm, hmono, hpairs, hup⟩

/-- The expected output bases cover every (exposure, font) combination. -/
theorem mem_expectedOutbases_of (ctx : TrainingArguments) {e : ExpoElem} {f : String}
    (he : e ∈ ctx.exposures) (hf : f ∈ ctx.fonts) :
    make_outbase ctx (make_fontname f) e ∈ expectedOutbases ctx := by
  unfold expectedOutbases
  rw [List.mem_flatten]
  exact ⟨ctx.fonts.map (fun g => make_outbase ctx (make_fontname g) e),
    List.mem_map_of_mem _ he, List.mem_map_of_mem _ hf⟩

end Tesstrain

namespace Tesstrain

/-- Claim C5 (amended): with *pairwise distinct expected output bases* —
distinct normalized font names and distinct exposures — a normal return of
Phase I leaves on disk every expected box/image file, exactly `2·N·E`
distinct expected files in all, any other file present was there initially
or is one of the phase's documented side outputs (the n-gram file or a
per-pair `.fontinfo` file, produced only during font-property extraction),
and the outcome does not depend on the worker-pool size. -/
theorem C5_phase_I_pairs_amended (ctx : TrainingArguments) (fs : FS) (par : Option Int)
    (out : TrainingArguments × FS)
    (hnodup : (expectedOutbases ctx).Nodup)
    (h : phase_I_generate_image ctx par fs = .ok out) :
    (∀ p ∈ expectedPairPaths ctx, out.2.pathExists p = true)
    ∧ (expectedPairPaths ctx).length = 2 * (ctx.fonts.length * ctx.exposures.length)
    ∧ (expectedPairPaths ctx).Nodup
    ∧ (∀ p, out.2.pathExists p = true → fs.pathExists p = true ∨ p ∈ expectedPairPaths ctx
        ∨ p = ctx.train_ngrams_file
        ∨ p ∈ (expectedOutbases ctx).map (fun b => b ++ ".fontinfo"))
    ∧ (∀ par2, phase_I_generate_image ctx par2 fs = phase_I_generate_image ctx par fs) := by
  obtain ⟨fs2, hout, hmono, hpairs, hup⟩ := phase_I_elim h
  subst hout
  refine ⟨?_, length_expectedPairPaths ctx, nodup_expectedPairPaths hnodup, ?_, fun par2 => rfl⟩
  · intro p hp
    obtain ⟨e, he, f, hf, hor⟩ := (mem_expectedPairPaths ctx p).mp hp
    apply (pathExists_iff_mem_paths _ _).mpr
    rcases hor with rfl | rfl
    · exact (hpairs e he f hf).1
    · exact (hpairs e he f hf).2
  · intro p hp
    rcases hup p ((pathExists_iff_mem_paths _ _).mp hp) with h1 | h1 | ⟨e, he, f, hf, h1⟩
    · exact Or.inl ((pathExists_iff_mem_paths _ _).mpr h1)
    · exact Or.inr (Or.inr (Or.inl h1))
    · rcases h1 with rfl | rfl | rfl
      · exact Or.inr (Or.inl ((mem_expectedPairPaths ctx _).mpr ⟨e, he, f, hf, Or.inl rfl⟩))
      · exact Or.inr (Or.inl ((mem_expectedPairPaths ctx _).mpr ⟨e, he, f, hf, Or.inr rfl⟩))
      · exact Or.inr (Or.inr (Or.inr
          (List.mem_map_of_mem _ (mem_expectedOutbases_of ctx he hf))))

/-- Claim C5, counterexample to the stated form: the two distinct fonts
`"a b"` and `"a_b"` normalize to the same font name, so a normal Phase I
run with one exposure leaves one box/image pair on disk, not the claimed
N×E = 2. -/
theorem C5_counterexample :
    ((phase_I_generate_image
        { ctx0 with fonts := ["a b", "a_b"], exposures := [ExpoElem.i 0] }
        (some 1) ⟨[("tr/text", "T")]⟩).toOption.map
      (fun r => ((r.2.paths.filter (fun p => (".box".data).isSuffixOf p.data)).length,
        (r.2.paths.filter (fun p => (".tif".data).isSuffixOf p.data)).length)))
      = some (1, 1)
    ∧ ({ ctx0 with fonts := ["a b", "a_b"], exposures := [ExpoElem.i 0] }
        : TrainingArguments).fonts.length
      * ({ ctx0 with fonts := ["a b", "a_b"], exposures := [ExpoElem.i 0] }
        : TrainingArguments).exposures.length = 2 := by
  exact ⟨rfl, rfl⟩

/-- Witness instantiating `C5_phase_I_pairs_amended` on two fonts with
distinct normalized names and a single exposure. -/
theorem C5_phase_I_pairs_amended_witness :
    ∃ out, phase_I_generate_image
        { ctx0 with fonts := ["f1", "f2"], exposures := [ExpoElem.i 0] }
        (some 4) ⟨[("tr/text", "T")]⟩ = .ok out
      ∧ (∀ p ∈ expectedPairPaths { ctx0 with fonts := ["f1", "f2"], exposures := [ExpoElem.i 0] },
          out.2.pathExists p = true)
      ∧ (expectedPairPaths { ctx0 with fonts := ["f1", "f2"], exposures := [ExpoElem.i 0] }).length
          = 2 * (2 * 1) := by
  cases h : phase_I_generate_image
      { ctx0 with fonts := ["f1", "f2"], exposures := [ExpoElem.i 0] }
      (some 4) ⟨[("tr/text", "T")]⟩ with
  | ok out =>
    have hc := C5_phase_I_pairs_amended
      { ctx0 with fonts := ["f1", "f2"], exposures := [ExpoElem.i 0] }
      ⟨[("tr/text", "T")]⟩ (some 4) out (by decide) h
    exact ⟨out, rfl, hc.1, hc.2.1⟩
  | error e =>
    have hb : isOkE (phase_I_generate_image
        { ctx0 with fonts := ["f1", "f2"], exposures := [ExpoElem.i 0] }
        (some 4) ⟨[("tr/text", "T")]⟩) = true := rfl
    rw [h] at hb
    exact Bool.noConfusion hb

end Tesstrain

namespace Tesstrain

/-! ### Path and glob lemmas for the LSTM-data assembly (claim C6) -/

theorem takeWhile_append_stop (p : Char → Bool) (x : Char) (l2 l1 : List Char)
    (h1 : ∀ c ∈ l1, p c = true) (hx : p x = false) :
    (l1 ++ x :: l2).takeWhile p = l1 := by
  induction l1 with
  | nil => simp [List.takeWhile_cons, hx]
  | cons c cs ih =>
    have hc : p c = true := h1 c (by simp)
    rw [List.cons_append, List.takeWhile_cons, if_pos hc,
      ih (fun d hd => h1 d (by simp [hd]))]

theorem fileName_concat (d n : String) (hn : ∀ c ∈ n.data, (!(c == '/')) = true) :
    fileName (d ++ "/" ++ n) = n := by
  unfold fileName
  have hdata : (d ++ "/" ++ n).data.reverse = n.data.reverse ++ '/' :: d.data.reverse := by
    rw [strData_append, strData_append]
    have hs : "/".data = ['/'] := rfl
    rw [hs, List.reverse_append, List.reverse_append]
    rfl
  rw [hdata,
    takeWhile_append_stop _ _ _ _ (fun c hc => hn c (List.mem_reverse.mp hc)) (by decide),
    List.reverse_reverse]

theorem strAppend_left_cancel {a b s : String} (h : s ++ a = s ++ b) : a = b := by
  apply String.ext
  have h2 := congrArg String.data h
  rw [strData_append, strData_append] at h2
  exact List.append_cancel_left h2

theorem concat_dir_inj {d1 d2 n1 n2 : String}
    (h1 : ∀ c ∈ n1.data, (!(c == '/')) = true) (h2 : ∀ c ∈ n2.data, (!(c == '/')) = true)
    (h : d1 ++ "/" ++ n1 = d2 ++ "/" ++ n2) : d1 = d2 ∧ n1 = n2 := by
  have hn : n1 = n2 := by
    have h3 := congrArg fileName h
    rwa [fileName_concat d1 n1 h1, fileName_concat d2 n2 h2] at h3
  subst hn
  exact ⟨strAppend_right_cancel (strAppend_right_cancel h), rfl⟩

theorem contains_false_iff (cs : List Char) (a : Char) :
    cs.contains a = false ↔ ∀ c ∈ cs, (!(c == a)) = true := by
  constructor
  · intro h c hc
    cases hb : (c == a) with
    | false => rfl
    | true =>
      rw [beq_iff_eq.mp hb] at hc
      have h2 : cs.contains a = true := List.elem_iff.mpr hc
      rw [h] at h2
      exact Bool.noConfusion h2
  · intro h
    cases hb : cs.contains a with
    | false => rfl
    | true =>
      have := h a (List.elem_iff.mp hb)
      simp at this

theorem isPrefixOf_elim : ∀ (l1 l2 : List Char), l1.isPrefixOf l2 = true → ∃ t, l1 ++ t = l2
  | [], l2, _ => ⟨l2, rfl⟩
  | _ :: _, [], h => Bool.noConfusion h
  | a :: as, b :: bs, h => by
    have h' : ((a == b) && as.isPrefixOf bs) = true := h
    rw [Bool.and_eq_true] at h'
    obtain ⟨t, ht⟩ := isPrefixOf_elim as bs h'.2
    refine ⟨t, ?_⟩
    rw [List.cons_append, beq_iff_eq.mp h'.1, ht]

end Tesstrain

namespace Tesstrain

theorem globPred_elim {dir : String} {pat : String → Bool} {p : String}
    (h : globPred dir pat p = true) :
    ∃ name : String, p = dir ++ "/" ++ name
      ∧ (∀ c ∈ name.data, (!(c == '/')) = true) ∧ pat name = true := by
  unfold globPred at h
  simp only [] at h
  rw [Bool.and_eq_true, Bool.and_eq_true] at h
  obtain ⟨hpre, hcont, hpat⟩ := h
  obtain ⟨t, ht⟩ := isPrefixOf_elim _ _ hpre
  have hdrop : p.data.drop (dir ++ "/").data.length = t := by
    rw [← ht, List.drop_left]
  rw [hdrop] at hcont hpat
  have hcont2 : t.contains '/' = false := by
    cases hb : t.contains '/' with
    | false => rfl
    | true => rw [hb] at hcont; exact Bool.noConfusion hcont
  refine ⟨String.mk t, ?_, (contains_false_iff t '/').mp hcont2, hpat⟩
  apply String.ext
  rw [strData_append]
  exact ht.symm

theorem globPred_intro (dir : String) (pat : String → Bool) (name : String)
    (hn : ∀ c ∈ name.data, (!(c == '/')) = true) :
    globPred dir pat (dir ++ "/" ++ name) = pat name := by
  unfold globPred
  simp only []
  rw [strData_append (dir ++ "/") name, isPrefixOf_self_append, List.drop_left]
  have hc : name.data.contains '/' = false := (contains_false_iff name.data '/').mpr hn
  rw [hc]
  show (true && (true && pat name)) = pat name
  rw [Bool.true_and, Bool.true_and]

theorem globPred_other_dir {dir d2 : String} (pat : String → Bool) {name : String}
    (hd : d2 ≠ dir) (hn : ∀ c ∈ name.data, (!(c == '/')) = true) :
    globPred dir pat (d2 ++ "/" ++ name) = false := by
  cases hb : globPred dir pat (d2 ++ "/" ++ name) with
  | false => rfl
  | true =>
    obtain ⟨name2, heq, hn2, -⟩ := globPred_elim hb
    exact absurd (concat_dir_inj hn hn2 heq).1 hd

end Tesstrain

namespace Tesstrain

theorem paths_write (fs : FS) (p c : String) :
    (fs.write p c).paths = if fs.pathExists p then fs.paths else fs.paths ++ [p] := by
  unfold FS.write
  split_ifs with h
  · show (FS.mk (fs.files.map (fun e => if e.1 == p then (p, c) else e))).paths = fs.paths
    unfold FS.paths
    rw [List.map_map]
    apply List.map_congr_left
    intro e _
    by_cases hep : (e.1 == p) = true
    · simp only [Function.comp, hep, if_pos]
      exact (beq_iff_eq.mp hep).symm
    · simp only [Function.comp, hep]
      rfl
  · show (FS.mk (fs.files ++ [(p, c)])).paths = fs.paths ++ [p]
    unfold FS.paths
    rw [List.map_append]
    rfl

theorem paths_write_nodup (fs : FS) (p c : String) (h : fs.paths.Nodup) :
    (fs.write p c).paths.Nodup := by
  rw [paths_write]
  split_ifs with hex
  · exact h
  · rw [← List.concat_eq_append]
    exact List.Nodup.concat (fun hmem => hex ((pathExists_iff_mem_paths fs p).mpr hmem)) h

theorem glob_write_nonmatching (fs : FS) (p c dir : String) (pat : String → Bool)
    (h : globPred dir pat p = false) :
    (fs.write p c).glob dir pat = fs.glob dir pat := by
  unfold FS.glob
  rw [paths_write]
  split_ifs with hex
  · rfl
  · rw [List.filter_append]
    have h2 : List.filter (globPred dir pat) [p] = [] := by
      rw [List.filter_cons]
      simp [h]
    rw [h2, List.append_nil]

theorem map_fst_filter_ne (src dst : String) (files : List (String × String)) :
    (files.filter (fun e => !(e.1 == src) && !(e.1 == dst))).map Prod.fst
      = (files.map Prod.fst).filter (fun q => !(q == src) && !(q == dst)) := by
  induction files with
  | nil => rfl
  | cons e es ih =>
    rw [List.filter_cons, List.map_cons, List.filter_cons]
    by_cases hk : (!(e.1 == src) && !(e.1 == dst)) = true
    · simp only [hk, if_true, List.map_cons, ih]
    · rw [if_neg hk, if_neg hk, ih]

theorem paths_move (fs : FS) (src dst : String) :
    (fs.move src dst).paths
      = fs.paths.filter (fun q => !(q == src) && !(q == dst)) ++ [dst] := by
  unfold FS.move
  simp only []
  show (FS.mk (fs.files.filter (fun e => !(e.1 == src) && !(e.1 == dst))
      ++ [(dst, (fs.read? src).getD "")])).paths = _
  unfold FS.paths
  rw [List.map_append, map_fst_filter_ne]
  rfl

theorem filter_swap {α : Type} (p q : α → Bool) (l : List α) :
    (l.filter q).filter p = (l.filter p).filter q := by
  induction l with
  | nil => rfl
  | cons x xs ih =>
    by_cases hp : p x = true <;> by_cases hq : q x = true <;>
      simp [List.filter_cons, hp, hq, ih]

theorem glob_move (fs : FS) (src dst dir : String) (pat : String → Bool) :
    (fs.move src dst).glob dir pat
      = (fs.glob dir pat).filter (fun q => !(q == src) && !(q == dst))
        ++ (if globPred dir pat dst then [dst] else []) := by
  unfold FS.glob
  rw [paths_move, List.filter_append, filter_swap]
  congr 1
  rw [List.filter_cons]
  by_cases hd : globPred dir pat dst = true
  · simp [hd]
  · simp [hd]

end Tesstrain

namespace Tesstrain

theorem glob_nodup (fs : FS) (dir : String) (pat : String → Bool)
    (h : fs.paths.Nodup) : (fs.glob dir pat).Nodup :=
  List.Nodup.filter _ h

theorem glob_map_fileName_nodup (fs : FS) (dir : String) (pat : String → Bool)
    (h : fs.paths.Nodup) : ((fs.glob dir pat).map fileName).Nodup := by
  apply List.Nodup.map_on ?_ (glob_nodup fs dir pat h)
  intro x hx y hy hf
  have hx2 : x ∈ fs.paths.filter (globPred dir pat) := hx
  have hy2 : y ∈ fs.paths.filter (globPred dir pat) := hy
  obtain ⟨nx, hxe, hnx, -⟩ := globPred_elim (List.mem_filter.mp hx2).2
  obtain ⟨ny, hye, hny, -⟩ := globPred_elim (List.mem_filter.mp hy2).2
  rw [hxe, hye]
  rw [hxe, fileName_concat dir nx hnx, hye, fileName_concat dir ny hny] at hf
  rw [hf]

theorem moveFold_glob (tdir odir : String) (pat : String → Bool) (hdirs : tdir ≠ odir)
    (ms : List String) :
    ∀ fs : FS,
      (∀ p ∈ ms, ∃ name : String, p = tdir ++ "/" ++ name
        ∧ (∀ c ∈ name.data, (!(c == '/')) = true)) →
      (∀ p ∈ ms, pat (fileName p) = true → (odir ++ "/" ++ fileName p) ∉ fs.paths) →
      ((ms.filter (fun r => pat (fileName r))).map fileName).Nodup →
      (ms.foldl (fun fs p => fs.move p (odir ++ "/" ++ fileName p)) fs).glob odir pat
        = fs.glob odir pat
          ++ (ms.filter (fun r => pat (fileName r))).map (fun p => odir ++ "/" ++ fileName p) := by
  induction ms with
  | nil => intro fs _ _ _; simp
  | cons p ms ih =>
    intro fs hshape hdst hnodup
    obtain ⟨name, hpeq, hname⟩ := hshape p (by simp)
    have hfile : fileName p = name := by rw [hpeq]; exact fileName_concat tdir name hname
    have hgpd : globPred odir pat (odir ++ "/" ++ fileName p) = pat (fileName p) := by
      rw [hfile]
      exact globPred_intro odir pat name hname
    have hkeep : ∀ q ∈ fs.glob odir pat,
        (!(q == p) && !(q == odir ++ "/" ++ fileName p)) = true := by
      intro q hq
      have hq2 : q ∈ fs.paths.filter (globPred odir pat) := hq
      have hqmem : q ∈ fs.paths := (List.mem_filter.mp hq2).1
      have hqpred : globPred odir pat q = true := (List.mem_filter.mp hq2).2
      obtain ⟨nq, hqeq, hnq, -⟩ := globPred_elim hqpred
      have hq1 : (q == p) = false := by
        cases hb : (q == p) with
        | false => rfl
        | true =>
          have hqp : q = p := beq_iff_eq.mp hb
          rw [hqp, hpeq] at hqeq
          exact absurd (concat_dir_inj hname hnq hqeq).1 hdirs
      have hq3 : (q == odir ++ "/" ++ fileName p) = false := by
        cases hb : (q == odir ++ "/" ++ fileName p) with
        | false => rfl
        | true =>
          by_cases hpp : pat (fileName p) = true
          · have hnot := hdst p (List.mem_cons_self p ms) hpp
            rw [← beq_iff_eq.mp hb] at hnot
            exact absurd hqmem hnot
          · have hgq := hgpd
            rw [← beq_iff_eq.mp hb, hqpred] at hgq
            exact absurd hgq.symm hpp
      rw [hq1, hq3]
      rfl
    have hdst2 : ∀ q ∈ ms, pat (fileName q) = true →
        (odir ++ "/" ++ fileName q) ∉ (fs.move p (odir ++ "/" ++ fileName p)).paths := by
      intro q hq hqp hmem
      rw [paths_move] at hmem
      rcases List.mem_append.mp hmem with hm | hm
      · exact hdst q (by simp [hq]) hqp (List.mem_of_mem_filter hm)
      · have heq : odir ++ "/" ++ fileName q = odir ++ "/" ++ fileName p :=
          List.mem_singleton.mp hm
        have hfq : fileName q = fileName p := strAppend_left_cancel heq
        by_cases hpp : pat (fileName p) = true
        · have hfilter : (p :: ms).filter (fun r => pat (fileName r))
              = p :: ms.filter (fun r => pat (fileName r)) := by
            rw [List.filter_cons, if_pos hpp]
          rw [hfilter, List.map_cons] at hnodup
          apply (List.nodup_cons.mp hnodup).1
          rw [← hfq]
          exact List.mem_map_of_mem fileName (List.mem_filter.mpr ⟨hq, hqp⟩)
        · rw [hfq] at hqp
          exact absurd hqp hpp
    by_cases hpp : pat (fileName p) = true
    · have hstep : (fs.move p (odir ++ "/" ++ fileName p)).glob odir pat
          = fs.glob odir pat ++ [odir ++ "/" ++ fileName p] := by
        rw [glob_move, hgpd, if_pos hpp]
        congr 1
        exact List.filter_eq_self.mpr hkeep
      have hfilter : (p :: ms).filter (fun r => pat (fileName r))
          = p :: ms.filter (fun r => pat (fileName r)) := by
        rw [List.filter_cons, if_pos hpp]
      have hnodup2 : ((ms.filter (fun r => pat (fileName r))).map fileName).Nodup := by
        rw [hfilter, List.map_cons] at hnodup
        exact (List.nodup_cons.mp hnodup).2
      rw [List.foldl_cons,
        ih (fs.move p (odir ++ "/" ++ fileName p)) (fun q hq => hshape q (by simp [hq]))
          hdst2 hnodup2,
        hstep, hfilter, List.map_cons, List.append_assoc]
      rfl
    · have hstep : (fs.move p (odir ++ "/" ++ fileName p)).glob odir pat
          = fs.glob odir pat := by
        rw [glob_move, hgpd, if_neg hpp, List.append_nil]
        exact List.filter_eq_self.mpr hkeep
      have hfilter : (p :: ms).filter (fun r => pat (fileName r))
          = ms.filter (fun r => pat (fileName r)) := by
        rw [List.filter_cons, if_neg hpp]
      have hnodup2 : ((ms.filter (fun r => pat (fileName r))).map fileName).Nodup := by
        rw [hfilter] at hnodup
        exact hnodup
      rw [List.foldl_cons,
        ih (fs.move p (odir ++ "/" ++ fileName p)) (fun q hq => hshape q (by simp [hq]))
          hdst2 hnodup2,
        hstep, hfilter]

end Tesstrain

namespace Tesstrain

theorem find?_cons_true {α : Type} (f : α → Bool) (a : α) (l : List α) (h : f a = true) :
    (a :: l).find? f = some a := by
  simp [List.find?_cons, h]

theorem find?_cons_false {α : Type} (f : α → Bool) (a : α) (l : List α) (h : f a = false) :
    (a :: l).find? f = l.find? f := by
  simp [List.find?_cons, h]

theorem find?_map_write_aux (p c : String) (files : List (String × String))
    (h : files.any (fun e => e.1 == p) = true) :
    ((files.map (fun e => if e.1 == p then (p, c) else e)).find?
      (fun e => e.1 == p)).map (fun e => e.2) = some c := by
  induction files with
  | nil => exact Bool.noConfusion h
  | cons e es ih =>
    rw [List.map_cons]
    by_cases hep : (e.1 == p) = true
    · rw [if_pos hep, find?_cons_true (fun e => e.1 == p) (p, c) _ (beq_iff_eq.mpr rfl)]
      rfl
    · have hep2 : (e.1 == p) = false := by
        cases hb : (e.1 == p) with
        | false => rfl
        | true => exact absurd hb hep
      rw [if_neg hep, find?_cons_false (fun e => e.1 == p) e _ hep2]
      apply ih
      rw [List.any_cons, Bool.or_eq_true] at h
      rcases h with h | h
      · exact absurd h hep
      · exact h

theorem find?_append_last (p c : String) (files : List (String × String))
    (h : files.any (fun e => e.1 == p) = false) :
    (files ++ [(p, c)]).find? (fun e => e.1 == p) = some (p, c) := by
  induction files with
  | nil =>
    show List.find? _ [(p, c)] = _
    rw [find?_cons_true (fun e => e.1 == p) (p, c) _ (beq_iff_eq.mpr rfl)]
  | cons e es ih =>
    rw [List.any_cons] at h
    by_cases hep : (e.1 == p) = true
    · rw [hep, Bool.true_or] at h
      exact Bool.noConfusion h
    · have hep2 : (e.1 == p) = false := by
        cases hb : (e.1 == p) with
        | false => rfl
        | true => exact absurd hb hep
      rw [List.cons_append, find?_cons_false (fun e => e.1 == p) e _ hep2]
      apply ih
      cases hb : es.any (fun e => e.1 == p) with
      | false => rfl
      | true =>
        rw [hb, Bool.or_true] at h
        exact Bool.noConfusion h

theorem read?_write_self (fs : FS) (p c : String) : (fs.write p c).read? p = some c := by
  unfold FS.write
  split_ifs with h
  · show FS.read? ⟨fs.files.map (fun e => if e.1 == p then (p, c) else e)⟩ p = some c
    unfold FS.read?
    exact find?_map_write_aux p c fs.files h
  · show FS.read? ⟨fs.files ++ [(p, c)]⟩ p = some c
    unfold FS.read?
    show ((fs.files ++ [(p, c)]).find? (fun e => e.1 == p)).map (fun e => e.2) = some c
    have hfalse : fs.files.any (fun e => e.1 == p) = false := by
      cases hb : fs.files.any (fun e => e.1 == p) with
      | false => rfl
      | true => exact absurd hb h
    rw [find?_append_last p c fs.files hfalse]
    rfl

end Tesstrain

namespace Tesstrain

theorem isPrefixOf_trans {l1 l2 l3 : List Char} (h1 : l1.isPrefixOf l2 = true)
    (h2 : l2.isPrefixOf l3 = true) : l1.isPrefixOf l3 = true := by
  obtain ⟨t, ht⟩ := isPrefixOf_elim _ _ h1
  obtain ⟨u, hu⟩ := isPrefixOf_elim _ _ h2
  rw [← hu, ← ht, List.append_assoc]
  exact isPrefixOf_self_append _ _

theorem isPrefixOf_of_common : ∀ (l1 l2 n : List Char), l1.isPrefixOf n = true →
    l2.isPrefixOf n = true → l1.length ≤ l2.length → l1.isPrefixOf l2 = true
  | [], _, _, _, _, _ => by simp [List.isPrefixOf]
  | _ :: _, _, [], h1, _, _ => Bool.noConfusion h1
  | a :: as, [], _ :: _, _, _, hle => by
    exact absurd hle (by simp)
  | a :: as, c :: cs, b :: bs, h1, h2, hle => by
    have h1' : ((a == b) && as.isPrefixOf bs) = true := h1
    have h2' : ((c == b) && cs.isPrefixOf bs) = true := h2
    rw [Bool.and_eq_true] at h1' h2'
    show ((a == c) && as.isPrefixOf cs) = true
    rw [Bool.and_eq_true]
    constructor
    · rw [beq_iff_eq.mp h1'.1, ← beq_iff_eq.mp h2'.1]
      exact beq_iff_eq.mpr rfl
    · exact isPrefixOf_of_common as cs bs h1'.2 h2'.2 (by simpa using hle)

theorem isSuffixOf_drop (k : Nat) (l : List Char) : (l.drop k).isSuffixOf l = true := by
  show (l.drop k).reverse.isPrefixOf l.reverse = true
  have h : l.reverse = (l.drop k).reverse ++ (l.take k).reverse := by
    rw [← List.reverse_append, List.take_append_drop]
  rw [h]
  exact isPrefixOf_self_append _ _

theorem isSuffixOf_trans {l1 l2 l3 : List Char} (h1 : l1.isSuffixOf l2 = true)
    (h2 : l2.isSuffixOf l3 = true) : l1.isSuffixOf l3 = true :=
  isPrefixOf_trans h1 h2

theorem isSuffixOf_of_common {l1 l2 n : List Char} (h1 : l1.isSuffixOf n = true)
    (h2 : l2.isSuffixOf n = true) (hle : l1.length ≤ l2.length) :
    l1.isSuffixOf l2 = true := by
  show l1.reverse.isPrefixOf l2.reverse = true
  exact isPrefixOf_of_common l1.reverse l2.reverse n.reverse h1 h2
    (by rw [List.length_reverse, List.length_reverse]; exact hle)

theorem patPrePost_suffix {pre post name : String} (h : patPrePost pre post name = true) :
    post.data.isSuffixOf name.data = true := by
  unfold patPrePost at h
  rw [Bool.and_eq_true] at h
  exact isSuffixOf_trans h.2 (isSuffixOf_drop _ _)

theorem box_name_not_lstmf {lang lang2 name : String}
    (hb : patPrePost lang ".box" name = true) :
    patPrePost (lang2 ++ ".") ".lstmf" name = false := by
  cases hc : patPrePost (lang2 ++ ".") ".lstmf" name with
  | false => rfl
  | true =>
    have h3 : ".box".data.isSuffixOf ".lstmf".data = true :=
      isSuffixOf_of_common (patPrePost_suffix hb) (patPrePost_suffix hc) (by decide)
    rw [show (".box".data.isSuffixOf ".lstmf".data) = false from by decide] at h3
    exact Bool.noConfusion h3

theorem tif_name_not_lstmf {lang lang2 name : String}
    (hb : patPrePost lang ".tif" name = true) :
    patPrePost (lang2 ++ ".") ".lstmf" name = false := by
  cases hc : patPrePost (lang2 ++ ".") ".lstmf" name with
  | false => rfl
  | true =>
    have h3 : ".tif".data.isSuffixOf ".lstmf".data = true :=
      isSuffixOf_of_common (patPrePost_suffix hb) (patPrePost_suffix hc) (by decide)
    rw [show (".tif".data.isSuffixOf ".lstmf".data) = false from by decide] at h3
    exact Bool.noConfusion h3

end Tesstrain


namespace Tesstrain

/-- Claim C6 (amended): with distinct training and output directories, a
slash-free language code, duplicate-free initial paths and no stale
`.lstmf` files in the output directory, the manifest written by
`make_lstmdata` is the `"\n"`-JOIN (one path per line but with NO newline
after the last path) of the output-directory locations of the relocated
`.lstmf` feature files, each of which is indeed present in the output
directory; the box/tiff relocations of `save_box_tiff` never carry
`.lstmf` names, so the manifest is the same with the option on or off. -/
theorem C6_manifest_amended (ctx : TrainingArguments) (fs : FS)
    (out : TrainingArguments × FS)
    (hdirs : ctx.training_dir ≠ ctx.output_dir)
    (hlang : ∀ c ∈ ctx.lang_code.data, (!(c == '/')) = true)
    (hnod : fs.paths.Nodup)
    (hout0 : fs.glob ctx.output_dir (patPrePost (ctx.lang_code ++ ".") ".lstmf") = [])
    (h : make_lstmdata ctx fs = .ok out) :
    out.2.read? (ctx.output_dir ++ "/" ++ ctx.lang_code ++ ".training_files.txt")
        = some (joinSep "\n"
            ((fs.glob ctx.training_dir (patPrePost (ctx.lang_code ++ ".") ".lstmf")).map
              (fun p => ctx.output_dir ++ "/" ++ fileName p)))
      ∧ ∀ p ∈ fs.glob ctx.training_dir (patPrePost (ctx.lang_code ++ ".") ".lstmf"),
          (ctx.output_dir ++ "/" ++ fileName p) ∈ out.2.paths := by
  have hsufT : ∀ c ∈ ".traineddata".data, (!(c == '/')) = true := by decide
  have hnameT : ∀ c ∈ (ctx.lang_code ++ ".traineddata").data, (!(c == '/')) = true := by
    intro c hc
    rw [strData_append] at hc
    rcases List.mem_append.mp hc with hc | hc
    · exact hlang c hc
    · exact hsufT c hc
  have hdstT : ctx.output_dir ++ "/" ++ ctx.lang_code ++ ".traineddata"
      = ctx.output_dir ++ "/" ++ (ctx.lang_code ++ ".traineddata") := by
    apply String.ext
    simp [strData_append, List.append_assoc]
  have hassoc : ctx.lang_code ++ ".traineddata" = (ctx.lang_code ++ ".") ++ "traineddata" := by
    apply String.ext
    rw [strData_append, strData_append, strData_append, List.append_assoc]
    have h1 : ".traineddata".data = ".".data ++ "traineddata".data := rfl
    rw [h1]
  have hpatT : patPrePost (ctx.lang_code ++ ".") ".lstmf" (ctx.lang_code ++ ".traineddata")
      = false := by
    rw [hassoc]
    unfold patPrePost
    rw [strData_append (ctx.lang_code ++ ".") "traineddata", isPrefixOf_self_append,
      List.drop_left]
    decide
  have hgpT_tr : ∀ pat2 : String → Bool, globPred ctx.training_dir pat2
      (ctx.output_dir ++ "/" ++ ctx.lang_code ++ ".traineddata") = false := by
    intro pat2
    rw [hdstT]
    exact globPred_other_dir _ (Ne.symm hdirs) hnameT
  have hgpT_out : globPred ctx.output_dir (patPrePost (ctx.lang_code ++ ".") ".lstmf")
      (ctx.output_dir ++ "/" ++ ctx.lang_code ++ ".traineddata") = false := by
    rw [hdstT, globPred_intro _ _ _ hnameT]
    exact hpatT
  have hglob_tr : (fs.write (ctx.output_dir ++ "/" ++ ctx.lang_code ++ ".traineddata") "").glob
      ctx.training_dir (patPrePost (ctx.lang_code ++ ".") ".lstmf")
      = fs.glob ctx.training_dir (patPrePost (ctx.lang_code ++ ".") ".lstmf") :=
    glob_write_nonmatching _ _ _ _ _ (hgpT_tr _)
  have hglob_out : (fs.write (ctx.output_dir ++ "/" ++ ctx.lang_code ++ ".traineddata") "").glob
      ctx.output_dir (patPrePost (ctx.lang_code ++ ".") ".lstmf") = [] := by
    rw [glob_write_nonmatching _ _ _ _ _ hgpT_out, hout0]
  have hnod1 : (fs.write (ctx.output_dir ++ "/" ++ ctx.lang_code
      ++ ".traineddata") "").paths.Nodup :=
    paths_write_nodup fs _ "" hnod
  have hshape_any : ∀ (pat2 : String → Bool) p,
      p ∈ (fs.write (ctx.output_dir ++ "/" ++ ctx.lang_code ++ ".traineddata") "").glob
        ctx.training_dir pat2 →
      ∃ name : String, p = ctx.training_dir ++ "/" ++ name
        ∧ (∀ c ∈ name.data, (!(c == '/')) = true) ∧ pat2 name = true := by
    intro pat2 p hp
    have hp2 : p ∈ (fs.write (ctx.output_dir ++ "/" ++ ctx.lang_code
        ++ ".traineddata") "").paths.filter (globPred ctx.training_dir pat2) := hp
    exact globPred_elim (List.mem_filter.mp hp2).2
  have hTM_shape : ∀ p ∈ ((if ctx.save_box_tiff then
        (fs.write (ctx.output_dir ++ "/" ++ ctx.lang_code ++ ".traineddata") "").glob
            ctx.training_dir (patPrePost ctx.lang_code ".box")
          ++ (fs.write (ctx.output_dir ++ "/" ++ ctx.lang_code ++ ".traineddata") "").glob
            ctx.training_dir (patPrePost ctx.lang_code ".tif")
      else [])
      ++ (fs.write (ctx.output_dir ++ "/" ++ ctx.lang_code ++ ".traineddata") "").glob
        ctx.training_dir (patPrePost (ctx.lang_code ++ ".") ".lstmf")),
      ∃ name : String, p = ctx.training_dir ++ "/" ++ name
        ∧ (∀ c ∈ name.data, (!(c == '/')) = true) := by
    intro p hp
    rcases List.mem_append.mp hp with hm | hm
    · by_cases hs : ctx.save_box_tiff = true
      · rw [if_pos hs] at hm
        rcases List.mem_append.mp hm with hm2 | hm2
        · obtain ⟨name, h1, h2, -⟩ := hshape_any _ p hm2
          exact ⟨name, h1, h2⟩
        · obtain ⟨name, h1, h2, -⟩ := hshape_any _ p hm2
          exact ⟨name, h1, h2⟩
      · rw [if_neg hs] at hm
        exact absurd hm (List.not_mem_nil p)
    · obtain ⟨name, h1, h2, -⟩ := hshape_any _ p hm
      exact ⟨name, h1, h2⟩
  have hTM_dstfree : ∀ p ∈ ((if ctx.save_box_tiff then
        (fs.write (ctx.output_dir ++ "/" ++ ctx.lang_code ++ ".traineddata") "").glob
            ctx.training_dir (patPrePost ctx.lang_code ".box")
          ++ (fs.write (ctx.output_dir ++ "/" ++ ctx.lang_code ++ ".traineddata") "").glob
            ctx.training_dir (patPrePost ctx.lang_code ".tif")
      else [])
      ++ (fs.write (ctx.output_dir ++ "/" ++ ctx.lang_code ++ ".traineddata") "").glob
        ctx.training_dir (patPrePost (ctx.lang_code ++ ".") ".lstmf")),
      patPrePost (ctx.lang_code ++ ".") ".lstmf" (fileName p) = true →
      (ctx.output_dir ++ "/" ++ fileName p)
        ∉ (fs.write (ctx.output_dir ++ "/" ++ ctx.lang_code ++ ".traineddata") "").paths := by
    intro p hp hpt hmem
    obtain ⟨name, hpeq, hname⟩ := hTM_shape p hp
    have hfn : fileName p = name := by rw [hpeq]; exact fileName_concat _ _ hname
    have hgp : globPred ctx.output_dir (patPrePost (ctx.lang_code ++ ".") ".lstmf")
        (ctx.output_dir ++ "/" ++ fileName p) = true := by
      rw [hfn, globPred_intro _ _ _ hname, ← hfn]
      exact hpt
    have hmem2 : (ctx.output_dir ++ "/" ++ fileName p)
        ∈ (fs.write (ctx.output_dir ++ "/" ++ ctx.lang_code ++ ".traineddata") "").glob
          ctx.output_dir (patPrePost (ctx.lang_code ++ ".") ".lstmf") :=
      List.mem_filter.mpr ⟨hmem, hgp⟩
    rw [hglob_out] at hmem2
    exact absurd hmem2 (List.not_mem_nil _)
  have hTM_filter : ((if ctx.save_box_tiff then
        (fs.write (ctx.output_dir ++ "/" ++ ctx.lang_code ++ ".traineddata") "").glob
            ctx.training_dir (patPrePost ctx.lang_code ".box")
          ++ (fs.write (ctx.output_dir ++ "/" ++ ctx.lang_code ++ ".traineddata") "").glob
            ctx.training_dir (patPrePost ctx.lang_code ".tif")
      else [])
      ++ (fs.write (ctx.output_dir ++ "/" ++ ctx.lang_code ++ ".traineddata") "").glob
        ctx.training_dir (patPrePost (ctx.lang_code ++ ".") ".lstmf")).filter
        (fun r => patPrePost (ctx.lang_code ++ ".") ".lstmf" (fileName r))
      = (fs.write (ctx.output_dir ++ "/" ++ ctx.lang_code ++ ".traineddata") "").glob
        ctx.training_dir (patPrePost (ctx.lang_code ++ ".") ".lstmf") := by
    rw [List.filter_append]
    have hL : ((fs.write (ctx.output_dir ++ "/" ++ ctx.lang_code ++ ".traineddata") "").glob
          ctx.training_dir (patPrePost (ctx.lang_code ++ ".") ".lstmf")).filter
          (fun r => patPrePost (ctx.lang_code ++ ".") ".lstmf" (fileName r))
        = (fs.write (ctx.output_dir ++ "/" ++ ctx.lang_code ++ ".traineddata") "").glob
          ctx.training_dir (patPrePost (ctx.lang_code ++ ".") ".lstmf") := by
      apply List.filter_eq_self.mpr
      intro p hp
      obtain ⟨name, h1, h2, h3⟩ := hshape_any _ p hp
      rw [h1, fileName_concat _ _ h2]
      exact h3
    have hBT : ((if ctx.save_box_tiff then
          (fs.write (ctx.output_dir ++ "/" ++ ctx.lang_code ++ ".traineddata") "").glob
              ctx.training_dir (patPrePost ctx.lang_code ".box")
            ++ (fs.write (ctx.output_dir ++ "/" ++ ctx.lang_code ++ ".traineddata") "").glob
              ctx.training_dir (patPrePost ctx.lang_code ".tif")
        else [] : List String)).filter
        (fun r => patPrePost (ctx.lang_code ++ ".") ".lstmf" (fileName r)) = [] := by
      by_cases hs : ctx.save_box_tiff = true
      · rw [if_pos hs, List.filter_append]
        have hB : ((fs.write (ctx.output_dir ++ "/" ++ ctx.lang_code ++ ".traineddata") "").glob
              ctx.training_dir (patPrePost ctx.lang_code ".box")).filter
              (fun r => patPrePost (ctx.lang_code ++ ".") ".lstmf" (fileName r)) = [] := by
          apply List.filter_eq_nil_iff.mpr
          intro p hp hcontra
          obtain ⟨name, h1, h2, h3⟩ := hshape_any _ p hp
          rw [h1, fileName_concat _ _ h2, box_name_not_lstmf h3] at hcontra
          exact Bool.noConfusion hcontra
        have hT : ((fs.write (ctx.output_dir ++ "/" ++ ctx.lang_code ++ ".traineddata") "").glob
              ctx.training_dir (patPrePost ctx.lang_code ".tif")).filter
              (fun r => patPrePost (ctx.lang_code ++ ".") ".lstmf" (fileName r)) = [] := by
          apply List.filter_eq_nil_iff.mpr
          intro p hp hcontra
          obtain ⟨name, h1, h2, h3⟩ := hshape_any _ p hp
          rw [h1, fileName_concat _ _ h2, tif_name_not_lstmf h3] at hcontra
          exact Bool.noConfusion hcontra
        rw [hB, hT]
        rfl
      · rw [if_neg hs]
        rfl
    rw [hBT, hL, List.nil_append]
  have hTM_nodup : ((((if ctx.save_box_tiff then
        (fs.write (ctx.output_dir ++ "/" ++ ctx.lang_code ++ ".traineddata") "").glob
            ctx.training_dir (patPrePost ctx.lang_code ".box")
          ++ (fs.write (ctx.output_dir ++ "/" ++ ctx.lang_code ++ ".traineddata") "").glob
            ctx.training_dir (patPrePost ctx.lang_code ".tif")
      else [])
      ++ (fs.write (ctx.output_dir ++ "/" ++ ctx.lang_code ++ ".traineddata") "").glob
        ctx.training_dir (patPrePost (ctx.lang_code ++ ".") ".lstmf")).filter
        (fun r => patPrePost (ctx.lang_code ++ ".") ".lstmf" (fileName r))).map
      fileName).Nodup := by
    rw [hTM_filter]
    exact glob_map_fileName_nodup _ ctx.training_dir _ hnod1
  have hfold : (((if ctx.save_box_tiff then
        (fs.write (ctx.output_dir ++ "/" ++ ctx.lang_code ++ ".traineddata") "").glob
            ctx.training_dir (patPrePost ctx.lang_code ".box")
          ++ (fs.write (ctx.output_dir ++ "/" ++ ctx.lang_code ++ ".traineddata") "").glob
            ctx.training_dir (patPrePost ctx.lang_code ".tif")
      else [])
      ++ (fs.write (ctx.output_dir ++ "/" ++ ctx.lang_code ++ ".traineddata") "").glob
        ctx.training_dir (patPrePost (ctx.lang_code ++ ".") ".lstmf")).foldl
        (fun fs p => fs.move p (ctx.output_dir ++ "/" ++ fileName p))
        (fs.write (ctx.output_dir ++ "/" ++ ctx.lang_code ++ ".traineddata") "")).glob
      ctx.output_dir (patPrePost (ctx.lang_code ++ ".") ".lstmf")
      = (fs.glob ctx.training_dir (patPrePost (ctx.lang_code ++ ".") ".lstmf")).map
          (fun p => ctx.output_dir ++ "/" ++ fileName p) := by
    rw [moveFold_glob ctx.training_dir ctx.output_dir
        (patPrePost (ctx.lang_code ++ ".") ".lstmf") hdirs _ _ hTM_shape hTM_dstfree hTM_nodup,
      hTM_filter, hglob_out, List.nil_append, hglob_tr]
  unfold make_lstmdata at h
  simp only [] at h
  rw [hfold] at h
  injection h with h
  subst h
  refine ⟨read?_write_self _ _ _, ?_⟩
  intro p hp
  apply (mem_paths_write _ _ _ _).mpr
  right
  have h1 : (ctx.output_dir ++ "/" ++ fileName p)
      ∈ (((if ctx.save_box_tiff then
        (fs.write (ctx.output_dir ++ "/" ++ ctx.lang_code ++ ".traineddata") "").glob
            ctx.training_dir (patPrePost ctx.lang_code ".box")
          ++ (fs.write (ctx.output_dir ++ "/" ++ ctx.lang_code ++ ".traineddata") "").glob
            ctx.training_dir (patPrePost ctx.lang_code ".tif")
      else [])
      ++ (fs.write (ctx.output_dir ++ "/" ++ ctx.lang_code ++ ".traineddata") "").glob
        ctx.training_dir (patPrePost (ctx.lang_code ++ ".") ".lstmf")).foldl
        (fun fs p => fs.move p (ctx.output_dir ++ "/" ++ fileName p))
        (fs.write (ctx.output_dir ++ "/" ++ ctx.lang_code ++ ".traineddata") "")).glob
      ctx.output_dir (patPrePost (ctx.lang_code ++ ".") ".lstmf") := by
    rw [hfold]
    exact List.mem_map_of_mem _ hp
  have h2 : (ctx.output_dir ++ "/" ++ fileName p)
      ∈ (((if ctx.save_box_tiff then
        (fs.write (ctx.output_dir ++ "/" ++ ctx.lang_code ++ ".traineddata") "").glob
            ctx.training_dir (patPrePost ctx.lang_code ".box")
          ++ (fs.write (ctx.output_dir ++ "/" ++ ctx.lang_code ++ ".traineddata") "").glob
            ctx.training_dir (patPrePost ctx.lang_code ".tif")
      else [])
      ++ (fs.write (ctx.output_dir ++ "/" ++ ctx.lang_code ++ ".traineddata") "").glob
        ctx.training_dir (patPrePost (ctx.lang_code ++ ".") ".lstmf")).foldl
        (fun fs p => fs.move p (ctx.output_dir ++ "/" ++ fileName p))
        (fs.write (ctx.output_dir ++ "/" ++ ctx.lang_code ++ ".traineddata") "")).paths.filter
      (globPred ctx.output_dir (patPrePost (ctx.lang_code ++ ".") ".lstmf")) := h1
  exact (List.mem_filter.mp h2).1

end Tesstrain

namespace Tesstrain

/-- Claim C6, counterexample to the stated form: the manifest is written
with `"\n".join(dir_listing)`, which puts a newline *between* paths but
none after the last one, so the file is not newline-terminated: on a run
relocating the single feature file `tr/eng.Font.exp0.lstmf`, the manifest
content is exactly `out/eng.Font.exp0.lstmf` with no trailing newline. -/
theorem C6_counterexample :
    ((make_lstmdata ctx0 ⟨[("tr/eng.Font.exp0.lstmf", "DATA")]⟩).toOption.bind
        (fun r => r.2.read? "out/eng.training_files.txt"))
      = some "out/eng.Font.exp0.lstmf"
    ∧ (("\n".data).isSuffixOf "out/eng.Font.exp0.lstmf".data) = false := by
  exact ⟨rfl, by decide⟩

/-- Witness instantiating `C6_manifest_amended` on a run with one feature
file; the manifest lists its relocated path. -/
theorem C6_manifest_amended_witness :
    ∃ out, make_lstmdata ctx0 ⟨[("tr/eng.Font.exp0.lstmf", "DATA")]⟩ = .ok out
      ∧ out.2.read? "out/eng.training_files.txt" = some "out/eng.Font.exp0.lstmf" := by
  cases h : make_lstmdata ctx0 ⟨[("tr/eng.Font.exp0.lstmf", "DATA")]⟩ with
  | ok out =>
    have hc := C6_manifest_amended ctx0 ⟨[("tr/eng.Font.exp0.lstmf", "DATA")]⟩ out
      (by decide) (by decide) (by decide) rfl h
    exact ⟨out, rfl, hc.1⟩
  | error e =>
    have hb : isOkE (make_lstmdata ctx0 ⟨[("tr/eng.Font.exp0.lstmf", "DATA")]⟩) = true := rfl
    rw [h] at hb
    exact Bool.noConfusion hb

end Tesstrain
